import Mathlib

/-!
# Campaign scheduling and execution engine

A shallow embedding of the campaign scheduler and executor of the CRM backend
(`internal/services/background_job_service.go`, the repositories it calls and
the models they store), of the handlers that create and delete a campaign
(`internal/handlers/campaign_handler.go`) and of the expiry check of invite
tokens (`internal/utils/token.go`), followed by theorems about them.

Modelling conventions:

* a `time.Time` is an instant in nanoseconds since the Unix epoch together
  with the offset of its location; `time.Duration` is an `Int` kept inside
  the signed 64-bit range by saturation, as `Time.Sub` does;
* Go `string`s are `String`s, pointers are `Option`s (`nil` is `none`);
* a column of type `uuid` read into a Go `string` is a `String`; a NULL
  column reads as the empty string, which is the only way the Go field can
  be empty;
* the database is a record of tables, each a list of rows; a statement on it
  fails only when its query finds no row (`First`);
* what the outside world decides (whether a send succeeds, the readings of the
  clock, whether inserting a job row succeeds) is an explicit argument.
-/

namespace RealEstate

/-! ## `time` -/

/-- An instant with the location it is displayed in. -/
structure Time where
  /-- Nanoseconds since 1970-01-01T00:00:00Z. -/
  ns : Int
  /-- Offset of the location, in seconds east of UTC. -/
  offset : Int
deriving DecidableEq, Repr

/-- Smallest `time.Duration`. -/
def minDuration : Int := -9223372036854775808

/-- Largest `time.Duration`. -/
def maxDuration : Int := 9223372036854775807

/-- The constant `time.Hour`, in nanoseconds. -/
def Hour : Int := 3600000000000

/-- The method `t.Sub(u)`: the duration `t - u`, saturated to the range of
`time.Duration`. -/
def Time.Sub (t u : Time) : Int :=
  let d := t.ns - u.ns
  if d < minDuration then minDuration
  else if maxDuration < d then maxDuration
  else d

/-- The method `t.After(u)`. -/
def Time.After (t u : Time) : Bool := decide (u.ns < t.ns)

/-- Days since 1970-01-01 of the civil date of `t` in its location. -/
def Time.civilDays (t : Time) : Int := (t.ns / 1000000000 + t.offset) / 86400

/-- The method `t.Weekday()` as an `int`: `0` is Sunday, `6` is Saturday. -/
def Time.Weekday (t : Time) : Int := (t.civilDays + 4) % 7

/-- The method `t.Day()`: the day of the month, by the usual conversion of a
day count to a proleptic Gregorian date. -/
def Time.Day (t : Time) : Int :=
  let z := t.civilDays + 719468
  let era := z / 146097
  let doe := z - era * 146097
  let yoe := (doe - doe / 1460 + doe / 36524 - doe / 146096) / 365
  let doy := doe - (365 * yoe + yoe / 4 - yoe / 100)
  let mp := (5 * doy + 2) / 153
  doy - (153 * mp + 2) / 5 + 1

/-! ## Models -/

/-- The model `models.Campaign`. -/
structure Campaign where
  ID : String
  OrganizationID : String
  Name : String
  TemplateID : String
  AudienceIDs : List String
  ContactID : Option String
  ScheduleType : String
  ScheduledAt : Time
  Recurrence : Option String
  RecurrenceDayOfWeek : Option Int
  RecurrenceDayOfMonth : Option Int
  RecurrenceTime : Option Time
  LastRunAt : Option Time
  Status : String
  CreatedBy : String
  CreatedAt : Time
  UpdatedAt : Time
deriving DecidableEq, Repr

/-! ## Recurrence eligibility -/

/-- The method `shouldRunRecurringCampaign`. The result is `none` when the
Go code dereferences a nil `Recurrence`. -/
def shouldRunRecurringCampaign (campaign : Campaign) (currentTime : Time) : Option Bool :=
  match campaign.LastRunAt with
  | none => some (currentTime.After campaign.ScheduledAt)
  | some lastRun =>
    match campaign.Recurrence with
    | none => none
    | some recurrence =>
      if recurrence = "daily" then
        some (decide (currentTime.Sub lastRun ≥ 24 * Hour))
      else if recurrence = "weekly" then
        match campaign.RecurrenceDayOfWeek with
        | some d =>
          some (decide (currentTime.Weekday = d) &&
            decide (currentTime.Sub lastRun ≥ 7 * 24 * Hour))
        | none => some false
      else if recurrence = "monthly" then
        match campaign.RecurrenceDayOfMonth with
        | some m =>
          some (decide (currentTime.Day = m) &&
            decide (currentTime.Sub lastRun ≥ 28 * 24 * Hour))
        | none => some false
      else some false

/-! ## The remaining models -/

/-- The model `models.EmailTemplate`. -/
structure EmailTemplate where
  ID : String
  OrganizationID : String
  Name : String
  Subject : String
  Preheader : String
  FromName : String
  ReplyTo : String
  HtmlBody : String
  PlainTextBody : String
  CreatedBy : String
  CreatedAt : Time
  UpdatedAt : Time
deriving DecidableEq, Repr

/-- The model `models.Contact`, without the property-preference columns
(budget, bedrooms, location and the like), which the campaign engine never
reads. -/
structure Contact where
  ID : String
  OrganizationID : String
  CreatedBy : String
  FirstName : String
  LastName : String
  Email : String
  Phone : String
  IsActive : Bool
  Notes : String
  CreatedAt : Time
  UpdatedAt : Time
deriving DecidableEq, Repr

/-- The model `models.AudienceContact`. -/
structure AudienceContact where
  ID : String
  AudienceID : String
  ContactID : String
  AddedAt : Time
deriving DecidableEq, Repr

/-- The model `models.CampaignLog`. -/
structure CampaignLog where
  ID : String
  CampaignID : String
  ContactID : String
  RecipientEmail : String
  Subject : String
  Status : String
  ErrorMessage : String
  SentAt : Option Time
  CreatedAt : Time
deriving DecidableEq, Repr

/-- The model `models.BackgroundJobLog`. -/
structure BackgroundJobLog where
  ID : String
  JobType : String
  OrganizationID : String
  ReferenceID : Option String
  Status : String
  TotalRecords : Option Nat
  ProcessedRecords : Option Nat
  ErrorMessage : String
  CreatedAt : Time
  UpdatedAt : Time
deriving DecidableEq, Repr

/-- The model `models.Notification`. -/
structure Notification where
  ID : String
  OrganizationID : String
  UserID : String
  NotificationType : String
  Title : String
  Message : String
  RelatedUserID : Option String
  RelatedCampaignID : Option String
  IsRead : Bool
  ReadAt : Option Time
  CreatedAt : Time
deriving DecidableEq, Repr

/-- One call of `EmailService.SendCampaignEmail`, with what it returned
(`none` for a nil error, the error text otherwise). -/
structure SendAttempt where
  To : String
  Subject : String
  HtmlBody : String
  PlainBody : String
  Err : Option String
deriving DecidableEq, Repr

/-- The database tables the engine touches, and the record of the calls made
to the email sender. -/
structure World where
  campaign : List Campaign
  email_template : List EmailTemplate
  contact : List Contact
  audience_contact : List AudienceContact
  campaign_log : List CampaignLog
  background_job_log : List BackgroundJobLog
  notification : List Notification
  mail : List SendAttempt

/-- The default `gen_random_uuid()` of a primary key: an identifier that no
row of the table has yet. -/
def freshID (used : List String) : String :=
  String.mk (List.replicate ((used.map String.length).foldr max 0 + 1) 'u')

/-- The zero `time.Time`, 0001-01-01T00:00:00Z. -/
def zeroTime : Time := ⟨-62135596800000000000, 0⟩

/-! ## `BackgroundJobRepository` -/

/-- The method `BackgroundJobRepository.Create`: the row is stored with a
generated id and the creation time; the stored row is returned, as GORM
writes it back into the struct. -/
def BackgroundJobRepository.Create (dbNow : Time) (job : BackgroundJobLog) (w : World) :
    World × BackgroundJobLog :=
  let row := { job with
    ID := freshID (w.background_job_log.map (·.ID)), CreatedAt := dbNow, UpdatedAt := dbNow }
  ({ w with background_job_log := w.background_job_log ++ [row] }, row)

/-- The method `BackgroundJobRepository.FindByID`; `none` is the error of
`First` on no row. -/
def BackgroundJobRepository.FindByID (w : World) (id : String) : Option BackgroundJobLog :=
  w.background_job_log.find? (fun j => decide (j.ID = id))

/-- The method `BackgroundJobRepository.Update`, GORM's `Save`: every column
of the row with that primary key is overwritten, `updated_at` is stamped,
and the row is inserted when none has the key. -/
def BackgroundJobRepository.Update (dbNow : Time) (job : BackgroundJobLog) (w : World) : World :=
  let row := { job with UpdatedAt := dbNow }
  if w.background_job_log.any (fun j => decide (j.ID = job.ID)) then
    { w with background_job_log :=
        w.background_job_log.map (fun j => if j.ID = job.ID then row else j) }
  else
    { w with background_job_log := w.background_job_log ++ [row] }

/-- The method `BackgroundJobRepository.UpdateStatus`. -/
def BackgroundJobRepository.UpdateStatus (dbNow : Time) (id status errorMessage : String)
    (w : World) : World :=
  { w with background_job_log := w.background_job_log.map (fun j =>
      if j.ID = id then
        { j with
          Status := status
          UpdatedAt := dbNow
          ErrorMessage := if errorMessage ≠ "" then errorMessage else j.ErrorMessage }
      else j) }

/-! ## `CampaignRepository` -/

/-- The method `CampaignRepository.FindByIDOnly`. -/
def CampaignRepository.FindByIDOnly (w : World) (id : String) : Option Campaign :=
  w.campaign.find? (fun c => decide (c.ID = id))

/-- The method `CampaignRepository.Update`, GORM's `Save`. -/
def CampaignRepository.Update (dbNow : Time) (campaign : Campaign) (w : World) : World :=
  let row := { campaign with UpdatedAt := dbNow }
  if w.campaign.any (fun c => decide (c.ID = campaign.ID)) then
    { w with campaign := w.campaign.map (fun c => if c.ID = campaign.ID then row else c) }
  else
    { w with campaign := w.campaign ++ [row] }

/-- The method `CampaignRepository.UpdateStatus`. -/
def CampaignRepository.UpdateStatus (dbNow : Time) (id status : String) (w : World) : World :=
  { w with campaign := w.campaign.map (fun c =>
      if c.ID = id then { c with Status := status, UpdatedAt := dbNow } else c) }

/-- The method `CampaignRepository.FindScheduledCampaigns`. The condition
`NOT organization_id IS NULL` reads, on the Go field, as the field not being
empty. -/
def CampaignRepository.FindScheduledCampaigns (w : World) (currentTime : Time) : List Campaign :=
  w.campaign.filter (fun c =>
    decide (c.Status = "scheduled") && decide (c.ScheduledAt.ns ≤ currentTime.ns) &&
    decide (c.LastRunAt = none) && !decide (c.OrganizationID = ""))

/-- The method `CampaignRepository.FindRecurringCampaigns`. -/
def CampaignRepository.FindRecurringCampaigns (w : World) : List Campaign :=
  w.campaign.filter (fun c =>
    decide (c.ScheduleType = "recurring") &&
    (decide (c.Status = "scheduled") || decide (c.Status = "running")) &&
    !decide (c.OrganizationID = ""))

/-- The method `CampaignRepository.GetRecipientContacts`. -/
def CampaignRepository.GetRecipientContacts (w : World) (campaign : Campaign) : List String :=
  match campaign.ContactID with
  | some contactID => [contactID]
  | none =>
    if campaign.AudienceIDs.length > 0 then
      ((w.audience_contact.filter (fun ac => decide (ac.AudienceID ∈ campaign.AudienceIDs))).map
        (·.ContactID)).dedup
    else []

/-! ## The other repositories -/

/-- The method `EmailTemplateRepository.FindByID`. -/
def EmailTemplateRepository.FindByID (w : World) (id orgID : String) : Option EmailTemplate :=
  w.email_template.find? (fun t => decide (t.ID = id) && decide (t.OrganizationID = orgID))

/-- The method `ContactRepository.FindByIDs`. -/
def ContactRepository.FindByIDs (w : World) (ids : List String) (orgID : String) : List Contact :=
  w.contact.filter (fun c => decide (c.ID ∈ ids) && decide (c.OrganizationID = orgID))

/-- The method `CampaignLogRepository.Create`; the stored row is returned. -/
def CampaignLogRepository.Create (dbNow : Time) (log : CampaignLog) (w : World) :
    World × CampaignLog :=
  let row := { log with ID := freshID (w.campaign_log.map (·.ID)), CreatedAt := dbNow }
  ({ w with campaign_log := w.campaign_log ++ [row] }, row)

/-- The method `CampaignLogRepository.UpdateStatus`. -/
def CampaignLogRepository.UpdateStatus (dbNow : Time) (logID status errorMessage : String)
    (w : World) : World :=
  { w with campaign_log := w.campaign_log.map (fun l =>
      if l.ID = logID then
        { l with
          Status := status
          ErrorMessage := if errorMessage ≠ "" then errorMessage else l.ErrorMessage
          SentAt := if status = "sent" then some dbNow else l.SentAt }
      else l) }

/-- The method `NotificationRepository.Create`. -/
def NotificationRepository.Create (dbNow : Time) (n : Notification) (w : World) : World :=
  { w with notification := w.notification ++
      [{ n with ID := freshID (w.notification.map (·.ID)), CreatedAt := dbNow }] }

/-! ## `EmailService` -/

/-- The function `strings.ReplaceAll` for a non-empty `old`, on the characters
of the string: scanning from the left, each occurrence of `old` that does
not overlap the one before is replaced by `new`. The number counts the
characters of a matched occurrence that are still to be skipped. -/
def replaceAllChars (old new : List Char) : List Char → Nat → List Char
  | [], _ => []
  | _ :: rest, skip + 1 => replaceAllChars old new rest skip
  | c :: rest, 0 =>
    if old.isPrefixOf (c :: rest) then new ++ replaceAllChars old new rest (old.length - 1)
    else c :: replaceAllChars old new rest 0

/-- The function `strings.ReplaceAll(s, old, new)` for a non-empty `old`. -/
def ReplaceAll (s old new : String) : String :=
  String.mk (replaceAllChars old.data new.data s.data 0)

/-- The function `SubstituteTemplateVariables`. The map is given as the list
of its entries in the order in which the `range` loop visits them, an order
the Go runtime chooses. -/
def SubstituteTemplateVariables (template : String) (vars : List (String × String)) : String :=
  vars.foldl (fun result kv => ReplaceAll result ("\x7b\x7b" ++ kv.1 ++ "\x7d\x7d") kv.2) template

/-! ## `NotificationService` -/

/-- The text `fmt.Sprintf("Your campaign has been sent to %d recipients", n)`. -/
def campaignSentMessage (recipientCount : Nat) : String :=
  "Your campaign has been sent to " ++ toString recipientCount ++ " recipients"

/-- The method `NotificationService.NotifyCampaignSent`. -/
def NotifyCampaignSent (dbNow : Time) (orgID userID campaignID : String) (recipientCount : Nat)
    (w : World) : World :=
  NotificationRepository.Create dbNow
    { ID := ""
      OrganizationID := orgID
      UserID := userID
      NotificationType := "campaign_sent"
      Title := "Campaign Sent Successfully"
      Message := campaignSentMessage recipientCount
      RelatedUserID := none
      RelatedCampaignID := some campaignID
      IsRead := false
      ReadAt := none
      CreatedAt := zeroTime } w

/-! ## `BackgroundJobService`: one campaign run -/

/-- What the outside world decides during one `ProcessCampaignRun`. -/
structure RunEnv where
  /-- The result of the `k`-th call of `SendCampaignEmail` of the run: `none`
  for success, the error text otherwise. -/
  send : Nat → Option String
  /-- The order in which the `k`-th substitution of the run visits the
  entries of the variables map. -/
  mapOrder : Nat → List (String × String) → List (String × String)
  /-- The reading `time.Now()` taken after the send loop. -/
  now : Time
  /-- The time the database and GORM stamp on the rows written by the run. -/
  dbNow : Time

/-- The method `StartJob`. -/
def StartJob (env : RunEnv) (jobID : String) (w : World) : World :=
  BackgroundJobRepository.UpdateStatus env.dbNow jobID "running" "" w

/-- The method `FinishJob`. -/
def FinishJob (env : RunEnv) (jobID : String) (w : World) : World :=
  BackgroundJobRepository.UpdateStatus env.dbNow jobID "success" "" w

/-- The method `FailJob`. -/
def FailJob (env : RunEnv) (jobID errorMsg : String) (w : World) : World :=
  BackgroundJobRepository.UpdateStatus env.dbNow jobID "failed" errorMsg w

/-- The variables of the send loop: the world, `sentCount`, and the number of
calls made to the email sender so far. -/
structure LoopState where
  world : World
  sentCount : Nat
  attempts : Nat

/-- The body of the send loop of `ProcessCampaignRun` for one contact. -/
def sendStep (env : RunEnv) (campaignID : String) (template : EmailTemplate) (st : LoopState)
    (contact : Contact) : LoopState :=
  if contact.Email = "" then st
  else
    let created := CampaignLogRepository.Create env.dbNow
      { ID := ""
        CampaignID := campaignID
        ContactID := contact.ID
        RecipientEmail := contact.Email
        Subject := template.Subject
        Status := "queued"
        ErrorMessage := ""
        SentAt := none
        CreatedAt := zeroTime } st.world
    let campaignLog := created.2
    let vars := [("first_name", contact.FirstName), ("last_name", contact.LastName),
      ("email", contact.Email), ("phone", contact.Phone)]
    let htmlBody := SubstituteTemplateVariables template.HtmlBody
      (env.mapOrder (3 * st.attempts) vars)
    let plainTextBody := SubstituteTemplateVariables template.PlainTextBody
      (env.mapOrder (3 * st.attempts + 1) vars)
    let subject := SubstituteTemplateVariables template.Subject
      (env.mapOrder (3 * st.attempts + 2) vars)
    let err := env.send st.attempts
    let w := { created.1 with
      mail := created.1.mail ++ [⟨contact.Email, subject, htmlBody, plainTextBody, err⟩] }
    match err with
    | some e =>
      { world := CampaignLogRepository.UpdateStatus env.dbNow campaignLog.ID "failed" e w
        sentCount := st.sentCount
        attempts := st.attempts + 1 }
    | none =>
      { world := CampaignLogRepository.UpdateStatus env.dbNow campaignLog.ID "sent" "" w
        sentCount := st.sentCount + 1
        attempts := st.attempts + 1 }

/-- The send loop of `ProcessCampaignRun`. -/
def sendLoop (env : RunEnv) (campaignID : String) (template : EmailTemplate)
    (contacts : List Contact) (w : World) : LoopState :=
  contacts.foldl (sendStep env campaignID template) ⟨w, 0, 0⟩

/-- The method `ProcessCampaignRun`. The branches taken when
`GetRecipientContacts` or `FindByIDs` returns an error are left out: these
queries find any number of rows and fail only with the database. The job
struct read before the loop is saved twice, each time with every column it
had when read and the timestamp GORM wrote back into it. -/
def ProcessCampaignRun (env : RunEnv) (jobID campaignID : String) (w0 : World) : World :=
  let w := StartJob env jobID w0
  match CampaignRepository.FindByIDOnly w campaignID with
  | none => FailJob env jobID "Campaign not found" w
  | some campaign =>
    if campaign.Status = "completed" then
      FailJob env jobID "Campaign already completed" w
    else if campaign.OrganizationID = "" then
      FailJob env jobID "Invalid organization_id" w
    else if campaign.ScheduleType = "once" ∧ campaign.LastRunAt ≠ none then
      let w := FailJob env jobID "One-time campaign already executed" w
      if campaign.Status ≠ "completed" then
        CampaignRepository.Update env.dbNow { campaign with Status := "completed" } w
      else w
    else
      let w := CampaignRepository.UpdateStatus env.dbNow campaignID "running" w
      match EmailTemplateRepository.FindByID w campaign.TemplateID campaign.OrganizationID with
      | none =>
        CampaignRepository.UpdateStatus env.dbNow campaignID "failed"
          (FailJob env jobID "Template not found" w)
      | some template =>
        let contactIDs := CampaignRepository.GetRecipientContacts w campaign
        if contactIDs.length = 0 then
          CampaignRepository.UpdateStatus env.dbNow campaignID "completed"
            (FailJob env jobID "No recipients found" w)
        else
          let contacts := ContactRepository.FindByIDs w contactIDs campaign.OrganizationID
          let job := (BackgroundJobRepository.FindByID w jobID).map (fun j =>
            { j with TotalRecords := some contacts.length, UpdatedAt := env.dbNow })
          let w := match job with
            | some j => BackgroundJobRepository.Update env.dbNow j w
            | none => w
          let st := sendLoop env campaignID template contacts w
          let w := match job with
            | some j =>
              BackgroundJobRepository.Update env.dbNow
                { j with ProcessedRecords := some st.sentCount } st.world
            | none => st.world
          let w := FinishJob env jobID w
          let campaign := { campaign with
            LastRunAt := some env.now
            Status := if campaign.ScheduleType = "once" then "completed" else "scheduled" }
          let w := CampaignRepository.Update env.dbNow campaign w
          NotifyCampaignSent env.dbNow campaign.OrganizationID campaign.CreatedBy campaignID
            st.sentCount w

/-! ## `BackgroundJobService`: the scheduler -/

/-- What the outside world decides during one `ProcessCampaignScheduler`. -/
structure TickEnv where
  /-- The reading `time.Now()` at the start of the tick. -/
  currentTime : Time
  /-- The time the database stamps on the job rows created by the tick. -/
  dbNow : Time
  /-- Whether the query of `FindScheduledCampaigns` returns an error. -/
  findScheduledErr : Bool
  /-- Whether the query of `FindRecurringCampaigns` returns an error. -/
  findRecurringErr : Bool
  /-- Whether inserting the job row fails, in the first loop (`false`) or the
  second (`true`), for the campaign of that id. -/
  jobCreateErr : Bool → String → Bool

/-- One statement `go s.ProcessCampaignRun(job.ID, campaign.ID)`. -/
structure Dispatch where
  jobID : String
  campaignID : String
deriving DecidableEq, Repr

/-- The state of a tick: the world, the runs started so far, and whether the
tick has panicked. -/
structure TickState where
  world : World
  dispatched : List Dispatch
  panicked : Bool

/-- Creating the job row of a campaign and starting its run, as both loops of
the scheduler do. -/
def dispatchCampaign (env : TickEnv) (second : Bool) (st : TickState) (campaign : Campaign) :
    TickState :=
  if env.jobCreateErr second campaign.ID then st
  else
    let created := BackgroundJobRepository.Create env.dbNow
      { ID := ""
        JobType := "campaign_run"
        OrganizationID := campaign.OrganizationID
        ReferenceID := some campaign.ID
        Status := "queued"
        TotalRecords := none
        ProcessedRecords := none
        ErrorMessage := ""
        CreatedAt := zeroTime
        UpdatedAt := zeroTime } st.world
    { st with world := created.1, dispatched := st.dispatched ++ [⟨created.2.ID, campaign.ID⟩] }

/-- The body of the first loop of `ProcessCampaignScheduler`. -/
def scheduledStep (env : TickEnv) (st : TickState) (campaign : Campaign) : TickState :=
  if campaign.ScheduleType = "once" ∧ campaign.LastRunAt ≠ none then st
  else dispatchCampaign env false st campaign

/-- The body of the second loop of `ProcessCampaignScheduler`. A nil
dereference in `shouldRunRecurringCampaign` panics, which ends the tick. -/
def recurringStep (env : TickEnv) (st : TickState) (campaign : Campaign) : TickState :=
  if st.panicked then st
  else if campaign.OrganizationID = "" then st
  else if campaign.Status = "completed" then st
  else
    match shouldRunRecurringCampaign campaign env.currentTime with
    | none => { st with panicked := true }
    | some true => dispatchCampaign env true st campaign
    | some false => st

/-- The method `ProcessCampaignScheduler`. The runs it starts with `go` are
returned, not executed. -/
def ProcessCampaignScheduler (env : TickEnv) (w : World) : TickState :=
  if env.findScheduledErr then ⟨w, [], false⟩
  else
    let st := (CampaignRepository.FindScheduledCampaigns w env.currentTime).foldl
      (scheduledStep env) ⟨w, [], false⟩
    if env.findRecurringErr then st
    else (CampaignRepository.FindRecurringCampaigns st.world).foldl (recurringStep env) st

/-! ## The scheduler loop of `main.go` -/

/-- One turn of the loop of `startBackgroundScheduler`, with the environments
of the runs the tick starts. -/
structure Round where
  tick : TickEnv
  run : Nat → RunEnv

/-- The runs started by a tick, each executed to its end, in the order in
which they were started. -/
def runDispatched (run : Nat → RunEnv) : List Dispatch → Nat → World → World
  | [], _, w => w
  | d :: ds, i, w =>
    runDispatched run ds (i + 1) (ProcessCampaignRun (run i) d.jobID d.campaignID w)

/-- The function `startBackgroundScheduler` over finitely many ticks, in the
schedule where the runs a tick starts end before the next tick: the final
world and every run started on the way. -/
def startBackgroundScheduler : List Round → World → World × List Dispatch
  | [], w => (w, [])
  | r :: rs, w =>
    let st := ProcessCampaignScheduler r.tick w
    let next := startBackgroundScheduler rs (runDispatched r.run st.dispatched 0 st.world)
    (next.1, st.dispatched ++ next.2)

/-! ## The campaign handler -/

/-- The method `CampaignRepository.FindByID`. -/
def CampaignRepository.FindByID (w : World) (id orgID : String) : Option Campaign :=
  w.campaign.find? (fun c => decide (c.ID = id) && decide (c.OrganizationID = orgID))

/-- The answer of a handler: the HTTP status and the text of the `error` or
`message` entry of the body. -/
structure Response where
  status : Nat
  text : String
deriving DecidableEq, Repr

/-- The characters of the placeholder of a key: the key between two opening
and two closing braces. -/
def placeholderChars (key : List Char) : List Char :=
  '\x7b' :: '\x7b' :: (key ++ ['\x7d', '\x7d'])

/-- Following the words of the specification, on the characters of the
template: reading from the left, each occurrence of the placeholder of a key
of the map is replaced by the value of that key, and every other character
is kept. The number counts the characters of a replaced occurrence that are
still to be skipped. -/
def replacePlaceholdersChars (vars : List (String × String)) : List Char → Nat → List Char
  | [], _ => []
  | _ :: rest, skip + 1 => replacePlaceholdersChars vars rest skip
  | c :: rest, 0 =>
    match vars.find? (fun kv => (placeholderChars kv.1.data).isPrefixOf (c :: rest)) with
    | some kv => kv.2.data ++ replacePlaceholdersChars vars rest (kv.1.data.length + 3)
    | none => c :: replacePlaceholdersChars vars rest 0

/-- Following the words of the specification: the template with every
occurrence of the placeholder of a key replaced by the value of the key, and
all other text unchanged. -/
def replacePlaceholders (template : String) (vars : List (String × String)) : String :=
  String.mk (replacePlaceholdersChars vars template.data 0)

/-- A text without braces. -/
def BraceFree (s : String) : Prop := '\x7b' ∉ s.data ∧ '\x7d' ∉ s.data

instance (s : String) : Decidable (BraceFree s) := by
  unfold BraceFree
  infer_instance

/-- A piece of a template in which braces only delimit placeholders: a text
without braces, or the placeholder of a name without braces. -/
inductive Piece where
  | text (s : String)
  | hole (name : String)
deriving DecidableEq, Repr

/-- The text or the name of a piece has no brace. -/
def Piece.WellFormed : Piece → Prop
  | .text s => BraceFree s
  | .hole name => BraceFree name

instance (p : Piece) : Decidable p.WellFormed := by
  cases p <;> unfold Piece.WellFormed <;> infer_instance

/-- The text of a piece, as it stands in a template. -/
def Piece.render : Piece → String
  | .text s => s
  | .hole name => "\x7b\x7b" ++ name ++ "\x7d\x7d"

/-- The template made of the pieces. -/
def renderPieces : List Piece → String
  | [] => ""
  | p :: ps => p.render ++ renderPieces ps

/-- A piece with its placeholder filled: a placeholder of a key of the map
becomes the value of the first entry of that key, and any other piece
stays. -/
def Piece.fill (vars : List (String × String)) : Piece → Piece
  | .text s => .text s
  | .hole name =>
    match vars.find? (fun kv => decide (kv.1 = name)) with
    | some kv => .text kv.2
    | none => .hole name

/-! ## The handler that creates a campaign -/

/-- The model `models.Audience`. -/
structure Audience where
  ID : String
  OrganizationID : String
  Name : String
  Description : String
  CreatedBy : String
  CreatedAt : Time
  UpdatedAt : Time
deriving DecidableEq, Repr

/-- The method `AudienceRepository.FindByID`, on the rows of the audience
table. -/
def AudienceRepository.FindByID (audience : List Audience) (id orgID : String) :
    Option Audience :=
  audience.find? (fun a => decide (a.ID = id) && decide (a.OrganizationID = orgID))

/-- The method `ContactRepository.FindByID`. -/
def ContactRepository.FindByID (w : World) (id orgID : String) : Option Contact :=
  w.contact.find? (fun k => decide (k.ID = id) && decide (k.OrganizationID = orgID))

/-- The method `CampaignRepository.Create`, when the insertion succeeds: the
row is stored with a generated id and the creation time, and the stored row
is returned. -/
def CampaignRepository.Create (dbNow : Time) (campaign : Campaign) (w : World) :
    World × Campaign :=
  let row := { campaign with
    ID := freshID (w.campaign.map (·.ID)), CreatedAt := dbNow, UpdatedAt := dbNow }
  ({ w with campaign := w.campaign ++ [row] }, row)

/-- The body of a request to `CreateCampaign`, as `BodyParser` reads it. -/
structure CreateCampaignRequest where
  Name : String
  TemplateID : String
  AudienceIDs : List String
  ContactID : Option String
  ScheduleType : String
  ScheduledAt : Time
  Recurrence : Option String
  RecurrenceDayOfWeek : Option Int
  RecurrenceDayOfMonth : Option Int
  RecurrenceTime : Option String
deriving DecidableEq, Repr

/-- What `CreateCampaign` takes from outside the tables of the engine. -/
structure CreateEnv where
  /-- The rows of the audience table, which the handler only reads. -/
  audience : List Audience
  /-- The function `time.Parse("15:04", ·)`; `none` is its error. -/
  parseClock : String → Option Time
  /-- Whether inserting the campaign row fails. -/
  createErr : Bool
  /-- The time the database stamps on the row. -/
  dbNow : Time

/-- The handler `CreateCampaign`, for the organization and the user of the
request; the body is `none` when `BodyParser` returns an error. -/
def CreateCampaign (env : CreateEnv) (orgID userID : String)
    (body : Option CreateCampaignRequest) (w : World) : Response × World :=
  match body with
  | none => (⟨400, "Invalid request body"⟩, w)
  | some req =>
    if req.Name = "" ∨ req.TemplateID = "" ∨ req.ScheduleType = "" then
      (⟨400, "Name, template_id, and schedule_type are required"⟩, w)
    else if req.ScheduleType ≠ "once" ∧ req.ScheduleType ≠ "recurring" then
      (⟨400, "schedule_type must be 'once' or 'recurring'"⟩, w)
    else if (req.AudienceIDs.length = 0 ∧ req.ContactID = none) ∨
        (req.AudienceIDs.length > 0 ∧ req.ContactID ≠ none) then
      (⟨400, "Must provide either audience_ids or contact_id, not both"⟩, w)
    else
      match EmailTemplateRepository.FindByID w req.TemplateID orgID with
      | none => (⟨404, "Email template not found"⟩, w)
      | some _ =>
        match req.AudienceIDs.find? (fun audienceID =>
            (AudienceRepository.FindByID env.audience audienceID orgID).isNone) with
        | some audienceID => (⟨404, "Audience not found: " ++ audienceID⟩, w)
        | none =>
          if req.ContactID.any (fun contactID =>
              (ContactRepository.FindByID w contactID orgID).isNone) then
            (⟨404, "Contact not found"⟩, w)
          else if req.ScheduleType = "recurring" ∧ req.Recurrence = none then
            (⟨400, "recurrence is required for recurring campaigns"⟩, w)
          else if req.ScheduleType = "recurring" ∧ req.Recurrence ≠ some "daily" ∧
              req.Recurrence ≠ some "weekly" ∧ req.Recurrence ≠ some "monthly" then
            (⟨400, "recurrence must be 'daily', 'weekly', or 'monthly'"⟩, w)
          else if req.RecurrenceTime.any (fun s => (env.parseClock s).isNone) then
            (⟨400, "Invalid recurrence_time format. Use HH:MM"⟩, w)
          else if env.createErr then (⟨500, "Failed to create campaign"⟩, w)
          else
            (⟨201, "Campaign created successfully"⟩,
              (CampaignRepository.Create env.dbNow
                { ID := ""
                  OrganizationID := orgID
                  Name := req.Name
                  TemplateID := req.TemplateID
                  AudienceIDs := req.AudienceIDs
                  ContactID := req.ContactID
                  ScheduleType := req.ScheduleType
                  ScheduledAt := req.ScheduledAt
                  Recurrence := req.Recurrence
                  RecurrenceDayOfWeek := req.RecurrenceDayOfWeek
                  RecurrenceDayOfMonth := req.RecurrenceDayOfMonth
                  RecurrenceTime := req.RecurrenceTime.bind env.parseClock
                  LastRunAt := none
                  Status := "scheduled"
                  CreatedBy := userID
                  CreatedAt := zeroTime
                  UpdatedAt := zeroTime } w).1)

/-! ## `utils`: invite tokens -/

/-- The function `IsTokenExpired`, with the reading of `time.Now()` it
takes. -/
def IsTokenExpired (now : Time) (expiresAt : Option Time) : Bool :=
  match expiresAt with
  | none => true
  | some t => now.After t

/-! ## One campaign run, with its calls to the job repository -/

/-- A call to the job repository that writes the status column of the rows
of an id: `UpdateStatus(id, status, errorMessage)`, which `StartJob`,
`FinishJob` and `FailJob` make, or `Update(job)`, which saves every column
of the struct, its status included. -/
inductive JobCall where
  | UpdateStatus (id status errorMessage : String)
  | Update (job : BackgroundJobLog)
deriving DecidableEq, Repr

/-- The id of the rows a call writes. -/
def JobCall.id : JobCall → String
  | .UpdateStatus id _ _ => id
  | .Update job => job.ID

/-- The status a call writes. -/
def JobCall.status : JobCall → String
  | .UpdateStatus _ status _ => status
  | .Update job => job.Status

/-- What a call does to the world. -/
def JobCall.run (dbNow : Time) : JobCall → World → World
  | .UpdateStatus id status errorMessage =>
    BackgroundJobRepository.UpdateStatus dbNow id status errorMessage
  | .Update job => BackgroundJobRepository.Update dbNow job

/-- A world together with the calls made to the job repository so far, in
the order in which they were made. -/
structure Traced where
  world : World
  calls : List JobCall

/-- A call to the job repository: it is made on the world and recorded. -/
def Traced.call (dbNow : Time) (c : JobCall) (t : Traced) : Traced :=
  ⟨c.run dbNow t.world, t.calls ++ [c]⟩

/-- A step that makes no call to the job repository. -/
def Traced.step (f : World → World) (t : Traced) : Traced :=
  ⟨f t.world, t.calls⟩

/-- Whether the two queries for the recipients return an error in a run. -/
structure QueryErrs where
  /-- The query of `GetRecipientContacts`, which is made only for a campaign
  without `contact_id` and with audiences, returns an error. -/
  recipientsErr : Bool
  /-- The query of `ContactRepository.FindByIDs` returns an error. -/
  contactsErr : Bool
deriving DecidableEq, Repr

/-- The method `ProcessCampaignRun` once more, now with the two exits taken
when a query for the recipients returns an error, and with every call to the
job repository recorded: `StartJob`, `FinishJob` and `FailJob` are the calls
`UpdateStatus(jobID, "running", "")`, `UpdateStatus(jobID, "success", "")`
and `UpdateStatus(jobID, "failed", errorMsg)`. -/
def ProcessCampaignRunTraced (env : RunEnv) (errs : QueryErrs) (jobID campaignID : String)
    (w0 : World) : Traced :=
  let t := Traced.call env.dbNow (.UpdateStatus jobID "running" "") ⟨w0, []⟩
  match CampaignRepository.FindByIDOnly t.world campaignID with
  | none => t.call env.dbNow (.UpdateStatus jobID "failed" "Campaign not found")
  | some campaign =>
    if campaign.Status = "completed" then
      t.call env.dbNow (.UpdateStatus jobID "failed" "Campaign already completed")
    else if campaign.OrganizationID = "" then
      t.call env.dbNow (.UpdateStatus jobID "failed" "Invalid organization_id")
    else if campaign.ScheduleType = "once" ∧ campaign.LastRunAt ≠ none then
      let t := t.call env.dbNow (.UpdateStatus jobID "failed" "One-time campaign already executed")
      if campaign.Status ≠ "completed" then
        t.step (CampaignRepository.Update env.dbNow { campaign with Status := "completed" })
      else t
    else
      let t := t.step (CampaignRepository.UpdateStatus env.dbNow campaignID "running")
      match EmailTemplateRepository.FindByID t.world campaign.TemplateID
        campaign.OrganizationID with
      | none =>
        (t.call env.dbNow (.UpdateStatus jobID "failed" "Template not found")).step
          (CampaignRepository.UpdateStatus env.dbNow campaignID "failed")
      | some template =>
        if errs.recipientsErr = true ∧ campaign.ContactID = none ∧
            campaign.AudienceIDs.length > 0 then
          (t.call env.dbNow (.UpdateStatus jobID "failed" "Failed to get recipients")).step
            (CampaignRepository.UpdateStatus env.dbNow campaignID "failed")
        else
          let contactIDs := CampaignRepository.GetRecipientContacts t.world campaign
          if contactIDs.length = 0 then
            (t.call env.dbNow (.UpdateStatus jobID "failed" "No recipients found")).step
              (CampaignRepository.UpdateStatus env.dbNow campaignID "completed")
          else if errs.contactsErr = true then
            (t.call env.dbNow
                (.UpdateStatus jobID "failed" "Failed to fetch contact details")).step
              (CampaignRepository.UpdateStatus env.dbNow campaignID "failed")
          else
            let contacts := ContactRepository.FindByIDs t.world contactIDs
              campaign.OrganizationID
            let job := (BackgroundJobRepository.FindByID t.world jobID).map (fun j =>
              { j with TotalRecords := some contacts.length, UpdatedAt := env.dbNow })
            let t := match job with
              | some j => t.call env.dbNow (.Update j)
              | none => t
            let st := sendLoop env campaignID template contacts t.world
            let t : Traced := ⟨st.world, t.calls⟩
            let t := match job with
              | some j =>
                t.call env.dbNow (.Update { j with ProcessedRecords := some st.sentCount })
              | none => t
            let t := t.call env.dbNow (.UpdateStatus jobID "success" "")
            let campaign := { campaign with
              LastRunAt := some env.now
              Status := if campaign.ScheduleType = "once" then "completed" else "scheduled" }
            let t := t.step (CampaignRepository.Update env.dbNow campaign)
            t.step (NotifyCampaignSent env.dbNow campaign.OrganizationID campaign.CreatedBy
              campaignID st.sentCount)

/-! ## Descriptions used by the theorems -/

/-- The contacts a run of `campaign` loads for its send loop. -/
def loadedContacts (w : World) (campaign : Campaign) : List Contact :=
  ContactRepository.FindByIDs w (CampaignRepository.GetRecipientContacts w campaign)
    campaign.OrganizationID

/-- The contacts of a list the send loop does not skip. -/
def withEmail (contacts : List Contact) : List Contact :=
  contacts.filter (fun k => !decide (k.Email = ""))

/-- The effect of a stretch of the send loop over `contacts`, from the state
`st` to the state `st'`, with `new` the log rows it appends. -/
def LoopEffect (env : RunEnv) (campaignID : String) (contacts : List Contact)
    (st st' : LoopState) (new : List CampaignLog) : Prop :=
  st'.world.campaign_log = st.world.campaign_log ++ new ∧
  new.map (fun l => (l.CampaignID, l.ContactID, l.RecipientEmail))
    = (withEmail contacts).map (fun k => (campaignID, k.ID, k.Email)) ∧
  (∀ l ∈ new, l.Status = "sent" ∨ l.Status = "failed") ∧
  st'.sentCount = st.sentCount + (new.filter (fun l => decide (l.Status = "sent"))).length ∧
  st'.world.mail.map (·.To) = st.world.mail.map (·.To) ++ (withEmail contacts).map (·.Email) ∧
  st'.attempts = st.attempts + (withEmail contacts).length ∧
  st'.world.mail.map (·.Err)
    = st.world.mail.map (·.Err) ++
      (List.range' st.attempts (withEmail contacts).length).map env.send ∧
  st'.world.campaign = st.world.campaign ∧
  st'.world.background_job_log = st.world.background_job_log ∧
  st'.world.notification = st.world.notification

/-- The row a run that reaches the end of the send loop saves for its
campaign. -/
def finishedCampaign (env : RunEnv) (campaign : Campaign) : Campaign :=
  { campaign with
    LastRunAt := some env.now
    Status := if campaign.ScheduleType = "once" then "completed" else "scheduled"
    UpdatedAt := env.dbNow }

/-- The run of campaign `campaignID` in `w` finds the row `campaign`, passes
the three guards, finds `template` and resolves at least one recipient. -/
def ReachesSendLoop (w : World) (campaignID : String) (campaign : Campaign)
    (template : EmailTemplate) : Prop :=
  CampaignRepository.FindByIDOnly w campaignID = some campaign ∧
  campaign.Status ≠ "completed" ∧
  campaign.OrganizationID ≠ "" ∧
  ¬(campaign.ScheduleType = "once" ∧ campaign.LastRunAt ≠ none) ∧
  EmailTemplateRepository.FindByID w campaign.TemplateID campaign.OrganizationID = some template ∧
  (CampaignRepository.GetRecipientContacts w campaign).length ≠ 0

instance (w : World) (campaignID : String) (campaign : Campaign) (template : EmailTemplate) :
    Decidable (ReachesSendLoop w campaignID campaign template) := by
  unfold ReachesSendLoop
  infer_instance

/-- The row is one `FindScheduledCampaigns` returns at `now`. -/
def DueScheduled (now : Time) (c : Campaign) : Prop :=
  c.Status = "scheduled" ∧ c.ScheduledAt.ns ≤ now.ns ∧ c.LastRunAt = none ∧
  c.OrganizationID ≠ ""

/-- The row is one `FindRecurringCampaigns` returns and
`shouldRunRecurringCampaign` accepts at `now`. -/
def DueRecurring (now : Time) (c : Campaign) : Prop :=
  c.ScheduleType = "recurring" ∧ (c.Status = "scheduled" ∨ c.Status = "running") ∧
  c.OrganizationID ≠ "" ∧ shouldRunRecurringCampaign c now = some true

/-- What a tick, or a part of one, has done when it has reached the state
`st` from the world `w`: it has only appended job rows, one for each run it
started, and each run it started is for a row of the campaign table that was
due. -/
def TickEffect (env : TickEnv) (w : World) (st : TickState) : Prop :=
  st.world.campaign = w.campaign ∧
  st.world.campaign_log = w.campaign_log ∧
  st.world.mail = w.mail ∧
  st.world.notification = w.notification ∧
  (∃ newJobs : List BackgroundJobLog,
    st.world.background_job_log = w.background_job_log ++ newJobs ∧
    newJobs.map (fun j => (j.ID, j.ReferenceID))
      = st.dispatched.map (fun d => (d.jobID, some d.campaignID))) ∧
  (∀ d ∈ st.dispatched, ∃ c ∈ w.campaign, c.ID = d.campaignID ∧
    (DueScheduled env.currentTime c ∨ DueRecurring env.currentTime c))

/-- An exit of `ProcessCampaignRun` before the send loop, from the world `w`
to the world `w'`: the job has been failed with `msg`, the campaign table is
that of `w` rewritten row by row with `f`, and the logs, the mail and the
notifications are those of `w`. -/
def EarlyExit (env : RunEnv) (jobID msg : String) (f : Campaign → Campaign) (w w' : World) :
    Prop :=
  w'.campaign = w.campaign.map f ∧
  w'.background_job_log = (FailJob env jobID msg (StartJob env jobID w)).background_job_log ∧
  w'.campaign_log = w.campaign_log ∧
  w'.mail = w.mail ∧
  w'.notification = w.notification

/-- The way `ProcessCampaignRun` takes from the world `w`, and what it has
done when it ends in `w'` before the send loop. -/
def RunOutcome (env : RunEnv) (jobID campaignID : String) (w w' : World) : Prop :=
  match CampaignRepository.FindByIDOnly w campaignID with
  | none => EarlyExit env jobID "Campaign not found" id w w'
  | some c =>
    if c.Status = "completed" then
      EarlyExit env jobID "Campaign already completed" id w w'
    else if c.OrganizationID = "" then
      EarlyExit env jobID "Invalid organization_id" id w w'
    else if c.ScheduleType = "once" ∧ c.LastRunAt ≠ none then
      EarlyExit env jobID "One-time campaign already executed"
        (fun r => if r.ID = campaignID
          then { c with Status := "completed", UpdatedAt := env.dbNow } else r) w w'
    else
      match EmailTemplateRepository.FindByID w c.TemplateID c.OrganizationID with
      | none =>
        EarlyExit env jobID "Template not found"
          (fun r => if r.ID = campaignID
            then { r with Status := "failed", UpdatedAt := env.dbNow } else r) w w'
      | some t =>
        if (CampaignRepository.GetRecipientContacts w c).length = 0 then
          EarlyExit env jobID "No recipients found"
            (fun r => if r.ID = campaignID
              then { r with Status := "completed", UpdatedAt := env.dbNow } else r) w w'
        else ReachesSendLoop w campaignID c t

/-- Every row of the campaign table with the id is a one-shot campaign that
has run. -/
def OnceAlreadyRun (w : World) (id : String) : Prop :=
  ∀ c ∈ w.campaign, c.ID = id → c.ScheduleType = "once" ∧ c.LastRunAt ≠ none

/-- Every row of the campaign table with the id has the status `completed`. -/
def AllCompleted (w : World) (id : String) : Prop :=
  ∀ c ∈ w.campaign, c.ID = id → c.Status = "completed"

/-- The run of campaign `campaignID` in `w` finds the row `campaign`, passes
the three guards, finds `template` and resolves no recipient. -/
def ResolvesNoRecipient (w : World) (campaignID : String) (campaign : Campaign)
    (template : EmailTemplate) : Prop :=
  CampaignRepository.FindByIDOnly w campaignID = some campaign ∧
  campaign.Status ≠ "completed" ∧
  campaign.OrganizationID ≠ "" ∧
  ¬(campaign.ScheduleType = "once" ∧ campaign.LastRunAt ≠ none) ∧
  EmailTemplateRepository.FindByID w campaign.TemplateID campaign.OrganizationID = some template ∧
  (CampaignRepository.GetRecipientContacts w campaign).length = 0

/-- Every row of the campaign table with the id is a weekly campaign for the
day of week `d` that has run. -/
def WeeklyAlreadyRun (w : World) (id : String) (d : Int) : Prop :=
  ∀ c ∈ w.campaign, c.ID = id →
    c.Recurrence = some "weekly" ∧ c.RecurrenceDayOfWeek = some d ∧ c.LastRunAt ≠ none

instance (w : World) (campaignID : String) (campaign : Campaign) (template : EmailTemplate) :
    Decidable (ResolvesNoRecipient w campaignID campaign template) := by
  unfold ResolvesNoRecipient
  infer_instance

instance (w : World) (id : String) : Decidable (OnceAlreadyRun w id) := by
  unfold OnceAlreadyRun
  infer_instance

instance (w : World) (id : String) : Decidable (AllCompleted w id) := by
  unfold AllCompleted
  infer_instance

instance (w : World) (id : String) (d : Int) : Decidable (WeeklyAlreadyRun w id d) := by
  unfold WeeklyAlreadyRun
  infer_instance

/-- The run of campaign `campaignID` in `w` finds the row `campaign`, a
one-shot campaign with a `last_run_at`, an organization and a status other
than `completed`. -/
def AlreadyExecuted (w : World) (campaignID : String) (campaign : Campaign) : Prop :=
  CampaignRepository.FindByIDOnly w campaignID = some campaign ∧
  campaign.Status ≠ "completed" ∧
  campaign.OrganizationID ≠ "" ∧
  campaign.ScheduleType = "once" ∧
  campaign.LastRunAt ≠ none

/-- The run of campaign `campaignID` in `w` finds the row `campaign`, whose
status is `completed` or whose organization id is empty. -/
def CompletedOrNoOrganization (w : World) (campaignID : String) (campaign : Campaign) : Prop :=
  CampaignRepository.FindByIDOnly w campaignID = some campaign ∧
  (campaign.Status = "completed" ∨ campaign.OrganizationID = "")

/-- The run of campaign `campaignID` in `w` finds the row `campaign`, passes
the three guards and finds no template of the campaign's `template_id` in
the campaign's organization. -/
def TemplateMissing (w : World) (campaignID : String) (campaign : Campaign) : Prop :=
  CampaignRepository.FindByIDOnly w campaignID = some campaign ∧
  campaign.Status ≠ "completed" ∧
  campaign.OrganizationID ≠ "" ∧
  ¬(campaign.ScheduleType = "once" ∧ campaign.LastRunAt ≠ none) ∧
  EmailTemplateRepository.FindByID w campaign.TemplateID campaign.OrganizationID = none

instance (w : World) (campaignID : String) (campaign : Campaign) :
    Decidable (AlreadyExecuted w campaignID campaign) := by
  unfold AlreadyExecuted
  infer_instance

instance (w : World) (campaignID : String) (campaign : Campaign) :
    Decidable (CompletedOrNoOrganization w campaignID campaign) := by
  unfold CompletedOrNoOrganization
  infer_instance

instance (w : World) (campaignID : String) (campaign : Campaign) :
    Decidable (TemplateMissing w campaignID campaign) := by
  unfold TemplateMissing
  infer_instance

/-- Every row of the campaign table with the id has a status that is neither
`scheduled` nor `running`. -/
def NotActive (w : World) (id : String) : Prop :=
  ∀ c ∈ w.campaign, c.ID = id → c.Status ≠ "scheduled" ∧ c.Status ≠ "running"

instance (w : World) (id : String) : Decidable (NotActive w id) := by
  unfold NotActive
  infer_instance

/-- The request names no target, or names both a contact and audiences. -/
def NoSingleTarget (req : CreateCampaignRequest) : Prop :=
  (req.ContactID = none ∧ req.AudienceIDs = []) ∨
  (req.ContactID ≠ none ∧ req.AudienceIDs ≠ [])

instance (req : CreateCampaignRequest) : Decidable (NoSingleTarget req) := by
  unfold NoSingleTarget
  infer_instance

/-- The campaign has exactly one of the two targets: a contact and no
audience, or no contact and at least one audience. -/
def OneTarget (c : Campaign) : Prop :=
  (c.ContactID ≠ none ∧ c.AudienceIDs = []) ∨ (c.ContactID = none ∧ c.AudienceIDs ≠ [])

instance (c : Campaign) : Decidable (OneTarget c) := by
  unfold OneTarget
  infer_instance

/-- A recurring campaign with the status `scheduled` and an organization that
has never run and whose `scheduled_at` is before `now`: a row that both
queries of a tick at `now` return and both loops accept. -/
def NeverRunRecurring (now : Time) (c : Campaign) : Prop :=
  c.ScheduleType = "recurring" ∧ c.Status = "scheduled" ∧ c.LastRunAt = none ∧
  c.ScheduledAt.ns < now.ns ∧ c.OrganizationID ≠ ""

instance (now : Time) (c : Campaign) : Decidable (NeverRunRecurring now c) := by
  unfold NeverRunRecurring
  infer_instance

/-- The number of runs a tick has started for the campaign of an id. -/
def runsFor (st : TickState) (id : String) : Nat :=
  (st.dispatched.map (·.campaignID)).count id

/-- The number of job rows of a world that refer to the campaign of an id. -/
def jobsFor (w : World) (id : String) : Nat :=
  (w.background_job_log.filter (fun j => decide (j.ReferenceID = some id))).length

/-- Every row of the campaign table with the id has the status `running`. -/
def AllRunning (w : World) (id : String) : Prop :=
  ∀ c ∈ w.campaign, c.ID = id → c.Status = "running"

instance (w : World) (id : String) : Decidable (AllRunning w id) := by
  unfold AllRunning
  infer_instance

/-- Every row of the job table with the id has the given status. -/
def JobHasStatus (w : World) (jobID status : String) : Prop :=
  ∀ j ∈ w.background_job_log, j.ID = jobID → j.Status = status

instance (w : World) (jobID status : String) : Decidable (JobHasStatus w jobID status) := by
  unfold JobHasStatus
  infer_instance

/-- The run of the campaign of the id in `w` reaches the send loop. -/
def ReachesLoop (w : World) (campaignID : String) : Prop :=
  ∃ campaign template, ReachesSendLoop w campaignID campaign template

/-- The contact row is one a run of the campaign of the id may write to: a
row of the contact table, in the organization of the campaign row, whose id
the campaign resolves. -/
def OwnRecipient (w : World) (campaignID : String) (k : Contact) : Prop :=
  match CampaignRepository.FindByIDOnly w campaignID with
  | none => False
  | some c =>
    k ∈ w.contact ∧ k.OrganizationID = c.OrganizationID ∧
    k.ID ∈ CampaignRepository.GetRecipientContacts w c

instance (w : World) (campaignID : String) (k : Contact) :
    Decidable (OwnRecipient w campaignID k) := by
  unfold OwnRecipient
  split <;> infer_instance

/-- The run of the campaign of the id in `w`, with the given outcomes of its
queries for the recipients, reaches the send loop. -/
def LoopReached (errs : QueryErrs) (w : World) (campaignID : String) : Prop :=
  ∃ campaign template, ReachesSendLoop w campaignID campaign template ∧
    ¬(errs.recipientsErr = true ∧ campaign.ContactID = none ∧
      campaign.AudienceIDs.length > 0) ∧
    errs.contactsErr = false

/-- What the calls `t.calls` of a run for the job `jobID`, started in the
world `w` and ended in `t.world`, are: first the job is set to `running`;
then come saves of the job struct, whose status is `running`; the last call
sets the job to `success` when the send loop was reached and to `failed`,
with a message and without any save before it, otherwise. The rows of the
job have the status of the last call in the end, and the job table is the
one the calls make of the table of `w`. -/
def JobCallsOf (env : RunEnv) (jobID : String) (reached : Prop) (w : World) (t : Traced) :
    Prop :=
  ∃ (saves : List JobCall) (last : JobCall),
    t.calls = JobCall.UpdateStatus jobID "running" "" :: (saves ++ [last]) ∧
    (∀ c ∈ saves, ∃ job, c = JobCall.Update job ∧ job.ID = jobID ∧ job.Status = "running") ∧
    ((reached ∧ last = JobCall.UpdateStatus jobID "success" "") ∨
      (¬reached ∧ saves = [] ∧
        ∃ msg, msg ≠ "" ∧ last = JobCall.UpdateStatus jobID "failed" msg)) ∧
    JobHasStatus t.world jobID last.status ∧
    t.world.background_job_log
      = (t.calls.foldl (fun v c => c.run env.dbNow v) w).background_job_log

/-! ## Sample data -/

/-- The instant 2024-01-01T00:00:00Z, a Monday. -/
def sampleT0 : Time := ⟨1704067200000000000, 0⟩

/-- A one-shot campaign for one contact, due at `sampleT0`, never run. -/
def sampleCampaign : Campaign :=
  { ID := "c1"
    OrganizationID := "o1"
    Name := "New listings"
    TemplateID := "t1"
    AudienceIDs := []
    ContactID := some "k1"
    ScheduleType := "once"
    ScheduledAt := sampleT0
    Recurrence := none
    RecurrenceDayOfWeek := none
    RecurrenceDayOfMonth := none
    RecurrenceTime := none
    LastRunAt := none
    Status := "scheduled"
    CreatedBy := "u1"
    CreatedAt := sampleT0
    UpdatedAt := sampleT0 }

/-- A recurring campaign of the given recurrence, last run at `sampleT0`. -/
def sampleRecurring (recurrence : String) (dayOfWeek dayOfMonth : Option Int) : Campaign :=
  { sampleCampaign with
    ID := "c2"
    ScheduleType := "recurring"
    Recurrence := some recurrence
    RecurrenceDayOfWeek := dayOfWeek
    RecurrenceDayOfMonth := dayOfMonth
    LastRunAt := some sampleT0 }

/-- A template with the placeholder of the first name. -/
def sampleTemplate : EmailTemplate :=
  { ID := "t1"
    OrganizationID := "o1"
    Name := "Listings"
    Subject := "Hi \x7b\x7bfirst_name\x7d\x7d"
    Preheader := ""
    FromName := ""
    ReplyTo := ""
    HtmlBody := "<p>\x7b\x7bfirst_name\x7d\x7d</p>"
    PlainTextBody := "Hello"
    CreatedBy := "u1"
    CreatedAt := sampleT0
    UpdatedAt := sampleT0 }

/-- A contact of organization `o1`. -/
def sampleContact (id firstName email : String) : Contact :=
  { ID := id
    OrganizationID := "o1"
    CreatedBy := "u1"
    FirstName := firstName
    LastName := "Doe"
    Email := email
    Phone := ""
    IsActive := true
    Notes := ""
    CreatedAt := sampleT0
    UpdatedAt := sampleT0 }

/-- A daily campaign for the audiences `a1` and `a2`, never run. -/
def sampleAudienceCampaign : Campaign :=
  { sampleCampaign with
    ID := "c3"
    AudienceIDs := ["a1", "a2"]
    ContactID := none
    ScheduleType := "recurring"
    Recurrence := some "daily" }

/-- A campaign for an audience without members. -/
def sampleEmptyCampaign : Campaign :=
  { sampleCampaign with ID := "c4", AudienceIDs := ["a3"], ContactID := none }

/-- A queued job row for the campaign of the given id. -/
def sampleJob (id campaignID : String) : BackgroundJobLog :=
  { ID := id
    JobType := "campaign_run"
    OrganizationID := "o1"
    ReferenceID := some campaignID
    Status := "queued"
    TotalRecords := none
    ProcessedRecords := none
    ErrorMessage := ""
    CreatedAt := sampleT0
    UpdatedAt := sampleT0 }

/-- A world with three campaigns, four contacts (one without email, one in
both audiences) and one queued job for each of the campaigns `c3` and `c4`. -/
def sampleWorld : World :=
  { campaign := [sampleCampaign, sampleAudienceCampaign, sampleEmptyCampaign]
    email_template := [sampleTemplate]
    contact := [sampleContact "k1" "Alice" "a@x.com", sampleContact "k2" "Bob" "b@x.com",
      sampleContact "k3" "Carol" "", sampleContact "k4" "Dan" "d@x.com"]
    audience_contact := [⟨"m1", "a1", "k1", sampleT0⟩, ⟨"m2", "a1", "k2", sampleT0⟩,
      ⟨"m3", "a2", "k2", sampleT0⟩, ⟨"m4", "a2", "k3", sampleT0⟩,
      ⟨"m5", "a2", "k4", sampleT0⟩]
    campaign_log := []
    background_job_log := [sampleJob "j3" "c3", sampleJob "j4" "c4"]
    notification := []
    mail := [] }

/-- A run in which the second send fails and the others succeed. -/
def sampleRunEnv : RunEnv :=
  { send := fun k => if k = 1 then some "failed to send email: timeout" else none
    mapOrder := fun _ entries => entries
    now := ⟨sampleT0.ns + 61000000000, 0⟩
    dbNow := ⟨sampleT0.ns + 60000000000, 0⟩ }

/-- A tick at the given time in which every query and insertion succeeds. -/
def sampleTickEnv (currentTime : Time) : TickEnv :=
  { currentTime := currentTime
    dbNow := currentTime
    findScheduledErr := false
    findRecurringErr := false
    jobCreateErr := fun _ _ => false }

/-- A one-shot campaign that has run but whose status still says
`scheduled`. -/
def sampleDoneCampaign : Campaign :=
  { sampleCampaign with ID := "c5", LastRunAt := some sampleT0 }

/-- A weekly campaign for Tuesdays, due at `sampleT0`, with the given
`last_run_at`. -/
def sampleWeekly (lastRunAt : Option Time) : Campaign :=
  { sampleCampaign with
    ID := "c6"
    ScheduleType := "recurring"
    Recurrence := some "weekly"
    RecurrenceDayOfWeek := some 2
    LastRunAt := lastRunAt }

/-- The sample world with another campaign in front. -/
def sampleWorldWith (campaign : Campaign) : World :=
  { sampleWorld with campaign := campaign :: sampleWorld.campaign }

/-- A turn of the scheduler loop at the given time, with the sample
environments. -/
def sampleRound (currentTime : Time) : Round :=
  ⟨sampleTickEnv currentTime, fun _ => sampleRunEnv⟩

/-- A completed one-shot campaign. -/
def sampleCompletedCampaign : Campaign :=
  { sampleCampaign with ID := "c7", LastRunAt := some sampleT0, Status := "completed" }

/-- A campaign whose template is not in the template table. -/
def sampleNoTemplateCampaign : Campaign :=
  { sampleCampaign with ID := "c8", TemplateID := "t9" }

/-- A paused one-shot campaign, due and never run. -/
def samplePausedCampaign : Campaign :=
  { sampleCampaign with ID := "c9", Status := "paused" }

/-- A campaign whose run is in progress. -/
def sampleRunningCampaign : Campaign :=
  { sampleCampaign with ID := "c10", Status := "running" }

/-- The pieces of a template with two known placeholders and an unknown
one. -/
def samplePieces : List Piece :=
  [.text "Hi ", .hole "first_name", .text ", call ", .hole "phone", .text " or ",
    .hole "agent", .text "!"]

/-- The variables of the send loop for a contact without phone. -/
def sampleVariables : List (String × String) :=
  [("first_name", "Alice"), ("last_name", "Doe"), ("email", "a@x.com"), ("phone", "")]

/-- A request for a one-shot campaign to the contact `k1`. -/
def sampleRequest : CreateCampaignRequest :=
  { Name := "New listings"
    TemplateID := "t1"
    AudienceIDs := []
    ContactID := some "k1"
    ScheduleType := "once"
    ScheduledAt := sampleT0
    Recurrence := none
    RecurrenceDayOfWeek := none
    RecurrenceDayOfMonth := none
    RecurrenceTime := none }

/-- An audience table with the audiences `a1` and `a2` of organization `o1`,
a clock parser that accepts nothing, and an insertion that succeeds. -/
def sampleCreateEnv : CreateEnv :=
  { audience := [⟨"a1", "o1", "Buyers", "", "u1", sampleT0, sampleT0⟩,
      ⟨"a2", "o1", "Sellers", "", "u1", sampleT0, sampleT0⟩]
    parseClock := fun _ => none
    createErr := false
    dbNow := sampleT0 }

/-- A recurring campaign that has run and whose `recurrence` is null. -/
def sampleNoRecurrence : Campaign :=
  { sampleCampaign with ID := "c11", ScheduleType := "recurring", LastRunAt := some sampleT0 }

/-- A daily campaign whose run is in progress, last run two days before
`sampleT0`. -/
def sampleRunningDaily : Campaign :=
  { sampleAudienceCampaign with
    ID := "c12"
    Status := "running"
    LastRunAt := some ⟨sampleT0.ns - 48 * Hour, 0⟩ }

/-- The sample world with one more contact, `k5` of organization `o2`, whom
the audience `a1` of organization `o1` lists as a member. -/
def sampleForeignWorld : World :=
  { sampleWorld with
    contact := sampleWorld.contact ++
      [{ sampleContact "k5" "Eve" "e@y.com" with OrganizationID := "o2" }]
    audience_contact := sampleWorld.audience_contact ++ [⟨"m6", "a1", "k5", sampleT0⟩] }

/-- A campaign for an audience without members whose template is not in the
template table. -/
def sampleEmptyNoTemplateCampaign : Campaign :=
  { sampleEmptyCampaign with ID := "c13", TemplateID := "t9" }

/-- The sample world with the campaign `c13` and a queued job `j13` for it. -/
def sampleEmptyNoTemplateWorld : World :=
  { sampleWorld with
    campaign := sampleEmptyNoTemplateCampaign :: sampleWorld.campaign
    background_job_log := sampleJob "j13" "c13" :: sampleWorld.background_job_log }

/-! ## Facts about durations -/

/-- Saturation does not change the comparison of a difference with a bound
that is itself a duration. -/
theorem Time.sub_ge_iff (t u : Time) (k : Int) (hlo : minDuration < k) (hhi : k ≤ maxDuration) :
    t.Sub u ≥ k ↔ t.ns - u.ns ≥ k := by
  unfold Time.Sub
  simp only [minDuration, maxDuration] at *
  split_ifs <;> omega

/-! ## Recurrence eligibility: theorems -/

/-- C2: a daily campaign last run at `T` is eligible at `now` exactly when
`now - T` is at least 24 hours; the function returns (no panic) and its
result is that comparison. -/
theorem shouldRunRecurringCampaign_daily (campaign : Campaign) (T now : Time)
    (hrec : campaign.Recurrence = some "daily") (hlast : campaign.LastRunAt = some T) :
    shouldRunRecurringCampaign campaign now = some (decide (now.ns - T.ns ≥ 24 * Hour)) := by
  have h := Time.sub_ge_iff now T (24 * Hour) (by decide) (by decide)
  simp only [shouldRunRecurringCampaign, hlast, hrec, if_true]
  congr 1
  exact decide_eq_decide.mpr h

/-- The statement of C2 at a daily campaign last run on 2024-01-01, one day
later to the nanosecond. -/
theorem shouldRunRecurringCampaign_daily_witness :
    shouldRunRecurringCampaign (sampleRecurring "daily" none none)
        ⟨sampleT0.ns + 24 * Hour, 0⟩
      = some (decide ((⟨sampleT0.ns + 24 * Hour, 0⟩ : Time).ns - sampleT0.ns ≥ 24 * Hour)) :=
  shouldRunRecurringCampaign_daily (sampleRecurring "daily" none none) sampleT0
    ⟨sampleT0.ns + 24 * Hour, 0⟩ rfl rfl

/-- C3: a weekly campaign with day of week `d`, last run at `T`, is eligible
at `now` exactly when the weekday of `now` is `d` and `now - T` is at least
seven times 24 hours. -/
theorem shouldRunRecurringCampaign_weekly (campaign : Campaign) (d : Int) (T now : Time)
    (hrec : campaign.Recurrence = some "weekly") (hday : campaign.RecurrenceDayOfWeek = some d)
    (hlast : campaign.LastRunAt = some T) :
    shouldRunRecurringCampaign campaign now
      = some (decide (now.Weekday = d ∧ now.ns - T.ns ≥ 7 * 24 * Hour)) := by
  have h := Time.sub_ge_iff now T (7 * 24 * Hour) (by decide) (by decide)
  have hne : ("weekly" : String) ≠ "daily" := by decide
  simp only [shouldRunRecurringCampaign, hlast, hrec, hday, if_true, if_neg hne]
  congr 1
  rw [Bool.decide_and]
  congr 1
  exact decide_eq_decide.mpr h

/-- The statement of C3 at a weekly campaign for Tuesdays last run on Monday
2024-01-01, on Tuesday 2024-01-09. -/
theorem shouldRunRecurringCampaign_weekly_witness :
    shouldRunRecurringCampaign (sampleRecurring "weekly" (some 2) none)
        ⟨sampleT0.ns + 8 * 24 * Hour, 0⟩
      = some (decide ((⟨sampleT0.ns + 8 * 24 * Hour, 0⟩ : Time).Weekday = 2 ∧
          (⟨sampleT0.ns + 8 * 24 * Hour, 0⟩ : Time).ns - sampleT0.ns ≥ 7 * 24 * Hour)) :=
  shouldRunRecurringCampaign_weekly (sampleRecurring "weekly" (some 2) none) 2 sampleT0
    ⟨sampleT0.ns + 8 * 24 * Hour, 0⟩ rfl rfl rfl

/-- C4: a monthly campaign with day of month `m`, last run at `T`, is
eligible at `now` exactly when the day of the month of `now` is `m` and
`now - T` is at least 28 times 24 hours. -/
theorem shouldRunRecurringCampaign_monthly (campaign : Campaign) (m : Int) (T now : Time)
    (hrec : campaign.Recurrence = some "monthly") (hday : campaign.RecurrenceDayOfMonth = some m)
    (hlast : campaign.LastRunAt = some T) :
    shouldRunRecurringCampaign campaign now
      = some (decide (now.Day = m ∧ now.ns - T.ns ≥ 28 * 24 * Hour)) := by
  have h := Time.sub_ge_iff now T (28 * 24 * Hour) (by decide) (by decide)
  have hne : ("monthly" : String) ≠ "daily" := by decide
  have hne2 : ("monthly" : String) ≠ "weekly" := by decide
  simp only [shouldRunRecurringCampaign, hlast, hrec, hday, if_true, if_neg hne, if_neg hne2]
  congr 1
  rw [Bool.decide_and]
  congr 1
  exact decide_eq_decide.mpr h

/-- The statement of C4 at a monthly campaign for the first of the month last
run on 2024-01-01, on 2024-02-01. -/
theorem shouldRunRecurringCampaign_monthly_witness :
    shouldRunRecurringCampaign (sampleRecurring "monthly" none (some 1))
        ⟨sampleT0.ns + 31 * 24 * Hour, 0⟩
      = some (decide ((⟨sampleT0.ns + 31 * 24 * Hour, 0⟩ : Time).Day = 1 ∧
          (⟨sampleT0.ns + 31 * 24 * Hour, 0⟩ : Time).ns - sampleT0.ns ≥ 28 * 24 * Hour)) :=
  shouldRunRecurringCampaign_monthly (sampleRecurring "monthly" none (some 1)) 1 sampleT0
    ⟨sampleT0.ns + 31 * 24 * Hour, 0⟩ rfl rfl rfl

/-- C5: a campaign that has never run is eligible at `now` exactly when `now`
is strictly later than its `scheduled_at`, whatever its recurrence fields
are. -/
theorem shouldRunRecurringCampaign_never_run (campaign : Campaign) (now : Time)
    (hlast : campaign.LastRunAt = none) :
    shouldRunRecurringCampaign campaign now
      = some (decide (campaign.ScheduledAt.ns < now.ns)) := by
  simp only [shouldRunRecurringCampaign, hlast, Time.After]

/-- The statement of C5 at a never-run campaign with no recurrence fields at
all, one nanosecond after its `scheduled_at`. -/
theorem shouldRunRecurringCampaign_never_run_witness :
    shouldRunRecurringCampaign sampleCampaign ⟨sampleT0.ns + 1, 0⟩
      = some (decide (sampleCampaign.ScheduledAt.ns < (⟨sampleT0.ns + 1, 0⟩ : Time).ns)) :=
  shouldRunRecurringCampaign_never_run sampleCampaign ⟨sampleT0.ns + 1, 0⟩ rfl

/-! ## Generated identifiers are new -/

theorem freshID_length_gt (used : List String) (s : String) (h : s ∈ used) :
    s.length < (freshID used).length := by
  have hle : s.length ≤ (used.map String.length).foldr max 0 := by
    induction used with
    | nil => cases h
    | cons a as ih =>
      simp only [List.map_cons, List.foldr_cons]
      rcases List.mem_cons.mp h with rfl | h'
      · omega
      · have := ih h'
        omega
  have hlen : (freshID used).length = (used.map String.length).foldr max 0 + 1 := by
    simp [freshID, String.length]
  omega

theorem freshID_not_mem (used : List String) : freshID used ∉ used := by
  intro h
  have := freshID_length_gt used _ h
  omega

/-! ## The send loop -/

theorem sendStep_spec (env : RunEnv) (campaignID : String) (template : EmailTemplate)
    (st : LoopState) (contact : Contact) :
    ∃ new : List CampaignLog,
      LoopEffect env campaignID [contact] st (sendStep env campaignID template st contact) new := by
  unfold LoopEffect sendStep
  by_cases hE : contact.Email = ""
  · refine ⟨[], ?_⟩
    simp [hE, withEmail]
  · have hfresh := freshID_not_mem (st.world.campaign_log.map (·.ID))
    have hmap : ∀ (f : CampaignLog → CampaignLog),
        (st.world.campaign_log.map fun l =>
          if l.ID = freshID (st.world.campaign_log.map (·.ID)) then f l else l)
          = st.world.campaign_log := by
      intro f
      conv_rhs => rw [← List.map_id st.world.campaign_log]
      apply List.map_congr_left
      intro l hl
      have : l.ID ≠ freshID (st.world.campaign_log.map (·.ID)) := by
        intro heq
        apply hfresh
        rw [← heq]
        exact List.mem_map_of_mem _ hl
      simp [this]
    cases hs : env.send st.attempts with
    | none =>
      refine ⟨[⟨freshID (st.world.campaign_log.map (·.ID)), campaignID, contact.ID,
        contact.Email, template.Subject, "sent", "", some env.dbNow, env.dbNow⟩], ?_⟩
      simp [hE, hs, CampaignLogRepository.Create, CampaignLogRepository.UpdateStatus, hmap,
          withEmail]
    | some e =>
      refine ⟨[⟨freshID (st.world.campaign_log.map (·.ID)), campaignID, contact.ID,
        contact.Email, template.Subject, "failed", if e ≠ "" then e else "", none,
        env.dbNow⟩], ?_⟩
      simp [hE, hs, CampaignLogRepository.Create, CampaignLogRepository.UpdateStatus, hmap,
          withEmail]

theorem foldl_sendStep_effect (env : RunEnv) (campaignID : String) (template : EmailTemplate)
    (contacts : List Contact) :
    ∀ st : LoopState, ∃ new : List CampaignLog,
      LoopEffect env campaignID contacts st
        (contacts.foldl (sendStep env campaignID template) st) new := by
  induction contacts with
  | nil =>
    intro st
    exact ⟨[], by simp [LoopEffect, withEmail]⟩
  | cons k ks ih =>
    intro st
    obtain ⟨n1, h1, h2, h3, h4, h5, h6, h7, h8, h9, h10⟩ :=
      sendStep_spec env campaignID template st k
    obtain ⟨n2, g1, g2, g3, g4, g5, g6, g7, g8, g9, g10⟩ :=
      ih (sendStep env campaignID template st k)
    have hsplit : withEmail (k :: ks) = withEmail [k] ++ withEmail ks := by
      unfold withEmail
      rw [← List.filter_append]
      rfl
    refine ⟨n1 ++ n2, ?_, ?_, ?_, ?_, ?_, ?_, ?_, ?_, ?_, ?_⟩
    · rw [List.foldl_cons, g1, h1, List.append_assoc]
    · rw [List.map_append, h2, g2, ← List.map_append, hsplit]
    · intro l hl
      rcases List.mem_append.mp hl with hl | hl
      · exact h3 l hl
      · exact g3 l hl
    · rw [List.foldl_cons, g4, h4, List.filter_append, List.length_append]
      omega
    · rw [List.foldl_cons, g5, h5, List.append_assoc, ← List.map_append, hsplit]
    · rw [List.foldl_cons, g6, h6, hsplit, List.length_append]
      omega
    · rw [List.foldl_cons, g7, h7, h6, List.append_assoc, ← List.map_append, hsplit,
        List.length_append, List.range'_append_1, Nat.add_comm (withEmail ks).length]
    · rw [List.foldl_cons, g8, h8]
    · rw [List.foldl_cons, g9, h9]
    · rw [List.foldl_cons, g10, h10]

/-! ## Lookups by key through row-wise updates -/

theorem find?_map_of_key {α : Type} (key : α → String) (g : α → α)
    (hg : ∀ a, key (g a) = key a) (x : String) (l : List α) :
    (l.map g).find? (fun a => decide (key a = x))
      = (l.find? (fun a => decide (key a = x))).map g := by
  induction l with
  | nil => rfl
  | cons a as ih =>
    simp only [List.map_cons, List.find?_cons, hg]
    by_cases h : key a = x
    · simp [h]
    · simp [h, ih]

theorem any_of_find?_some {α : Type} (p : α → Bool) (l : List α) (a : α)
    (h : l.find? p = some a) : l.any p = true := by
  rw [List.any_eq_true]
  exact ⟨a, List.mem_of_find?_eq_some h, List.find?_some h⟩

theorem job_FindByID_StartJob (env : RunEnv) (jobID x : String) (w : World) :
    BackgroundJobRepository.FindByID (StartJob env jobID w) x
      = (BackgroundJobRepository.FindByID w x).map (fun j =>
          if j.ID = jobID then { j with Status := "running", UpdatedAt := env.dbNow } else j) := by
  unfold BackgroundJobRepository.FindByID StartJob BackgroundJobRepository.UpdateStatus
  simp only [ne_eq, not_true_eq_false, if_false]
  rw [find?_map_of_key (fun j : BackgroundJobLog => j.ID)]
  intro a
  by_cases h : a.ID = jobID <;> simp [h]

theorem job_FindByID_FinishJob (env : RunEnv) (jobID x : String) (w : World) :
    BackgroundJobRepository.FindByID (FinishJob env jobID w) x
      = (BackgroundJobRepository.FindByID w x).map (fun j =>
          if j.ID = jobID then { j with Status := "success", UpdatedAt := env.dbNow } else j) := by
  unfold BackgroundJobRepository.FindByID FinishJob BackgroundJobRepository.UpdateStatus
  simp only [ne_eq, not_true_eq_false, if_false]
  rw [find?_map_of_key (fun j : BackgroundJobLog => j.ID)]
  intro a
  by_cases h : a.ID = jobID <;> simp [h]

theorem job_FindByID_Update (dbNow : Time) (job j0 : BackgroundJobLog)
    (w : World) (h : BackgroundJobRepository.FindByID w job.ID = some j0) :
    BackgroundJobRepository.FindByID (BackgroundJobRepository.Update dbNow job w) job.ID
      = some { job with UpdatedAt := dbNow } := by
  unfold BackgroundJobRepository.FindByID at h
  have hany := any_of_find?_some _ _ _ h
  unfold BackgroundJobRepository.FindByID BackgroundJobRepository.Update
  simp only [hany, if_true]
  rw [find?_map_of_key (fun j : BackgroundJobLog => j.ID), h]
  · have h0 : j0.ID = job.ID := by simpa using List.find?_some h
    simp [h0]
  · intro a
    by_cases h : a.ID = job.ID <;> simp [h]

theorem job_Update_frame (dbNow : Time) (job : BackgroundJobLog) (w : World) :
    (BackgroundJobRepository.Update dbNow job w).campaign = w.campaign ∧
    (BackgroundJobRepository.Update dbNow job w).campaign_log = w.campaign_log ∧
    (BackgroundJobRepository.Update dbNow job w).mail = w.mail ∧
    (BackgroundJobRepository.Update dbNow job w).notification = w.notification := by
  unfold BackgroundJobRepository.Update
  split <;> exact ⟨rfl, rfl, rfl, rfl⟩

theorem campaign_Update_frame (dbNow : Time) (campaign : Campaign) (w : World) :
    (CampaignRepository.Update dbNow campaign w).background_job_log = w.background_job_log ∧
    (CampaignRepository.Update dbNow campaign w).campaign_log = w.campaign_log ∧
    (CampaignRepository.Update dbNow campaign w).mail = w.mail ∧
    (CampaignRepository.Update dbNow campaign w).notification = w.notification := by
  unfold CampaignRepository.Update
  split <;> exact ⟨rfl, rfl, rfl, rfl⟩

theorem campaign_Update_of_found (dbNow : Time) (campaign c0 : Campaign) (w : World)
    (h : CampaignRepository.FindByIDOnly w campaign.ID = some c0) :
    (CampaignRepository.Update dbNow campaign w).campaign
      = w.campaign.map (fun c =>
          if c.ID = campaign.ID then { campaign with UpdatedAt := dbNow } else c) := by
  unfold CampaignRepository.FindByIDOnly at h
  have hany := any_of_find?_some _ _ _ h
  unfold CampaignRepository.Update
  simp only [hany, if_true]

theorem campaign_FindByIDOnly_id (w : World) (id : String) (c : Campaign)
    (h : CampaignRepository.FindByIDOnly w id = some c) : c.ID = id := by
  unfold CampaignRepository.FindByIDOnly at h
  simpa using List.find?_some h

theorem ProcessCampaignRun_reaches (env : RunEnv) (jobID campaignID : String) (w0 : World)
    (campaign : Campaign) (template : EmailTemplate)
    (h : ReachesSendLoop w0 campaignID campaign template) :
    ProcessCampaignRun env jobID campaignID w0 =
      (let w := CampaignRepository.UpdateStatus env.dbNow campaignID "running" (StartJob env jobID
          w0)
       let contacts := loadedContacts w0 campaign
       let job := (BackgroundJobRepository.FindByID w jobID).map (fun j =>
         { j with TotalRecords := some contacts.length, UpdatedAt := env.dbNow })
       let w := job.elim w (fun j => BackgroundJobRepository.Update env.dbNow j w)
       let st := sendLoop env campaignID template contacts w
       let w := job.elim st.world (fun j =>
         BackgroundJobRepository.Update env.dbNow { j with ProcessedRecords := some st.sentCount }
             st.world)
       let w := FinishJob env jobID w
       let campaign := { campaign with
         LastRunAt := some env.now
         Status := if campaign.ScheduleType = "once" then "completed" else "scheduled" }
       let w := CampaignRepository.Update env.dbNow campaign w
       NotifyCampaignSent env.dbNow campaign.OrganizationID campaign.CreatedBy campaignID
         st.sentCount w) := by
  obtain ⟨h1, h2, h3, h4, h5, h6⟩ := h
  have e1 : CampaignRepository.FindByIDOnly (StartJob env jobID w0) campaignID = some campaign := h1
  have e2 : EmailTemplateRepository.FindByID
      (CampaignRepository.UpdateStatus env.dbNow campaignID "running" (StartJob env jobID w0))
      campaign.TemplateID campaign.OrganizationID = some template := h5
  have e3 : CampaignRepository.GetRecipientContacts
      (CampaignRepository.UpdateStatus env.dbNow campaignID "running" (StartJob env jobID w0))
      campaign = CampaignRepository.GetRecipientContacts w0 campaign := rfl
  unfold ProcessCampaignRun
  simp only [e1, e2, e3, if_neg h2, if_neg h3, if_neg h4, if_neg h6]
  cases BackgroundJobRepository.FindByID
    (CampaignRepository.UpdateStatus env.dbNow campaignID "running" (StartJob env jobID w0)) jobID
        <;> rfl

theorem job_FindByID_congr (w w' : World) (x : String)
    (h : w.background_job_log = w'.background_job_log) :
    BackgroundJobRepository.FindByID w x = BackgroundJobRepository.FindByID w' x := by
  unfold BackgroundJobRepository.FindByID
  rw [h]

theorem job_FindByID_id (w : World) (id : String) (j : BackgroundJobLog)
    (h : BackgroundJobRepository.FindByID w id = some j) : j.ID = id := by
  unfold BackgroundJobRepository.FindByID at h
  simpa using List.find?_some h

theorem job_elim_Update_frame (dbNow : Time) (job : Option BackgroundJobLog)
    (f : BackgroundJobLog → BackgroundJobLog) (w : World) :
    (job.elim w (fun j => BackgroundJobRepository.Update dbNow (f j) w)).campaign = w.campaign ∧
    (job.elim w (fun j => BackgroundJobRepository.Update dbNow (f j) w)).campaign_log =
        w.campaign_log ∧
    (job.elim w (fun j => BackgroundJobRepository.Update dbNow (f j) w)).mail = w.mail ∧
    (job.elim w (fun j => BackgroundJobRepository.Update dbNow (f j) w)).notification =
        w.notification := by
  cases job with
  | none => exact ⟨rfl, rfl, rfl, rfl⟩
  | some j => exact job_Update_frame dbNow (f j) w

theorem ProcessCampaignRun_reaches_effect (env : RunEnv) (jobID campaignID : String)
    (w0 : World) (campaign : Campaign) (template : EmailTemplate)
    (h : ReachesSendLoop w0 campaignID campaign template) :
    ∃ new : List CampaignLog,
      (ProcessCampaignRun env jobID campaignID w0).campaign_log = w0.campaign_log ++ new ∧
      new.map (fun l => (l.CampaignID, l.ContactID, l.RecipientEmail))
        = (withEmail (loadedContacts w0 campaign)).map (fun k => (campaignID, k.ID, k.Email)) ∧
      (∀ l ∈ new, l.Status = "sent" ∨ l.Status = "failed") ∧
      (ProcessCampaignRun env jobID campaignID w0).mail.map (·.To)
        = w0.mail.map (·.To) ++ (withEmail (loadedContacts w0 campaign)).map (·.Email) ∧
      (ProcessCampaignRun env jobID campaignID w0).mail.map (·.Err)
        = w0.mail.map (·.Err) ++
          (List.range' 0 (withEmail (loadedContacts w0 campaign)).length).map env.send ∧
      (ProcessCampaignRun env jobID campaignID w0).campaign
        = w0.campaign.map (fun c =>
            if c.ID = campaignID then finishedCampaign env campaign else c) ∧
      (BackgroundJobRepository.FindByID (ProcessCampaignRun env jobID campaignID w0) jobID).map
          (fun j => (j.Status, j.TotalRecords, j.ProcessedRecords))
        = (BackgroundJobRepository.FindByID w0 jobID).map (fun _ =>
            ("success", some (loadedContacts w0 campaign).length,
              some (new.filter (fun l => decide (l.Status = "sent"))).length)) ∧
      (ProcessCampaignRun env jobID campaignID w0).notification
        = w0.notification ++
          [⟨freshID (w0.notification.map (·.ID)), campaign.OrganizationID, campaign.CreatedBy,
            "campaign_sent", "Campaign Sent Successfully",
            campaignSentMessage (new.filter (fun l => decide (l.Status = "sent"))).length,
            none, some campaignID, false, none, env.dbNow⟩] := by
  rw [ProcessCampaignRun_reaches env jobID campaignID w0 campaign template h]
  obtain ⟨h1, h2, h3, h4, h5, h6⟩ := h
  have hid := campaign_FindByIDOnly_id w0 campaignID campaign h1
  simp only [sendLoop]
  set W1 := CampaignRepository.UpdateStatus env.dbNow campaignID "running" (StartJob env jobID w0)
    with hW1
  set job := Option.map (fun j : BackgroundJobLog =>
      { j with TotalRecords := some (loadedContacts w0 campaign).length,
               UpdatedAt := env.dbNow }) (BackgroundJobRepository.FindByID W1 jobID) with hjob
  set W2 := job.elim W1 (fun j => BackgroundJobRepository.Update env.dbNow j W1) with hW2
  obtain ⟨F2a, F2b, F2c, F2d⟩ := job_elim_Update_frame env.dbNow job id W1
  obtain ⟨new, E1, E2, E3, E4, E5, E6, E7, E8, E9, E10⟩ :=
    foldl_sendStep_effect env campaignID template (loadedContacts w0 campaign) ⟨W2, 0, 0⟩
  set st := List.foldl (sendStep env campaignID template) ⟨W2, 0, 0⟩ (loadedContacts w0 campaign)
    with hst
  set W3 := job.elim st.world (fun j =>
      BackgroundJobRepository.Update env.dbNow { j with ProcessedRecords := some st.sentCount }
          st.world) with hW3
  obtain ⟨F3a, F3b, F3c, F3d⟩ := job_elim_Update_frame env.dbNow job
    (fun j => { j with ProcessedRecords := some st.sentCount }) st.world
  set cFinal : Campaign := { campaign with
      LastRunAt := some env.now
      Status := if campaign.ScheduleType = "once" then "completed" else "scheduled" } with hcF
  obtain ⟨F4a, F4b, F4c, F4d⟩ := campaign_Update_frame env.dbNow cFinal
    (FinishJob env jobID W3)
  have hcnt : st.sentCount = (new.filter (fun l => decide (l.Status = "sent"))).length := by
    rw [E4]
    exact Nat.zero_add _
  -- the campaign table
  have hfound : CampaignRepository.FindByIDOnly (FinishJob env jobID W3) cFinal.ID = some
      { campaign with Status := "running", UpdatedAt := env.dbNow } := by
    have : (FinishJob env jobID W3).campaign = W1.campaign := by
      show W3.campaign = W1.campaign
      rw [F3a, E8]
      exact F2a
    unfold CampaignRepository.FindByIDOnly
    rw [this]
    show List.find? _ (w0.campaign.map _) = _
    rw [show cFinal.ID = campaignID from hid]
    rw [find?_map_of_key (fun c : Campaign => c.ID)]
    · unfold CampaignRepository.FindByIDOnly at h1
      rw [h1]
      simp [hid]
    · intro a
      by_cases h : a.ID = campaignID <;> simp [h]
  have hcamp := campaign_Update_of_found env.dbNow cFinal _ (FinishJob env jobID W3)
      hfound
  refine ⟨new, ?_, E2, E3, ?_, ?_, ?_, ?_, ?_⟩
  · show (CampaignRepository.Update env.dbNow cFinal (FinishJob env jobID W3)).campaign_log = _
    rw [F4b]
    show W3.campaign_log = _
    rw [F3b, E1]
    exact congrArg (· ++ new) F2b
  · show List.map _ (CampaignRepository.Update env.dbNow cFinal (FinishJob env jobID W3)).mail = _
    rw [F4c]
    show List.map _ W3.mail = _
    rw [F3c, E5]
    exact congrArg (fun m => List.map (·.To) m ++ _) F2c
  · show List.map _ (CampaignRepository.Update env.dbNow cFinal (FinishJob env jobID W3)).mail = _
    rw [F4c]
    show List.map _ W3.mail = _
    rw [F3c, E7]
    exact congrArg (fun m => List.map (·.Err) m ++ _) F2c
  · show (CampaignRepository.Update env.dbNow cFinal (FinishJob env jobID W3)).campaign = _
    have hW : (FinishJob env jobID W3).campaign = W1.campaign := by
      show W3.campaign = W1.campaign
      rw [F3a, E8]
      exact F2a
    rw [hcamp, hW]
    show List.map _ (w0.campaign.map _) = _
    rw [List.map_map]
    apply List.map_congr_left
    intro c _
    by_cases hc : c.ID = campaignID
    · simp [hc, hid, cFinal, finishedCampaign]
    · simp [hc, hid, cFinal]
  · have hfin : BackgroundJobRepository.FindByID
        (NotifyCampaignSent env.dbNow cFinal.OrganizationID cFinal.CreatedBy campaignID
          st.sentCount (CampaignRepository.Update env.dbNow cFinal (FinishJob env jobID W3))) jobID
        = (BackgroundJobRepository.FindByID W3 jobID).map (fun j =>
            if j.ID = jobID then { j with Status := "success", UpdatedAt := env.dbNow } else j) :=
                by
      rw [← job_FindByID_FinishJob]
      exact job_FindByID_congr _ _ _ F4a
    rw [hfin]
    have hst1 : BackgroundJobRepository.FindByID W1 jobID = (BackgroundJobRepository.FindByID w0
        jobID).map (fun j =>
        if j.ID = jobID then { j with Status := "running", UpdatedAt := env.dbNow } else j) := by
      rw [← job_FindByID_StartJob]
      rfl
    cases hj : BackgroundJobRepository.FindByID w0 jobID with
    | none =>
      rw [hj] at hst1
      have hjn : job = none := by rw [hjob, hst1]; rfl
      have h3 : BackgroundJobRepository.FindByID W3 jobID = none := by
        rw [hW3, hjn]
        show BackgroundJobRepository.FindByID st.world jobID = none
        rw [job_FindByID_congr st.world W2 jobID E9, hW2, hjn]
        exact hst1
      rw [h3]
      rfl
    | some j0 =>
      have hj0 := job_FindByID_id w0 jobID j0 hj
      rw [hj] at hst1
      simp only [Option.map_some', hj0, if_true] at hst1
      have hjs : job = some ⟨jobID, j0.JobType, j0.OrganizationID, j0.ReferenceID, "running",
          some (loadedContacts w0 campaign).length, j0.ProcessedRecords, j0.ErrorMessage,
          j0.CreatedAt, env.dbNow⟩ := by
        rw [hjob, hst1]
        rfl
      have h2 : BackgroundJobRepository.FindByID W2 jobID = some ⟨jobID, j0.JobType,
          j0.OrganizationID,
          j0.ReferenceID, "running", some (loadedContacts w0 campaign).length,
          j0.ProcessedRecords, j0.ErrorMessage, j0.CreatedAt, env.dbNow⟩ := by
        rw [hW2, hjs]
        exact job_FindByID_Update env.dbNow ⟨jobID, j0.JobType,
            j0.OrganizationID,
          j0.ReferenceID, "running", some (loadedContacts w0 campaign).length,
          j0.ProcessedRecords, j0.ErrorMessage, j0.CreatedAt, env.dbNow⟩ _ W1 hst1
      have h3 : BackgroundJobRepository.FindByID W3 jobID = some ⟨jobID, j0.JobType,
          j0.OrganizationID,
          j0.ReferenceID, "running", some (loadedContacts w0 campaign).length,
          some st.sentCount, j0.ErrorMessage, j0.CreatedAt, env.dbNow⟩ := by
        rw [hW3, hjs]
        exact job_FindByID_Update env.dbNow ⟨jobID, j0.JobType,
            j0.OrganizationID,
          j0.ReferenceID, "running", some (loadedContacts w0 campaign).length,
          some st.sentCount, j0.ErrorMessage, j0.CreatedAt, env.dbNow⟩ _ st.world
          ((job_FindByID_congr st.world W2 jobID E9).trans h2)
      rw [h3]
      simp [hcnt]
  · have hN : (CampaignRepository.Update env.dbNow cFinal (FinishJob env jobID W3)).notification
        = w0.notification := by
      rw [F4d]
      show W3.notification = _
      rw [F3d, E10]
      exact F2d
    simp only [NotifyCampaignSent, NotificationRepository.Create, hN, hcnt]

/-! ## A run that reaches the send loop -/

/-- C7: a run that passes the guards and reaches the send loop leaves, as the
persisted row of its campaign, the loaded row with `last_run_at` set to the
time read after the loop and `status` set to `completed` for a one-shot
campaign and to `scheduled` otherwise, and leaves its job with status
`success`, whatever the outcomes of the sends are. -/
theorem ProcessCampaignRun_completion (env : RunEnv) (jobID campaignID : String) (w : World)
    (campaign : Campaign) (template : EmailTemplate)
    (h : ReachesSendLoop w campaignID campaign template) :
    CampaignRepository.FindByIDOnly (ProcessCampaignRun env jobID campaignID w) campaignID
      = some (finishedCampaign env campaign) ∧
    (∀ r ∈ (ProcessCampaignRun env jobID campaignID w).campaign,
      r.ID = campaignID → r = finishedCampaign env campaign) ∧
    (finishedCampaign env campaign).LastRunAt = some env.now ∧
    (finishedCampaign env campaign).Status
      = (if campaign.ScheduleType = "once" then "completed" else "scheduled") ∧
    (BackgroundJobRepository.FindByID (ProcessCampaignRun env jobID campaignID w) jobID).map
        (·.Status)
      = (BackgroundJobRepository.FindByID w jobID).map (fun _ => "success") := by
  obtain ⟨new, _, _, _, _, _, hc, hj, _⟩ :=
    ProcessCampaignRun_reaches_effect env jobID campaignID w campaign template h
  have hid := campaign_FindByIDOnly_id w campaignID campaign h.1
  have hfid : (finishedCampaign env campaign).ID = campaignID := hid
  refine ⟨?_, ?_, rfl, rfl, ?_⟩
  · unfold CampaignRepository.FindByIDOnly
    rw [hc, find?_map_of_key (fun c : Campaign => c.ID)]
    · have h1 := h.1
      unfold CampaignRepository.FindByIDOnly at h1
      rw [h1]
      simp [hid]
    · intro a
      by_cases ha : a.ID = campaignID <;> simp [ha, hfid]
  · intro r hr hrid
    rw [hc] at hr
    obtain ⟨c, _, hcr⟩ := List.mem_map.mp hr
    by_cases hcid : c.ID = campaignID
    · rw [if_pos hcid] at hcr
      exact hcr.symm
    · rw [if_neg hcid] at hcr
      rw [hcr] at hcid
      exact absurd hrid hcid
  · have := congrArg (Option.map (fun t : String × Option Nat × Option Nat => t.1)) hj
    simpa [Option.map_map, Function.comp_def] using this

/-- The statement of C7 at the run of the daily campaign `c3` of the sample
world, in which one of the three sends fails. -/
theorem ProcessCampaignRun_completion_witness :
    ReachesSendLoop sampleWorld "c3" sampleAudienceCampaign sampleTemplate ∧
    CampaignRepository.FindByIDOnly (ProcessCampaignRun sampleRunEnv "j3" "c3" sampleWorld) "c3"
      = some (finishedCampaign sampleRunEnv sampleAudienceCampaign) ∧
    (BackgroundJobRepository.FindByID
        (ProcessCampaignRun sampleRunEnv "j3" "c3" sampleWorld) "j3").map (·.Status)
      = (BackgroundJobRepository.FindByID sampleWorld "j3").map (fun _ => "success") :=
  ⟨by decide,
   (ProcessCampaignRun_completion sampleRunEnv "j3" "c3" sampleWorld sampleAudienceCampaign
      sampleTemplate (by decide)).1,
   (ProcessCampaignRun_completion sampleRunEnv "j3" "c3" sampleWorld sampleAudienceCampaign
      sampleTemplate (by decide)).2.2.2.2⟩

/-- C8: a run that reaches the send loop calls the email sender once for each
loaded contact with a non-empty email, in the order of the loaded list, and
appends one log row for each of them; a contact with an empty email gets
neither. The `k`-th call returns whatever the environment decides, and a
failure changes nothing in the calls that follow. -/
theorem ProcessCampaignRun_one_attempt_per_contact (env : RunEnv) (jobID campaignID : String)
    (w : World) (campaign : Campaign) (template : EmailTemplate)
    (h : ReachesSendLoop w campaignID campaign template) :
    (ProcessCampaignRun env jobID campaignID w).mail.map (·.To)
      = w.mail.map (·.To) ++ (withEmail (loadedContacts w campaign)).map (·.Email) ∧
    (ProcessCampaignRun env jobID campaignID w).mail.map (·.Err)
      = w.mail.map (·.Err) ++
        (List.range' 0 (withEmail (loadedContacts w campaign)).length).map env.send ∧
    (ProcessCampaignRun env jobID campaignID w).campaign_log.map
        (fun l => (l.CampaignID, l.ContactID, l.RecipientEmail))
      = w.campaign_log.map (fun l => (l.CampaignID, l.ContactID, l.RecipientEmail)) ++
        (withEmail (loadedContacts w campaign)).map (fun k => (campaignID, k.ID, k.Email)) := by
  obtain ⟨new, hl, hk, _, hto, herr, _, _, _⟩ :=
    ProcessCampaignRun_reaches_effect env jobID campaignID w campaign template h
  refine ⟨hto, herr, ?_⟩
  rw [hl, List.map_append, hk]

/-- The statement of C8 at the run of the campaign `c3` of the sample world:
of the four loaded contacts the one without email is skipped, and the
failure of the second send does not prevent the third. -/
theorem ProcessCampaignRun_one_attempt_per_contact_witness :
    ReachesSendLoop sampleWorld "c3" sampleAudienceCampaign sampleTemplate ∧
    (ProcessCampaignRun sampleRunEnv "j3" "c3" sampleWorld).mail.map (·.To)
      = ["a@x.com", "b@x.com", "d@x.com"] ∧
    (ProcessCampaignRun sampleRunEnv "j3" "c3" sampleWorld).mail.map (·.Err)
      = [none, some "failed to send email: timeout", none] :=
  ⟨by decide,
   (ProcessCampaignRun_one_attempt_per_contact sampleRunEnv "j3" "c3" sampleWorld
      sampleAudienceCampaign sampleTemplate (by decide)).1,
   (ProcessCampaignRun_one_attempt_per_contact sampleRunEnv "j3" "c3" sampleWorld
      sampleAudienceCampaign sampleTemplate (by decide)).2.1⟩

/-- C9: at the end of a run that reaches the send loop, the log rows that
existed before are unchanged, every row the run created has the final status
`sent` or `failed`, and the number of created rows with status `sent` is the
`processed_records` of the job and the count in the message of the
campaign-sent notification. -/
theorem ProcessCampaignRun_sent_count (env : RunEnv) (jobID campaignID : String)
    (w : World) (campaign : Campaign) (template : EmailTemplate)
    (h : ReachesSendLoop w campaignID campaign template) :
    (ProcessCampaignRun env jobID campaignID w).campaign_log.take w.campaign_log.length
      = w.campaign_log ∧
    (∀ l ∈ (ProcessCampaignRun env jobID campaignID w).campaign_log.drop w.campaign_log.length,
      l.Status = "sent" ∨ l.Status = "failed") ∧
    (BackgroundJobRepository.FindByID (ProcessCampaignRun env jobID campaignID w) jobID).map
        (·.ProcessedRecords)
      = (BackgroundJobRepository.FindByID w jobID).map (fun _ => some
          (((ProcessCampaignRun env jobID campaignID w).campaign_log.drop
            w.campaign_log.length).filter (fun l => decide (l.Status = "sent"))).length) ∧
    (ProcessCampaignRun env jobID campaignID w).notification.map (·.Message)
      = w.notification.map (·.Message) ++ [campaignSentMessage
          (((ProcessCampaignRun env jobID campaignID w).campaign_log.drop
            w.campaign_log.length).filter (fun l => decide (l.Status = "sent"))).length] := by
  obtain ⟨new, hl, _, hs, _, _, _, hj, hn⟩ :=
    ProcessCampaignRun_reaches_effect env jobID campaignID w campaign template h
  have hdrop : (ProcessCampaignRun env jobID campaignID w).campaign_log.drop
      w.campaign_log.length = new := by
    rw [hl, List.drop_left]
  rw [hdrop]
  refine ⟨?_, hs, ?_, ?_⟩
  · rw [hl, List.take_left]
  · have := congrArg (Option.map (fun t : String × Option Nat × Option Nat => t.2.2)) hj
    simpa [Option.map_map, Function.comp_def] using this
  · rw [hn, List.map_append]
    rfl

/-- The statement of C9 at the run of the campaign `c3` of the sample world:
two of the three sends succeed, and the job and the notification count
two. -/
theorem ProcessCampaignRun_sent_count_witness :
    ReachesSendLoop sampleWorld "c3" sampleAudienceCampaign sampleTemplate ∧
    (ProcessCampaignRun sampleRunEnv "j3" "c3" sampleWorld).campaign_log.map (·.Status)
      = ["sent", "failed", "sent"] ∧
    (BackgroundJobRepository.FindByID
        (ProcessCampaignRun sampleRunEnv "j3" "c3" sampleWorld) "j3").map (·.ProcessedRecords)
      = (BackgroundJobRepository.FindByID sampleWorld "j3").map (fun _ => some
          (((ProcessCampaignRun sampleRunEnv "j3" "c3" sampleWorld).campaign_log.drop
            sampleWorld.campaign_log.length).filter
              (fun l => decide (l.Status = "sent"))).length) :=
  ⟨by decide, by decide,
   (ProcessCampaignRun_sent_count sampleRunEnv "j3" "c3" sampleWorld
      sampleAudienceCampaign sampleTemplate (by decide)).2.2.1⟩

/-! ## The scheduler tick -/

theorem foldl_invariant {σ α : Type} (f : σ → α → σ) (P : σ → Prop) (l : List α)
    (hstep : ∀ x ∈ l, ∀ s, P s → P (f s x)) : ∀ s, P s → P (l.foldl f s) := by
  induction l with
  | nil => intro s hs; exact hs
  | cons a as ih =>
    intro s hs
    rw [List.foldl_cons]
    exact ih (fun x hx => hstep x (List.mem_cons_of_mem _ hx)) _
      (hstep a (List.mem_cons_self _ _) s hs)

theorem dispatchCampaign_effect (env : TickEnv) (second : Bool) (w : World) (st : TickState)
    (campaign : Campaign) (hst : TickEffect env w st) (hmem : campaign ∈ w.campaign)
    (hdue : DueScheduled env.currentTime campaign ∨ DueRecurring env.currentTime campaign) :
    TickEffect env w (dispatchCampaign env second st campaign) := by
  unfold dispatchCampaign
  split
  · exact hst
  · obtain ⟨h1, h2, h3, h4, ⟨newJobs, h5, h6⟩, h7⟩ := hst
    refine ⟨h1, h2, h3, h4, ?_, ?_⟩
    · refine ⟨newJobs ++ [(BackgroundJobRepository.Create env.dbNow ⟨"", "campaign_run",
        campaign.OrganizationID, some campaign.ID, "queued", none, none, "", zeroTime,
        zeroTime⟩ st.world).2], ?_, ?_⟩
      · simp only [BackgroundJobRepository.Create]
        rw [h5, List.append_assoc]
      · simp only [List.map_append, h6]
        rfl
    · intro d hd
      rcases List.mem_append.mp hd with hd | hd
      · exact h7 d hd
      · rw [List.mem_singleton] at hd
        rw [hd]
        exact ⟨campaign, hmem, rfl, hdue⟩

theorem ProcessCampaignScheduler_effect (env : TickEnv) (w : World) :
    TickEffect env w (ProcessCampaignScheduler env w) := by
  have h0 : TickEffect env w ⟨w, [], false⟩ :=
    ⟨rfl, rfl, rfl, rfl, ⟨[], by simp, rfl⟩, by intro d hd; cases hd⟩
  unfold ProcessCampaignScheduler
  split
  · exact h0
  · have h1 : TickEffect env w
        ((CampaignRepository.FindScheduledCampaigns w env.currentTime).foldl (scheduledStep env)
            ⟨w, [], false⟩) := by
      apply foldl_invariant _ _ _ _ _ h0
      intro c hc st hst
      unfold scheduledStep
      split
      · exact hst
      · unfold CampaignRepository.FindScheduledCampaigns at hc
        obtain ⟨hmem, hp⟩ := List.mem_filter.mp hc
        simp only [Bool.and_eq_true, decide_eq_true_eq, Bool.not_eq_true', decide_eq_false_iff_not]
          at hp
        exact dispatchCampaign_effect env false w st c hst hmem
          (Or.inl ⟨hp.1.1.1, hp.1.1.2, hp.1.2, hp.2⟩)
    split
    · exact h1
    · apply foldl_invariant _ _ _ _ _ h1
      intro c hc st hst
      unfold CampaignRepository.FindRecurringCampaigns at hc
      rw [h1.1] at hc
      obtain ⟨hmem, hp⟩ := List.mem_filter.mp hc
      simp only [Bool.and_eq_true, Bool.or_eq_true, decide_eq_true_eq, Bool.not_eq_true',
        decide_eq_false_iff_not] at hp
      unfold recurringStep
      split
      · exact hst
      · split
        · exact hst
        · split
          · exact hst
          · split
            · exact ⟨hst.1, hst.2.1, hst.2.2.1, hst.2.2.2.1, hst.2.2.2.2.1, hst.2.2.2.2.2⟩
            · next hrun =>
              exact dispatchCampaign_effect env true w st c hst hmem
                (Or.inr ⟨hp.1.1, hp.1.2, hp.2, hrun⟩)
            · exact hst

/-! ## The ways through a run -/

theorem ProcessCampaignRun_outcome (env : RunEnv) (jobID campaignID : String) (w : World) :
    RunOutcome env jobID campaignID w (ProcessCampaignRun env jobID campaignID w) := by
  unfold RunOutcome ProcessCampaignRun
  have e1 : CampaignRepository.FindByIDOnly (StartJob env jobID w) campaignID
      = CampaignRepository.FindByIDOnly w campaignID := rfl
  simp only [e1]
  cases hfind : CampaignRepository.FindByIDOnly w campaignID with
  | none => exact ⟨(List.map_id _).symm, rfl, rfl, rfl, rfl⟩
  | some c =>
    have hid := campaign_FindByIDOnly_id w campaignID c hfind
    simp only []
    by_cases h1 : c.Status = "completed"
    · simp only [if_pos h1]
      exact ⟨(List.map_id _).symm, rfl, rfl, rfl, rfl⟩
    · simp only [if_neg h1]
      by_cases h2 : c.OrganizationID = ""
      · simp only [if_pos h2]
        exact ⟨(List.map_id _).symm, rfl, rfl, rfl, rfl⟩
      · simp only [if_neg h2]
        by_cases h3 : c.ScheduleType = "once" ∧ c.LastRunAt ≠ none
        · simp only [if_pos h3, ne_eq, h1, not_false_eq_true, if_true]
          obtain ⟨f1, f2, f3, f4⟩ := campaign_Update_frame env.dbNow
            { c with Status := "completed" }
            (FailJob env jobID "One-time campaign already executed" (StartJob env jobID w))
          refine ⟨?_, f1, f2, f3, f4⟩
          have hfound : CampaignRepository.FindByIDOnly
              (FailJob env jobID "One-time campaign already executed" (StartJob env jobID w))
              ({ c with Status := "completed" } : Campaign).ID = some c := by
            rw [show ({ c with Status := "completed" } : Campaign).ID = campaignID from hid]
            exact hfind
          rw [campaign_Update_of_found env.dbNow _ c _ hfound]
          show List.map _ w.campaign = _
          rw [show ({ c with Status := "completed" } : Campaign).ID = campaignID from hid]
        · simp only [if_neg h3]
          have e2 : EmailTemplateRepository.FindByID
              (CampaignRepository.UpdateStatus env.dbNow campaignID "running" (StartJob env jobID
                  w))
              c.TemplateID c.OrganizationID
                = EmailTemplateRepository.FindByID w c.TemplateID c.OrganizationID := rfl
          have e3 : CampaignRepository.GetRecipientContacts
              (CampaignRepository.UpdateStatus env.dbNow campaignID "running" (StartJob env jobID
                  w))
              c = CampaignRepository.GetRecipientContacts w c := rfl
          simp only [e2, e3]
          have hmm : ∀ s : String,
              List.map (fun r : Campaign =>
                  if r.ID = campaignID then { r with Status := s, UpdatedAt := env.dbNow }
                  else r)
                (List.map (fun r : Campaign =>
                  if r.ID = campaignID
                  then { r with Status := "running", UpdatedAt := env.dbNow } else r)
                  w.campaign)
              = List.map (fun r : Campaign =>
                  if r.ID = campaignID then { r with Status := s, UpdatedAt := env.dbNow }
                  else r) w.campaign := by
            intro s
            rw [List.map_map]
            apply List.map_congr_left
            intro r _
            by_cases hr : r.ID = campaignID <;> simp [hr]
          cases ht : EmailTemplateRepository.FindByID w c.TemplateID c.OrganizationID with
          | none => exact ⟨hmm "failed", rfl, rfl, rfl, rfl⟩
          | some t =>
            simp only []
            by_cases h6 : (CampaignRepository.GetRecipientContacts w c).length = 0
            · simp only [if_pos h6]
              exact ⟨hmm "completed", rfl, rfl, rfl, rfl⟩
            · simp only [if_neg h6]
              exact ⟨hfind, h1, h2, h3, ht, h6⟩

theorem ProcessCampaignRun_rewritesOnly (env : RunEnv) (jobID campaignID : String) (w : World) :
    ∃ f : Campaign → Campaign,
      (ProcessCampaignRun env jobID campaignID w).campaign = w.campaign.map f ∧
      (∀ c, (f c).ID = c.ID) ∧ (∀ c, c.ID ≠ campaignID → f c = c) := by
  have h := ProcessCampaignRun_outcome env jobID campaignID w
  unfold RunOutcome at h
  have hstatus : ∀ s : String,
      (∀ c : Campaign, (if c.ID = campaignID
        then { c with Status := s, UpdatedAt := env.dbNow } else c).ID = c.ID) ∧
      (∀ c : Campaign, c.ID ≠ campaignID → (if c.ID = campaignID
        then { c with Status := s, UpdatedAt := env.dbNow } else c) = c) := by
    intro s
    constructor
    · intro c
      by_cases hc : c.ID = campaignID <;> simp [hc]
    · intro c hc
      simp [hc]
  cases hfind : CampaignRepository.FindByIDOnly w campaignID with
  | none =>
    rw [hfind] at h
    exact ⟨id, h.1, fun _ => rfl, fun _ _ => rfl⟩
  | some c =>
    have hid := campaign_FindByIDOnly_id w campaignID c hfind
    rw [hfind] at h
    simp only [] at h
    split at h
    · exact ⟨id, h.1, fun _ => rfl, fun _ _ => rfl⟩
    · split at h
      · exact ⟨id, h.1, fun _ => rfl, fun _ _ => rfl⟩
      · split at h
        · refine ⟨_, h.1, ?_, ?_⟩
          · intro r
            by_cases hr : r.ID = campaignID
            · simp [hr, hid]
            · simp [hr]
          · intro r hr
            simp [hr]
        · cases ht : EmailTemplateRepository.FindByID w c.TemplateID c.OrganizationID with
          | none =>
            rw [ht] at h
            exact ⟨_, h.1, (hstatus "failed").1, (hstatus "failed").2⟩
          | some t =>
            rw [ht] at h
            simp only [] at h
            split at h
            · exact ⟨_, h.1, (hstatus "completed").1, (hstatus "completed").2⟩
            · obtain ⟨new, _, _, _, _, _, hc, _, _⟩ :=
                ProcessCampaignRun_reaches_effect env jobID campaignID w c t h
              refine ⟨_, hc, ?_, ?_⟩
              · intro r
                by_cases hr : r.ID = campaignID
                · simp [hr, finishedCampaign, hid]
                · simp [hr]
              · intro r hr
                simp [hr]

theorem ProcessCampaignRun_logs (env : RunEnv) (jobID campaignID : String) (w : World) :
    ∃ new : List CampaignLog,
      (ProcessCampaignRun env jobID campaignID w).campaign_log = w.campaign_log ++ new ∧
      ∀ l ∈ new, l.CampaignID = campaignID := by
  have h := ProcessCampaignRun_outcome env jobID campaignID w
  unfold RunOutcome at h
  have hearly : ∀ (msg : String) (f : Campaign → Campaign),
      EarlyExit env jobID msg f w (ProcessCampaignRun env jobID campaignID w) →
      ∃ new : List CampaignLog,
        (ProcessCampaignRun env jobID campaignID w).campaign_log = w.campaign_log ++ new ∧
        ∀ l ∈ new, l.CampaignID = campaignID := by
    intro msg f he
    exact ⟨[], by rw [he.2.2.1, List.append_nil], by intro l hl; cases hl⟩
  cases hfind : CampaignRepository.FindByIDOnly w campaignID with
  | none =>
    rw [hfind] at h
    exact hearly _ _ h
  | some c =>
    rw [hfind] at h
    simp only [] at h
    split at h
    · exact hearly _ _ h
    · split at h
      · exact hearly _ _ h
      · split at h
        · exact hearly _ _ h
        · cases ht : EmailTemplateRepository.FindByID w c.TemplateID c.OrganizationID with
          | none =>
            rw [ht] at h
            exact hearly _ _ h
          | some t =>
            rw [ht] at h
            simp only [] at h
            split at h
            · exact hearly _ _ h
            · obtain ⟨new, hl, hk, _⟩ :=
                ProcessCampaignRun_reaches_effect env jobID campaignID w c t h
              refine ⟨new, hl, ?_⟩
              intro l hmem
              have hin : (l.CampaignID, l.ContactID, l.RecipientEmail)
                  ∈ new.map (fun l => (l.CampaignID, l.ContactID, l.RecipientEmail)) :=
                List.mem_map_of_mem _ hmem
              rw [hk] at hin
              obtain ⟨k, _, hkeq⟩ := List.mem_map.mp hin
              exact (congrArg Prod.fst hkeq).symm

theorem ProcessCampaignRun_once_already_run (env : RunEnv) (jobID id : String) (w : World)
    (h0 : OnceAlreadyRun w id) :
    OnceAlreadyRun (ProcessCampaignRun env jobID id w) id ∧
    (ProcessCampaignRun env jobID id w).campaign_log = w.campaign_log ∧
    (ProcessCampaignRun env jobID id w).mail = w.mail := by
  have h := ProcessCampaignRun_outcome env jobID id w
  unfold RunOutcome at h
  have hearly : ∀ (msg : String),
      EarlyExit env jobID msg (fun r => r) w (ProcessCampaignRun env jobID id w) →
      OnceAlreadyRun (ProcessCampaignRun env jobID id w) id ∧
      (ProcessCampaignRun env jobID id w).campaign_log = w.campaign_log ∧
      (ProcessCampaignRun env jobID id w).mail = w.mail := by
    intro msg he
    refine ⟨?_, he.2.2.1, he.2.2.2.1⟩
    unfold OnceAlreadyRun
    rw [he.1, List.map_id']
    exact h0
  cases hfind : CampaignRepository.FindByIDOnly w id with
  | none =>
    rw [hfind] at h
    exact hearly _ h
  | some c =>
    have hid := campaign_FindByIDOnly_id w id c hfind
    have hmem : c ∈ w.campaign := by
      unfold CampaignRepository.FindByIDOnly at hfind
      exact List.mem_of_find?_eq_some hfind
    have hc := h0 c hmem hid
    rw [hfind] at h
    simp only [] at h
    split at h
    · exact hearly _ h
    · split at h
      · exact hearly _ h
      · refine ⟨?_, h.2.2.1, h.2.2.2.1⟩
        intro r hr hrid
        rw [h.1] at hr
        obtain ⟨r0, hr0, hr0eq⟩ := List.mem_map.mp hr
        by_cases hr0id : r0.ID = id
        · rw [if_pos hr0id] at hr0eq
          rw [← hr0eq]
          exact hc
        · rw [if_neg hr0id] at hr0eq
          rw [hr0eq] at hr0id
          exact absurd hrid hr0id

theorem ProcessCampaignRun_all_completed (env : RunEnv) (jobID id : String) (w : World)
    (h0 : AllCompleted w id) :
    (ProcessCampaignRun env jobID id w).campaign = w.campaign ∧
    (ProcessCampaignRun env jobID id w).campaign_log = w.campaign_log ∧
    (ProcessCampaignRun env jobID id w).mail = w.mail := by
  have h := ProcessCampaignRun_outcome env jobID id w
  unfold RunOutcome at h
  cases hfind : CampaignRepository.FindByIDOnly w id with
  | none =>
    rw [hfind] at h
    exact ⟨by rw [h.1, List.map_id], h.2.2.1, h.2.2.2.1⟩
  | some c =>
    have hid := campaign_FindByIDOnly_id w id c hfind
    have hmem : c ∈ w.campaign := by
      unfold CampaignRepository.FindByIDOnly at hfind
      exact List.mem_of_find?_eq_some hfind
    have hc := h0 c hmem hid
    rw [hfind] at h
    simp only [if_pos hc] at h
    exact ⟨by rw [h.1, List.map_id], h.2.2.1, h.2.2.2.1⟩

/-- A run of another campaign leaves the rows of the campaign `id` and its
log rows as they are. -/
theorem ProcessCampaignRun_other (env : RunEnv) (jobID campaignID id : String) (w : World)
    (hne : campaignID ≠ id) :
    (∀ r ∈ (ProcessCampaignRun env jobID campaignID w).campaign,
      r.ID = id → r ∈ w.campaign) ∧
    (ProcessCampaignRun env jobID campaignID w).campaign_log.filter
        (fun l => decide (l.CampaignID = id))
      = w.campaign_log.filter (fun l => decide (l.CampaignID = id)) := by
  constructor
  · obtain ⟨f, hf, hfid, hfo⟩ := ProcessCampaignRun_rewritesOnly env jobID campaignID w
    intro r hr hrid
    rw [hf] at hr
    obtain ⟨r0, hr0, hr0eq⟩ := List.mem_map.mp hr
    have h0id : r0.ID = id := by rw [← hfid r0, hr0eq]; exact hrid
    have : f r0 = r0 := hfo r0 (by rw [h0id]; exact fun h => hne h.symm)
    rw [← hr0eq, this]
    exact hr0
  · obtain ⟨new, hl, hnew⟩ := ProcessCampaignRun_logs env jobID campaignID w
    rw [hl, List.filter_append]
    have : new.filter (fun l => decide (l.CampaignID = id)) = [] := by
      rw [List.filter_eq_nil_iff]
      intro l hmem
      have := hnew l hmem
      simp [this, hne]
    rw [this, List.append_nil]

/-! ## The scheduler loop -/

theorem runDispatched_invariant (P : World → Prop)
    (hrun : ∀ env jobID campaignID w, P w → P (ProcessCampaignRun env jobID campaignID w))
    (run : Nat → RunEnv) (ds : List Dispatch) :
    ∀ (i : Nat) (w : World), P w → P (runDispatched run ds i w) := by
  induction ds with
  | nil => intro i w hw; exact hw
  | cons d ds ih =>
    intro i w hw
    exact ih (i + 1) _ (hrun (run i) d.jobID d.campaignID w hw)

theorem startBackgroundScheduler_invariant (P : World → Prop) (id : String)
    (htick : ∀ env w, P w → P (ProcessCampaignScheduler env w).world ∧
      id ∉ (ProcessCampaignScheduler env w).dispatched.map (·.campaignID))
    (hrun : ∀ env jobID campaignID w, P w → P (ProcessCampaignRun env jobID campaignID w))
    (rounds : List Round) :
    ∀ w : World, P w → P (startBackgroundScheduler rounds w).1 ∧
      id ∉ (startBackgroundScheduler rounds w).2.map (·.campaignID) := by
  induction rounds with
  | nil =>
    intro w hw
    exact ⟨hw, by simp [startBackgroundScheduler]⟩
  | cons r rs ih =>
    intro w hw
    obtain ⟨h1, h2⟩ := htick r.tick w hw
    obtain ⟨h3, h4⟩ := ih _ (runDispatched_invariant P hrun r.run _ 0 _ h1)
    refine ⟨h3, ?_⟩
    simp only [startBackgroundScheduler, List.map_append, List.mem_append, not_or]
    exact ⟨h2, h4⟩

theorem tick_jobs_of_not_dispatched (env : TickEnv) (w : World) (id : String)
    (h : id ∉ (ProcessCampaignScheduler env w).dispatched.map (·.campaignID)) :
    (ProcessCampaignScheduler env w).world.background_job_log.filter
        (fun j => decide (j.ReferenceID = some id))
      = w.background_job_log.filter (fun j => decide (j.ReferenceID = some id)) := by
  obtain ⟨_, _, _, _, ⟨newJobs, hj, hmap⟩, _⟩ := ProcessCampaignScheduler_effect env w
  rw [hj, List.filter_append]
  have : newJobs.filter (fun j => decide (j.ReferenceID = some id)) = [] := by
    rw [List.filter_eq_nil_iff]
    intro j hmem hid
    apply h
    have hin : (j.ID, j.ReferenceID) ∈ newJobs.map (fun j => (j.ID, j.ReferenceID)) :=
      List.mem_map_of_mem _ hmem
    rw [hmap] at hin
    obtain ⟨d, hd, hdeq⟩ := List.mem_map.mp hin
    have href : some d.campaignID = j.ReferenceID := congrArg Prod.snd hdeq
    have hid' : j.ReferenceID = some id := by simpa using hid
    rw [hid'] at href
    exact List.mem_map.mpr ⟨d, hd, Option.some.inj href⟩
  rw [this, List.append_nil]

theorem tick_once_already_run (env : TickEnv) (w : World) (id : String)
    (h : OnceAlreadyRun w id) :
    id ∉ (ProcessCampaignScheduler env w).dispatched.map (·.campaignID) := by
  intro hmem
  obtain ⟨d, hd, hdid⟩ := List.mem_map.mp hmem
  obtain ⟨c, hc, hcid, hdue⟩ := (ProcessCampaignScheduler_effect env w).2.2.2.2.2 d hd
  obtain ⟨honce, hlast⟩ := h c hc (hcid.trans hdid)
  rcases hdue with hs | hr
  · exact hlast hs.2.2.1
  · have hrec := hr.1
    rw [honce] at hrec
    exact absurd hrec (by decide)

theorem tick_all_completed (env : TickEnv) (w : World) (id : String)
    (h : AllCompleted w id) :
    id ∉ (ProcessCampaignScheduler env w).dispatched.map (·.campaignID) := by
  intro hmem
  obtain ⟨d, hd, hdid⟩ := List.mem_map.mp hmem
  obtain ⟨c, hc, hcid, hdue⟩ := (ProcessCampaignScheduler_effect env w).2.2.2.2.2 d hd
  have hst := h c hc (hcid.trans hdid)
  rcases hdue with hs | hr
  · have h1 := hs.1
    rw [hst] at h1
    exact absurd h1 (by decide)
  · rcases hr.2.1 with h1 | h1
    · rw [hst] at h1
      exact absurd h1 (by decide)
    · rw [hst] at h1
      exact absurd h1 (by decide)

/-! ## One-shot campaigns run once -/

/-- C1: when the campaign of an id is a one-shot campaign with a non-null
`last_run_at`, a scheduler tick, at any time and in any environment, starts
no run for it and creates no job row for it; and over any number of ticks,
each followed by the runs it started, no run is started for it and its log
rows stay as they are. -/
theorem once_campaign_not_redispatched (w : World) (id : String) (h : OnceAlreadyRun w id) :
    (∀ env : TickEnv,
      id ∉ (ProcessCampaignScheduler env w).dispatched.map (·.campaignID) ∧
      (ProcessCampaignScheduler env w).world.background_job_log.filter
          (fun j => decide (j.ReferenceID = some id))
        = w.background_job_log.filter (fun j => decide (j.ReferenceID = some id))) ∧
    (∀ rounds : List Round,
      id ∉ (startBackgroundScheduler rounds w).2.map (·.campaignID) ∧
      (startBackgroundScheduler rounds w).1.campaign_log.filter
          (fun l => decide (l.CampaignID = id))
        = w.campaign_log.filter (fun l => decide (l.CampaignID = id))) := by
  constructor
  · intro env
    have hnd := tick_once_already_run env w id h
    exact ⟨hnd, tick_jobs_of_not_dispatched env w id hnd⟩
  · intro rounds
    have key := startBackgroundScheduler_invariant
      (fun v => OnceAlreadyRun v id ∧
        v.campaign_log.filter (fun l => decide (l.CampaignID = id))
          = w.campaign_log.filter (fun l => decide (l.CampaignID = id))) id
      (by
        intro env v hv
        obtain ⟨e1, e2, _⟩ := ProcessCampaignScheduler_effect env v
        refine ⟨⟨?_, ?_⟩, tick_once_already_run env v id hv.1⟩
        · unfold OnceAlreadyRun
          rw [e1]
          exact hv.1
        · rw [e2]
          exact hv.2)
      (by
        intro env jobID campaignID v hv
        by_cases hc : campaignID = id
        · rw [hc]
          obtain ⟨p1, p2, _⟩ := ProcessCampaignRun_once_already_run env jobID id v hv.1
          exact ⟨p1, by rw [p2]; exact hv.2⟩
        · obtain ⟨p1, p2⟩ := ProcessCampaignRun_other env jobID campaignID id v hc
          exact ⟨fun r hr hrid => hv.1 r (p1 r hr hrid) hrid, by rw [p2]; exact hv.2⟩)
      rounds w ⟨h, rfl⟩
    exact ⟨key.2, key.1.2⟩

/-- The statement of C1 at a one-shot campaign that has run and whose status
still says `scheduled`: two ticks after its `scheduled_at` start no run for
it. -/
theorem once_campaign_not_redispatched_witness :
    OnceAlreadyRun (sampleWorldWith sampleDoneCampaign) "c5" ∧
    "c5" ∉ (startBackgroundScheduler
      [sampleRound ⟨sampleT0.ns + 60000000000, 0⟩,
        sampleRound ⟨sampleT0.ns + 120000000000, 0⟩]
      (sampleWorldWith sampleDoneCampaign)).2.map (·.campaignID) :=
  ⟨by decide,
   ((once_campaign_not_redispatched (sampleWorldWith sampleDoneCampaign) "c5" (by decide)).2
      [sampleRound ⟨sampleT0.ns + 60000000000, 0⟩,
        sampleRound ⟨sampleT0.ns + 120000000000, 0⟩]).1⟩

/-! ## Weekly campaigns and the day of the week -/

/-- C6, as the code has it: when the campaign of an id is a weekly campaign
for the day of week `d` that has run before, a tick whose time has another
weekday starts no run for it, whatever time has passed since its
`last_run_at`. -/
theorem weekly_not_dispatched_off_day (env : TickEnv) (w : World) (id : String) (d : Int)
    (h : WeeklyAlreadyRun w id d) (hday : env.currentTime.Weekday ≠ d) :
    id ∉ (ProcessCampaignScheduler env w).dispatched.map (·.campaignID) := by
  intro hmem
  obtain ⟨dsp, hd, hdid⟩ := List.mem_map.mp hmem
  obtain ⟨c, hc, hcid, hdue⟩ := (ProcessCampaignScheduler_effect env w).2.2.2.2.2 dsp hd
  obtain ⟨hrec, hdow, hlast⟩ := h c hc (hcid.trans hdid)
  rcases hdue with hs | hr
  · exact hlast hs.2.2.1
  · obtain ⟨T, hT⟩ := Option.ne_none_iff_exists'.mp hlast
    have hrun := hr.2.2.2
    have hne : ("weekly" : String) ≠ "daily" := by decide
    simp only [shouldRunRecurringCampaign, hT, hrec, hdow, if_true, if_neg hne] at hrun
    simp [hday] at hrun

/-- The statement of C6 at a weekly campaign for Tuesdays last run on Monday
2024-01-01, at a tick on Wednesday 2024-01-10. -/
theorem weekly_not_dispatched_off_day_witness :
    WeeklyAlreadyRun (sampleWorldWith (sampleWeekly (some sampleT0))) "c6" 2 ∧
    (sampleTickEnv ⟨sampleT0.ns + 9 * 24 * Hour, 0⟩).currentTime.Weekday ≠ 2 ∧
    "c6" ∉ (ProcessCampaignScheduler (sampleTickEnv ⟨sampleT0.ns + 9 * 24 * Hour, 0⟩)
      (sampleWorldWith (sampleWeekly (some sampleT0)))).dispatched.map (·.campaignID) :=
  ⟨by decide, by decide,
   weekly_not_dispatched_off_day (sampleTickEnv ⟨sampleT0.ns + 9 * 24 * Hour, 0⟩)
     (sampleWorldWith (sampleWeekly (some sampleT0))) "c6" 2 (by decide) (by decide)⟩

/-- C6 as stated fails: a weekly campaign for Tuesdays that has never run is
started by a tick on Monday 2024-01-01, one minute after its
`scheduled_at`. -/
theorem weekly_never_run_dispatched_off_day :
    (sampleWeekly none).ScheduleType = "recurring" ∧
    (sampleWeekly none).Recurrence = some "weekly" ∧
    (sampleWeekly none).RecurrenceDayOfWeek = some 2 ∧
    (sampleTickEnv ⟨sampleT0.ns + 60000000000, 0⟩).currentTime.Weekday = 1 ∧
    shouldRunRecurringCampaign (sampleWeekly none) ⟨sampleT0.ns + 60000000000, 0⟩
      = some true ∧
    "c6" ∈ (ProcessCampaignScheduler (sampleTickEnv ⟨sampleT0.ns + 60000000000, 0⟩)
      (sampleWorldWith (sampleWeekly none))).dispatched.map (·.campaignID) := by
  decide

/-! ## A campaign without recipients -/

theorem job_FindByID_FailJob (env : RunEnv) (jobID msg x : String) (w : World) :
    BackgroundJobRepository.FindByID (FailJob env jobID msg w) x
      = (BackgroundJobRepository.FindByID w x).map (fun j =>
          if j.ID = jobID then
            { j with
              Status := "failed"
              UpdatedAt := env.dbNow
              ErrorMessage := if msg ≠ "" then msg else j.ErrorMessage }
          else j) := by
  unfold BackgroundJobRepository.FindByID FailJob BackgroundJobRepository.UpdateStatus
  rw [find?_map_of_key (fun j : BackgroundJobLog => j.ID)]
  intro a
  by_cases h : a.ID = jobID <;> simp [h]

theorem ProcessCampaignRun_all_completed_preserved (env : RunEnv) (jobID campaignID id : String)
    (w : World) (h : AllCompleted w id) :
    AllCompleted (ProcessCampaignRun env jobID campaignID w) id := by
  by_cases hc : campaignID = id
  · rw [hc]
    unfold AllCompleted
    rw [(ProcessCampaignRun_all_completed env jobID id w h).1]
    exact h
  · intro r hr hrid
    exact h r ((ProcessCampaignRun_other env jobID campaignID id w hc).1 r hr hrid) hrid

/-- C10, as the code has it: a run that passes the guards, finds the template
of its campaign and resolves no recipient leaves its campaign with status
`completed` and its job with status `failed` and the message "No recipients
found", calls the email sender for nothing and creates no log row; and over
any number of later ticks, each followed by the runs it started, no run is
started for that campaign. -/
theorem ProcessCampaignRun_no_recipients (env : RunEnv) (jobID campaignID : String) (w : World)
    (campaign : Campaign) (template : EmailTemplate)
    (h : ResolvesNoRecipient w campaignID campaign template) :
    CampaignRepository.FindByIDOnly (ProcessCampaignRun env jobID campaignID w) campaignID
      = some { campaign with Status := "completed", UpdatedAt := env.dbNow } ∧
    AllCompleted (ProcessCampaignRun env jobID campaignID w) campaignID ∧
    (BackgroundJobRepository.FindByID (ProcessCampaignRun env jobID campaignID w) jobID).map
        (fun j => (j.Status, j.ErrorMessage))
      = (BackgroundJobRepository.FindByID w jobID).map
          (fun _ => ("failed", "No recipients found")) ∧
    (ProcessCampaignRun env jobID campaignID w).mail = w.mail ∧
    (ProcessCampaignRun env jobID campaignID w).campaign_log = w.campaign_log ∧
    (∀ rounds : List Round,
      campaignID ∉ (startBackgroundScheduler rounds
        (ProcessCampaignRun env jobID campaignID w)).2.map (·.campaignID)) := by
  obtain ⟨h1, h2, h3, h4, h5, h6⟩ := h
  have hid := campaign_FindByIDOnly_id w campaignID campaign h1
  have ho := ProcessCampaignRun_outcome env jobID campaignID w
  unfold RunOutcome at ho
  rw [h1] at ho
  simp only [if_neg h2, if_neg h3, if_neg h4, h5, if_pos h6] at ho
  obtain ⟨e1, e2, e3, e4, _⟩ := ho
  have hall : AllCompleted (ProcessCampaignRun env jobID campaignID w) campaignID := by
    intro r hr hrid
    rw [e1] at hr
    obtain ⟨r0, _, hr0⟩ := List.mem_map.mp hr
    by_cases hr0id : r0.ID = campaignID
    · rw [if_pos hr0id] at hr0
      rw [← hr0]
    · rw [if_neg hr0id] at hr0
      rw [hr0] at hr0id
      exact absurd hrid hr0id
  refine ⟨?_, hall, ?_, e4, e3, ?_⟩
  · unfold CampaignRepository.FindByIDOnly
    rw [e1, find?_map_of_key (fun c : Campaign => c.ID)]
    · unfold CampaignRepository.FindByIDOnly at h1
      rw [h1]
      simp [hid]
    · intro a
      by_cases ha : a.ID = campaignID <;> simp [ha]
  · rw [job_FindByID_congr _ _ jobID e2,
      job_FindByID_FailJob, job_FindByID_StartJob]
    cases hj : BackgroundJobRepository.FindByID w jobID with
    | none => rfl
    | some j0 =>
      have hj0 := job_FindByID_id w jobID j0 hj
      simp [hj0]
  · intro rounds
    exact (startBackgroundScheduler_invariant (fun v => AllCompleted v campaignID) campaignID
      (by
        intro tenv v hv
        refine ⟨?_, tick_all_completed tenv v campaignID hv⟩
        show AllCompleted (ProcessCampaignScheduler tenv v).world campaignID
        unfold AllCompleted
        rw [(ProcessCampaignScheduler_effect tenv v).1]
        exact hv)
      (fun renv j c v hv => ProcessCampaignRun_all_completed_preserved renv j c campaignID v hv)
      rounds _ hall).2

/-- The statement of C10, as the code has it, at the run of the campaign `c4`
of the sample world, whose audience has no member and whose template is in
the template table. -/
theorem ProcessCampaignRun_no_recipients_witness :
    ResolvesNoRecipient sampleWorld "c4" sampleEmptyCampaign sampleTemplate ∧
    AllCompleted (ProcessCampaignRun sampleRunEnv "j4" "c4" sampleWorld) "c4" ∧
    (BackgroundJobRepository.FindByID
        (ProcessCampaignRun sampleRunEnv "j4" "c4" sampleWorld) "j4").map
        (fun j => (j.Status, j.ErrorMessage))
      = some ("failed", "No recipients found") ∧
    "c4" ∉ (startBackgroundScheduler
      [sampleRound ⟨sampleT0.ns + 60000000000, 0⟩,
        sampleRound ⟨sampleT0.ns + 120000000000, 0⟩]
      (ProcessCampaignRun sampleRunEnv "j4" "c4" sampleWorld)).2.map (·.campaignID) :=
  ⟨by decide,
   (ProcessCampaignRun_no_recipients sampleRunEnv "j4" "c4" sampleWorld sampleEmptyCampaign
      sampleTemplate (by decide)).2.1,
   (ProcessCampaignRun_no_recipients sampleRunEnv "j4" "c4" sampleWorld sampleEmptyCampaign
      sampleTemplate (by decide)).2.2.1,
   (ProcessCampaignRun_no_recipients sampleRunEnv "j4" "c4" sampleWorld sampleEmptyCampaign
      sampleTemplate (by decide)).2.2.2.2.2 _⟩

/-- C10 as stated fails: the campaign `c13` passes the three guards and
resolves no recipient, but its template is not in the template table; the
run looks for the template first, so it ends with the campaign status
`failed`, not `completed`, and the job message "Template not found". -/
theorem ProcessCampaignRun_no_recipients_no_template :
    CampaignRepository.FindByIDOnly sampleEmptyNoTemplateWorld "c13"
      = some sampleEmptyNoTemplateCampaign ∧
    sampleEmptyNoTemplateCampaign.Status ≠ "completed" ∧
    sampleEmptyNoTemplateCampaign.OrganizationID ≠ "" ∧
    ¬(sampleEmptyNoTemplateCampaign.ScheduleType = "once" ∧
      sampleEmptyNoTemplateCampaign.LastRunAt ≠ none) ∧
    CampaignRepository.GetRecipientContacts sampleEmptyNoTemplateWorld
      sampleEmptyNoTemplateCampaign = [] ∧
    (CampaignRepository.FindByIDOnly
        (ProcessCampaignRun sampleRunEnv "j13" "c13" sampleEmptyNoTemplateWorld) "c13").map
        (·.Status) = some "failed" ∧
    (BackgroundJobRepository.FindByID
        (ProcessCampaignRun sampleRunEnv "j13" "c13" sampleEmptyNoTemplateWorld) "j13").map
        (fun j => (j.Status, j.ErrorMessage)) = some ("failed", "Template not found") := by
  decide

/-! ## The exits before the send loop -/

theorem EarlyExit_job (env : RunEnv) (jobID msg : String) (f : Campaign → Campaign)
    (w w' : World) (h : EarlyExit env jobID msg f w w') (hmsg : msg ≠ "") :
    (BackgroundJobRepository.FindByID w' jobID).map (fun j => (j.Status, j.ErrorMessage))
      = (BackgroundJobRepository.FindByID w jobID).map (fun _ => ("failed", msg)) := by
  rw [job_FindByID_congr _ _ jobID h.2.1, job_FindByID_FailJob, job_FindByID_StartJob]
  cases hj : BackgroundJobRepository.FindByID w jobID with
  | none => rfl
  | some j0 =>
    have hj0 := job_FindByID_id w jobID j0 hj
    simp [hj0, hmsg]

theorem find_of_rewritten (w w' : World) (campaignID : String) (c row : Campaign)
    (hfind : CampaignRepository.FindByIDOnly w campaignID = some c)
    (hrow : row.ID = campaignID)
    (h : w'.campaign = w.campaign.map (fun r => if r.ID = campaignID then row else r)) :
    CampaignRepository.FindByIDOnly w' campaignID = some row ∧
    (∀ r ∈ w'.campaign, r.ID = campaignID → r = row) := by
  have hid := campaign_FindByIDOnly_id w campaignID c hfind
  constructor
  · unfold CampaignRepository.FindByIDOnly at hfind ⊢
    rw [h, find?_map_of_key (fun c : Campaign => c.ID), hfind]
    · simp [hid]
    · intro a
      by_cases ha : a.ID = campaignID <;> simp [ha, hrow]
  · intro r hr hrid
    rw [h] at hr
    obtain ⟨r0, _, hr0⟩ := List.mem_map.mp hr
    by_cases hr0id : r0.ID = campaignID
    · rw [if_pos hr0id] at hr0
      exact hr0.symm
    · rw [if_neg hr0id] at hr0
      rw [hr0] at hr0id
      exact absurd hrid hr0id

/-- C11, as the code has it: for a one-shot campaign with a `last_run_at`, an
organization and a status other than `completed`, the run fails the job with
"One-time campaign already executed", calls the email sender for nothing,
creates no log row, and saves the campaign with status `completed`; the save
also stamps `updated_at`, and every other column is as it was. -/
theorem ProcessCampaignRun_already_executed (env : RunEnv) (jobID campaignID : String)
    (w : World) (campaign : Campaign) (h : AlreadyExecuted w campaignID campaign) :
    CampaignRepository.FindByIDOnly (ProcessCampaignRun env jobID campaignID w) campaignID
      = some { campaign with Status := "completed", UpdatedAt := env.dbNow } ∧
    (∀ r ∈ (ProcessCampaignRun env jobID campaignID w).campaign, r.ID = campaignID →
      r = { campaign with Status := "completed", UpdatedAt := env.dbNow }) ∧
    (BackgroundJobRepository.FindByID (ProcessCampaignRun env jobID campaignID w) jobID).map
        (fun j => (j.Status, j.ErrorMessage))
      = (BackgroundJobRepository.FindByID w jobID).map
          (fun _ => ("failed", "One-time campaign already executed")) ∧
    (ProcessCampaignRun env jobID campaignID w).mail = w.mail ∧
    (ProcessCampaignRun env jobID campaignID w).campaign_log = w.campaign_log := by
  obtain ⟨h1, h2, h3, h4, h5⟩ := h
  have hid := campaign_FindByIDOnly_id w campaignID campaign h1
  have ho := ProcessCampaignRun_outcome env jobID campaignID w
  unfold RunOutcome at ho
  rw [h1] at ho
  simp only [] at ho
  rw [if_neg h2, if_neg h3, if_pos ⟨h4, h5⟩] at ho
  obtain ⟨hf1, hf2⟩ := find_of_rewritten w _ campaignID campaign
    { campaign with Status := "completed", UpdatedAt := env.dbNow } h1 hid ho.1
  exact ⟨hf1, hf2, EarlyExit_job env jobID _ _ w _ ho (by decide), ho.2.2.2.1, ho.2.2.1⟩

/-- The statement of C11 at a one-shot campaign that has run and whose status
still says `scheduled`. -/
theorem ProcessCampaignRun_already_executed_witness :
    AlreadyExecuted (sampleWorldWith sampleDoneCampaign) "c5" sampleDoneCampaign ∧
    CampaignRepository.FindByIDOnly
        (ProcessCampaignRun sampleRunEnv "j3" "c5" (sampleWorldWith sampleDoneCampaign)) "c5"
      = some { sampleDoneCampaign with Status := "completed", UpdatedAt := sampleRunEnv.dbNow } :=
  ⟨by decide,
   (ProcessCampaignRun_already_executed sampleRunEnv "j3" "c5"
      (sampleWorldWith sampleDoneCampaign) sampleDoneCampaign (by decide)).1⟩

/-- C11 as stated fails: the saved row is not the loaded row with only the
status changed, since its `updated_at` is the time of the save. -/
theorem ProcessCampaignRun_already_executed_updated_at :
    AlreadyExecuted (sampleWorldWith sampleDoneCampaign) "c5" sampleDoneCampaign ∧
    CampaignRepository.FindByIDOnly
        (ProcessCampaignRun sampleRunEnv "j3" "c5" (sampleWorldWith sampleDoneCampaign)) "c5"
      ≠ some { sampleDoneCampaign with Status := "completed" } ∧
    (CampaignRepository.FindByIDOnly
        (ProcessCampaignRun sampleRunEnv "j3" "c5" (sampleWorldWith sampleDoneCampaign))
        "c5").map (·.UpdatedAt) = some sampleRunEnv.dbNow ∧
    sampleDoneCampaign.UpdatedAt ≠ sampleRunEnv.dbNow := by
  decide

/-- C12: for a campaign whose status is `completed` or whose organization id
is empty, the run fails the job and changes nothing else: the campaign table,
the mail and the log rows are as they were. -/
theorem ProcessCampaignRun_completed_or_no_organization (env : RunEnv)
    (jobID campaignID : String) (w : World) (campaign : Campaign)
    (h : CompletedOrNoOrganization w campaignID campaign) :
    (ProcessCampaignRun env jobID campaignID w).campaign = w.campaign ∧
    (BackgroundJobRepository.FindByID (ProcessCampaignRun env jobID campaignID w) jobID).map
        (fun j => (j.Status, j.ErrorMessage))
      = (BackgroundJobRepository.FindByID w jobID).map
          (fun _ => ("failed", if campaign.Status = "completed"
            then "Campaign already completed" else "Invalid organization_id")) ∧
    (ProcessCampaignRun env jobID campaignID w).mail = w.mail ∧
    (ProcessCampaignRun env jobID campaignID w).campaign_log = w.campaign_log := by
  obtain ⟨h1, h2⟩ := h
  have ho := ProcessCampaignRun_outcome env jobID campaignID w
  unfold RunOutcome at ho
  rw [h1] at ho
  by_cases hs : campaign.Status = "completed"
  · simp only [if_pos hs] at ho
    refine ⟨by rw [ho.1, List.map_id], ?_, ho.2.2.2.1, ho.2.2.1⟩
    rw [if_pos hs]
    exact EarlyExit_job env jobID _ _ w _ ho (by decide)
  · have ho' : campaign.OrganizationID = "" := h2.resolve_left hs
    simp only [if_neg hs, if_pos ho'] at ho
    refine ⟨by rw [ho.1, List.map_id], ?_, ho.2.2.2.1, ho.2.2.1⟩
    rw [if_neg hs]
    exact EarlyExit_job env jobID _ _ w _ ho (by decide)

/-- The statement of C12 at a completed campaign. -/
theorem ProcessCampaignRun_completed_or_no_organization_witness :
    CompletedOrNoOrganization (sampleWorldWith sampleCompletedCampaign) "c7"
      sampleCompletedCampaign ∧
    (ProcessCampaignRun sampleRunEnv "j3" "c7" (sampleWorldWith sampleCompletedCampaign)).campaign
      = (sampleWorldWith sampleCompletedCampaign).campaign :=
  ⟨by decide,
   (ProcessCampaignRun_completed_or_no_organization sampleRunEnv "j3" "c7"
      (sampleWorldWith sampleCompletedCampaign) sampleCompletedCampaign (by decide)).1⟩

/-- C13: for a campaign that passes the guards and whose template is not
found, the run fails the job with "Template not found", leaves the campaign
with status `failed` and the `last_run_at` it had, calls the email sender
for nothing and creates no log row. -/
theorem ProcessCampaignRun_template_missing (env : RunEnv) (jobID campaignID : String)
    (w : World) (campaign : Campaign) (h : TemplateMissing w campaignID campaign) :
    CampaignRepository.FindByIDOnly (ProcessCampaignRun env jobID campaignID w) campaignID
      = some { campaign with Status := "failed", UpdatedAt := env.dbNow } ∧
    (∀ r ∈ (ProcessCampaignRun env jobID campaignID w).campaign, r.ID = campaignID →
      r.Status = "failed") ∧
    (ProcessCampaignRun env jobID campaignID w).campaign.map (·.LastRunAt)
      = w.campaign.map (·.LastRunAt) ∧
    (BackgroundJobRepository.FindByID (ProcessCampaignRun env jobID campaignID w) jobID).map
        (fun j => (j.Status, j.ErrorMessage))
      = (BackgroundJobRepository.FindByID w jobID).map
          (fun _ => ("failed", "Template not found")) ∧
    (ProcessCampaignRun env jobID campaignID w).mail = w.mail ∧
    (ProcessCampaignRun env jobID campaignID w).campaign_log = w.campaign_log := by
  obtain ⟨h1, h2, h3, h4, h5⟩ := h
  have hid := campaign_FindByIDOnly_id w campaignID campaign h1
  have ho := ProcessCampaignRun_outcome env jobID campaignID w
  unfold RunOutcome at ho
  rw [h1] at ho
  simp only [if_neg h2, if_neg h3, if_neg h4, h5] at ho
  refine ⟨?_, ?_, ?_, EarlyExit_job env jobID _ _ w _ ho (by decide), ho.2.2.2.1, ho.2.2.1⟩
  · unfold CampaignRepository.FindByIDOnly at h1 ⊢
    rw [ho.1, find?_map_of_key (fun c : Campaign => c.ID), h1]
    · simp [hid]
    · intro a
      by_cases ha : a.ID = campaignID <;> simp [ha]
  · intro r hr hrid
    rw [ho.1] at hr
    obtain ⟨r0, _, hr0⟩ := List.mem_map.mp hr
    by_cases hr0id : r0.ID = campaignID
    · rw [if_pos hr0id] at hr0
      rw [← hr0]
    · rw [if_neg hr0id] at hr0
      rw [hr0] at hr0id
      exact absurd hrid hr0id
  · rw [ho.1, List.map_map]
    apply List.map_congr_left
    intro r _
    by_cases hr : r.ID = campaignID <;> simp [hr]

/-- The statement of C13 at a campaign whose template id is in no row of the
template table. -/
theorem ProcessCampaignRun_template_missing_witness :
    TemplateMissing (sampleWorldWith sampleNoTemplateCampaign) "c8" sampleNoTemplateCampaign ∧
    CampaignRepository.FindByIDOnly
        (ProcessCampaignRun sampleRunEnv "j3" "c8" (sampleWorldWith sampleNoTemplateCampaign))
        "c8"
      = some { sampleNoTemplateCampaign with
          Status := "failed", UpdatedAt := sampleRunEnv.dbNow } :=
  ⟨by decide,
   (ProcessCampaignRun_template_missing sampleRunEnv "j3" "c8"
      (sampleWorldWith sampleNoTemplateCampaign) sampleNoTemplateCampaign (by decide)).1⟩

/-! ## Recipient resolution -/

/-- C16: for a campaign whose `contact_id` is set, `GetRecipientContacts`
returns the list of that one id, whatever the audience ids and the
membership table are; for a campaign with no `contact_id` and no audience id
it returns the empty list. In the model the query cannot fail. -/
theorem GetRecipientContacts_single_contact (w : World) (campaign : Campaign) :
    (∀ contactID : String, campaign.ContactID = some contactID →
      CampaignRepository.GetRecipientContacts w campaign = [contactID]) ∧
    (campaign.ContactID = none → campaign.AudienceIDs = [] →
      CampaignRepository.GetRecipientContacts w campaign = []) := by
  constructor
  · intro contactID h
    simp [CampaignRepository.GetRecipientContacts, h]
  · intro h1 h2
    simp [CampaignRepository.GetRecipientContacts, h1, h2]

/-- The statement of C16 at the campaign `c1` of the sample world, for the
contact `k1`, and at the same campaign with its audience ids set. -/
theorem GetRecipientContacts_single_contact_witness :
    sampleCampaign.ContactID = some "k1" ∧
    CampaignRepository.GetRecipientContacts sampleWorld sampleCampaign = ["k1"] ∧
    CampaignRepository.GetRecipientContacts sampleWorld
      { sampleCampaign with AudienceIDs := ["a1", "a2"] } = ["k1"] :=
  ⟨rfl,
   (GetRecipientContacts_single_contact sampleWorld sampleCampaign).1 "k1" rfl,
   (GetRecipientContacts_single_contact sampleWorld
      { sampleCampaign with AudienceIDs := ["a1", "a2"] }).1 "k1" rfl⟩

/-- C17: for a campaign with no `contact_id`, `GetRecipientContacts` returns
a list without repetition whose members are exactly the contact ids of the
membership rows of the campaign's audiences. -/
theorem GetRecipientContacts_audiences (w : World) (campaign : Campaign)
    (h : campaign.ContactID = none) :
    (CampaignRepository.GetRecipientContacts w campaign).Nodup ∧
    (∀ x : String, x ∈ CampaignRepository.GetRecipientContacts w campaign ↔
      ∃ ac ∈ w.audience_contact, ac.AudienceID ∈ campaign.AudienceIDs ∧ ac.ContactID = x) ∧
    (∀ x : String,
      (CampaignRepository.GetRecipientContacts w campaign).count x
        = if ∃ ac ∈ w.audience_contact, ac.AudienceID ∈ campaign.AudienceIDs ∧ ac.ContactID = x
          then 1 else 0) := by
  have hmem : ∀ x : String, x ∈ CampaignRepository.GetRecipientContacts w campaign ↔
      ∃ ac ∈ w.audience_contact, ac.AudienceID ∈ campaign.AudienceIDs ∧ ac.ContactID = x := by
    intro x
    unfold CampaignRepository.GetRecipientContacts
    rw [h]
    by_cases hl : campaign.AudienceIDs.length > 0
    · simp only [hl, if_true, List.mem_dedup, List.mem_map, List.mem_filter,
        decide_eq_true_eq]
      constructor
      · rintro ⟨ac, ⟨h1, h2⟩, h3⟩
        exact ⟨ac, h1, h2, h3⟩
      · rintro ⟨ac, h1, h2, h3⟩
        exact ⟨ac, ⟨h1, h2⟩, h3⟩
    · simp only [hl, if_false, List.not_mem_nil, false_iff]
      rintro ⟨ac, _, h2, _⟩
      exact hl (List.length_pos_of_mem h2)
  have hnd : (CampaignRepository.GetRecipientContacts w campaign).Nodup := by
    unfold CampaignRepository.GetRecipientContacts
    rw [h]
    by_cases hl : campaign.AudienceIDs.length > 0
    · simp only [hl, if_true]
      exact List.nodup_dedup _
    · simp only [hl, if_false]
      exact List.nodup_nil
  refine ⟨hnd, hmem, ?_⟩
  intro x
  by_cases hx : ∃ ac ∈ w.audience_contact,
      ac.AudienceID ∈ campaign.AudienceIDs ∧ ac.ContactID = x
  · rw [if_pos hx]
    exact List.count_eq_one_of_mem hnd ((hmem x).mpr hx)
  · rw [if_neg hx]
    exact List.count_eq_zero_of_not_mem (fun hin => hx ((hmem x).mp hin))

/-- The statement of C17 at the campaign `c3` of the sample world, whose two
audiences share the contact `k2`. -/
theorem GetRecipientContacts_audiences_witness :
    sampleAudienceCampaign.ContactID = none ∧
    CampaignRepository.GetRecipientContacts sampleWorld sampleAudienceCampaign
      = ["k1", "k2", "k3", "k4"] ∧
    (CampaignRepository.GetRecipientContacts sampleWorld sampleAudienceCampaign).count "k2"
      = 1 :=
  ⟨rfl, by decide,
   ((GetRecipientContacts_audiences sampleWorld sampleAudienceCampaign rfl).2.2 "k2").trans
     (by decide)⟩

/-! ## The queries of the scheduler -/

/-- C18: `FindScheduledCampaigns` at `now` returns the rows of the campaign
table, in the order and number in which they are stored, that have the status
`scheduled`, a `scheduled_at` not after `now`, no `last_run_at` and a
non-empty organization id, and no other row; so a campaign scheduled after
`now` and a completed campaign are not returned. -/
theorem FindScheduledCampaigns_exact (w : World) (now : Time) (c : Campaign) :
    (c ∈ CampaignRepository.FindScheduledCampaigns w now ↔
      c ∈ w.campaign ∧ c.Status = "scheduled" ∧ c.ScheduledAt.ns ≤ now.ns ∧
        c.LastRunAt = none ∧ c.OrganizationID ≠ "") ∧
    (CampaignRepository.FindScheduledCampaigns w now).Sublist w.campaign ∧
    ((CampaignRepository.FindScheduledCampaigns w now).count c
      = if c.Status = "scheduled" ∧ c.ScheduledAt.ns ≤ now.ns ∧ c.LastRunAt = none ∧
          c.OrganizationID ≠ "" then w.campaign.count c else 0) ∧
    (now.ns < c.ScheduledAt.ns → c ∉ CampaignRepository.FindScheduledCampaigns w now) ∧
    (c.Status = "completed" → c ∉ CampaignRepository.FindScheduledCampaigns w now) := by
  have hmem : c ∈ CampaignRepository.FindScheduledCampaigns w now ↔
      c ∈ w.campaign ∧ c.Status = "scheduled" ∧ c.ScheduledAt.ns ≤ now.ns ∧
        c.LastRunAt = none ∧ c.OrganizationID ≠ "" := by
    unfold CampaignRepository.FindScheduledCampaigns
    simp only [List.mem_filter, Bool.and_eq_true, decide_eq_true_eq, Bool.not_eq_true',
      decide_eq_false_iff_not, ne_eq]
    tauto
  refine ⟨hmem, List.filter_sublist _, ?_, ?_, ?_⟩
  · by_cases hc : c.Status = "scheduled" ∧ c.ScheduledAt.ns ≤ now.ns ∧ c.LastRunAt = none ∧
        c.OrganizationID ≠ ""
    · rw [if_pos hc]
      unfold CampaignRepository.FindScheduledCampaigns
      apply List.count_filter
      simp [hc.1, hc.2.1, hc.2.2.1, hc.2.2.2]
    · rw [if_neg hc]
      exact List.count_eq_zero_of_not_mem (fun hin => hc (hmem.mp hin).2)
  · intro hlt hin
    have := (hmem.mp hin).2.2.1
    omega
  · intro hs hin
    have := (hmem.mp hin).2.1
    rw [hs] at this
    exact absurd this (by decide)

/-- C19: when every row of the campaign of an id has a status that is neither
`scheduled` nor `running`, a scheduler tick, at any time and in any
environment, starts no run for it and creates no job row for it, whatever
its schedule and `last_run_at` are. -/
theorem not_active_not_dispatched (env : TickEnv) (w : World) (id : String)
    (h : NotActive w id) :
    id ∉ (ProcessCampaignScheduler env w).dispatched.map (·.campaignID) ∧
    (ProcessCampaignScheduler env w).world.background_job_log.filter
        (fun j => decide (j.ReferenceID = some id))
      = w.background_job_log.filter (fun j => decide (j.ReferenceID = some id)) := by
  have hnd : id ∉ (ProcessCampaignScheduler env w).dispatched.map (·.campaignID) := by
    intro hmem
    obtain ⟨d, hd, hdid⟩ := List.mem_map.mp hmem
    obtain ⟨c, hc, hcid, hdue⟩ := (ProcessCampaignScheduler_effect env w).2.2.2.2.2 d hd
    obtain ⟨hs, hr⟩ := h c hc (hcid.trans hdid)
    rcases hdue with h1 | h1
    · exact hs h1.1
    · rcases h1.2.1 with h2 | h2
      · exact hs h2
      · exact hr h2
  exact ⟨hnd, tick_jobs_of_not_dispatched env w id hnd⟩

/-- The statement of C19 at a paused one-shot campaign that is due and has
never run. -/
theorem not_active_not_dispatched_witness :
    NotActive (sampleWorldWith samplePausedCampaign) "c9" ∧
    "c9" ∉ (ProcessCampaignScheduler (sampleTickEnv ⟨sampleT0.ns + 60000000000, 0⟩)
      (sampleWorldWith samplePausedCampaign)).dispatched.map (·.campaignID) :=
  ⟨by decide,
   (not_active_not_dispatched (sampleTickEnv ⟨sampleT0.ns + 60000000000, 0⟩)
      (sampleWorldWith samplePausedCampaign) "c9" (by decide)).1⟩

/-! ## Deleting a campaign -/

theorem sendStep_subject (env : RunEnv) (campaignID : String) (template : EmailTemplate)
    (st : LoopState) (contact : Contact) :
    ∃ new : List CampaignLog,
      (sendStep env campaignID template st contact).world.campaign_log
        = st.world.campaign_log ++ new ∧
      ∀ l ∈ new, l.Subject = template.Subject := by
  unfold sendStep
  by_cases hE : contact.Email = ""
  · exact ⟨[], by simp [hE], by intro l hl; cases hl⟩
  · have hfresh := freshID_not_mem (st.world.campaign_log.map (·.ID))
    have hmap : ∀ (f : CampaignLog → CampaignLog),
        (st.world.campaign_log.map fun l =>
          if l.ID = freshID (st.world.campaign_log.map (·.ID)) then f l else l)
          = st.world.campaign_log := by
      intro f
      conv_rhs => rw [← List.map_id st.world.campaign_log]
      apply List.map_congr_left
      intro l hl
      have : l.ID ≠ freshID (st.world.campaign_log.map (·.ID)) := by
        intro heq
        apply hfresh
        rw [← heq]
        exact List.mem_map_of_mem _ hl
      simp [this]
    cases hs : env.send st.attempts with
    | none =>
      refine ⟨[⟨freshID (st.world.campaign_log.map (·.ID)), campaignID, contact.ID,
        contact.Email, template.Subject, "sent", "", some env.dbNow, env.dbNow⟩], ?_, ?_⟩
      · simp [hE, hs, CampaignLogRepository.Create, CampaignLogRepository.UpdateStatus, hmap]
      · intro l hl
        rw [List.mem_singleton] at hl
        rw [hl]
    | some e =>
      refine ⟨[⟨freshID (st.world.campaign_log.map (·.ID)), campaignID, contact.ID,
        contact.Email, template.Subject, "failed", if e ≠ "" then e else "", none,
        env.dbNow⟩], ?_, ?_⟩
      · simp [hE, hs, CampaignLogRepository.Create, CampaignLogRepository.UpdateStatus, hmap]
      · intro l hl
        rw [List.mem_singleton] at hl
        rw [hl]

theorem foldl_sendStep_subject (env : RunEnv) (campaignID : String) (template : EmailTemplate)
    (contacts : List Contact) :
    ∀ st : LoopState, ∃ new : List CampaignLog,
      (contacts.foldl (sendStep env campaignID template) st).world.campaign_log
        = st.world.campaign_log ++ new ∧
      ∀ l ∈ new, l.Subject = template.Subject := by
  induction contacts with
  | nil =>
    intro st
    exact ⟨[], by simp, by intro l hl; cases hl⟩
  | cons k ks ih =>
    intro st
    obtain ⟨n1, h1, h2⟩ := sendStep_subject env campaignID template st k
    obtain ⟨n2, g1, g2⟩ := ih (sendStep env campaignID template st k)
    refine ⟨n1 ++ n2, ?_, ?_⟩
    · rw [List.foldl_cons, g1, h1, List.append_assoc]
    · intro l hl
      rcases List.mem_append.mp hl with hl | hl
      · exact h2 l hl
      · exact g2 l hl

theorem ProcessCampaignRun_reaches_loop (env : RunEnv) (jobID campaignID : String)
    (w : World) (campaign : Campaign) (template : EmailTemplate)
    (h : ReachesSendLoop w campaignID campaign template) :
    ∃ w2 : World, w2.campaign_log = w.campaign_log ∧ w2.mail = w.mail ∧
      (ProcessCampaignRun env jobID campaignID w).campaign_log
        = (sendLoop env campaignID template (loadedContacts w campaign) w2).world.campaign_log ∧
      (ProcessCampaignRun env jobID campaignID w).mail
        = (sendLoop env campaignID template (loadedContacts w campaign) w2).world.mail := by
  rw [ProcessCampaignRun_reaches env jobID campaignID w campaign template h]
  simp only []
  set W1 := CampaignRepository.UpdateStatus env.dbNow campaignID "running"
    (StartJob env jobID w) with hW1
  set job := Option.map (fun j : BackgroundJobLog =>
      { j with TotalRecords := some (loadedContacts w campaign).length,
               UpdatedAt := env.dbNow }) (BackgroundJobRepository.FindByID W1 jobID) with hjob
  set W2 := job.elim W1 (fun j => BackgroundJobRepository.Update env.dbNow j W1) with hW2
  obtain ⟨_, F2b, F2c, _⟩ := job_elim_Update_frame env.dbNow job id W1
  set st := sendLoop env campaignID template (loadedContacts w campaign) W2 with hst
  obtain ⟨_, F3b, F3c, _⟩ := job_elim_Update_frame env.dbNow job
    (fun j => { j with ProcessedRecords := some st.sentCount }) st.world
  set cFinal : Campaign := { campaign with
      LastRunAt := some env.now
      Status := if campaign.ScheduleType = "once" then "completed" else "scheduled" } with hcF
  obtain ⟨_, F4b, F4c, _⟩ := campaign_Update_frame env.dbNow cFinal
    (FinishJob env jobID (job.elim st.world (fun j =>
      BackgroundJobRepository.Update env.dbNow
        { j with ProcessedRecords := some st.sentCount } st.world)))
  refine ⟨W2, F2b, F2c, ?_, ?_⟩
  · show (CampaignRepository.Update env.dbNow cFinal _).campaign_log = _
    rw [F4b]
    exact F3b
  · show (CampaignRepository.Update env.dbNow cFinal _).mail = _
    rw [F4c]
    exact F3c

/-- C14, as the code has it: every log row a run creates stores the subject
of the template as it is, before any substitution. -/
theorem ProcessCampaignRun_log_subject (env : RunEnv) (jobID campaignID : String)
    (w : World) (campaign : Campaign) (template : EmailTemplate)
    (h : ReachesSendLoop w campaignID campaign template) :
    ∀ l ∈ (ProcessCampaignRun env jobID campaignID w).campaign_log.drop w.campaign_log.length,
      l.Subject = template.Subject := by
  obtain ⟨w2, e1, _, e3, _⟩ :=
    ProcessCampaignRun_reaches_loop env jobID campaignID w campaign template h
  obtain ⟨new, hl, hs⟩ :=
    foldl_sendStep_subject env campaignID template (loadedContacts w campaign) ⟨w2, 0, 0⟩
  have hlog : (ProcessCampaignRun env jobID campaignID w).campaign_log
      = w.campaign_log ++ new := by
    rw [e3, ← e1]
    exact hl
  rw [hlog, List.drop_left]
  exact hs

/-- The statement of C14 at the run of the campaign `c1` of the sample world
for the contact Alice: the log row has the subject of the template. -/
theorem ProcessCampaignRun_log_subject_witness :
    ReachesSendLoop sampleWorld "c1" sampleCampaign sampleTemplate ∧
    (ProcessCampaignRun sampleRunEnv "j3" "c1" sampleWorld).campaign_log.map (·.Subject)
      = ["Hi \x7b\x7bfirst_name\x7d\x7d"] ∧
    (∀ l ∈ (ProcessCampaignRun sampleRunEnv "j3" "c1" sampleWorld).campaign_log.drop
        sampleWorld.campaign_log.length, l.Subject = sampleTemplate.Subject) :=
  ⟨by decide, by decide,
   ProcessCampaignRun_log_subject sampleRunEnv "j3" "c1" sampleWorld sampleCampaign
     sampleTemplate (by decide)⟩

/-- C14 as stated fails: for the template subject "Hi {{first_name}}" and the
contact Alice the email is sent with the subject "Hi Alice" and the log row
stores "Hi {{first_name}}". -/
theorem ProcessCampaignRun_log_subject_not_as_sent :
    ReachesSendLoop sampleWorld "c1" sampleCampaign sampleTemplate ∧
    (ProcessCampaignRun sampleRunEnv "j3" "c1" sampleWorld).mail.map
        (fun m => (m.To, m.Subject)) = [("a@x.com", "Hi Alice")] ∧
    (ProcessCampaignRun sampleRunEnv "j3" "c1" sampleWorld).campaign_log.map
        (fun l => (l.RecipientEmail, l.Status, l.Subject))
      = [("a@x.com", "sent", "Hi \x7b\x7bfirst_name\x7d\x7d")] ∧
    (ProcessCampaignRun sampleRunEnv "j3" "c1" sampleWorld).campaign_log.map (·.Subject)
      ≠ (ProcessCampaignRun sampleRunEnv "j3" "c1" sampleWorld).mail.map (·.Subject) := by
  decide

/-! ## Replacing in a template whose braces only delimit placeholders -/

theorem replaceAllChars_skip (old new : List Char) (pre rest : List Char) :
    replaceAllChars old new (pre ++ rest) pre.length = replaceAllChars old new rest 0 := by
  induction pre with
  | nil => rfl
  | cons a pre ih =>
    simp only [List.cons_append, List.length_cons, replaceAllChars]
    exact ih

theorem replaceAllChars_pass (old new : List Char) (c : Char) (rest : List Char)
    (h : old.isPrefixOf (c :: rest) = false) :
    replaceAllChars old new (c :: rest) 0 = c :: replaceAllChars old new rest 0 := by
  simp [replaceAllChars, h]

theorem replaceAllChars_match (key new x : List Char) :
    replaceAllChars (placeholderChars key) new (placeholderChars key ++ x) 0
      = new ++ replaceAllChars (placeholderChars key) new x 0 := by
  have hpre : (placeholderChars key).isPrefixOf (placeholderChars key ++ x) = true := by
    rw [List.isPrefixOf_iff_prefix]
    exact List.prefix_append _ _
  have hlen : (placeholderChars key).length - 1
      = ('\x7b' :: (key ++ ['\x7d', '\x7d'])).length := by
    simp [placeholderChars]
  have hshape : placeholderChars key ++ x
      = '\x7b' :: (('\x7b' :: (key ++ ['\x7d', '\x7d'])) ++ x) := by
    simp [placeholderChars]
  rw [hshape] at hpre ⊢
  rw [replaceAllChars]
  rw [if_pos hpre, hlen, replaceAllChars_skip]

theorem placeholder_not_prefix_of_ne (key : List Char) (c : Char) (rest : List Char)
    (hc : c ≠ '\x7b') : (placeholderChars key).isPrefixOf (c :: rest) = false := by
  simp [placeholderChars, List.isPrefixOf, Ne.symm hc]

theorem replaceAllChars_text (key new s x : List Char) (hs : '\x7b' ∉ s) :
    replaceAllChars (placeholderChars key) new (s ++ x) 0
      = s ++ replaceAllChars (placeholderChars key) new x 0 := by
  induction s with
  | nil => rfl
  | cons c s ih =>
    have hc : c ≠ '\x7b' := fun h => hs (h ▸ List.mem_cons_self _ _)
    have hs' : '\x7b' ∉ s := fun h => hs (List.mem_cons_of_mem _ h)
    rw [List.cons_append, replaceAllChars_pass _ _ _ _
      (placeholder_not_prefix_of_ne key c _ hc), ih hs']
    rfl

theorem key_prefix_iff (key name x : List Char) (hk : '\x7d' ∉ key) (hn : '\x7d' ∉ name) :
    (key ++ ['\x7d', '\x7d']).isPrefixOf (name ++ '\x7d' :: '\x7d' :: x) = true ↔ key = name := by
  induction key generalizing name with
  | nil =>
    cases name with
    | nil => simp [List.isPrefixOf]
    | cons a name =>
      have ha : a ≠ '\x7d' := fun h => hn (h ▸ List.mem_cons_self _ _)
      simp [List.isPrefixOf, Ne.symm ha]
  | cons c key ih =>
    have hc : c ≠ '\x7d' := fun h => hk (h ▸ List.mem_cons_self _ _)
    have hk' : '\x7d' ∉ key := fun h => hk (List.mem_cons_of_mem _ h)
    cases name with
    | nil => simp [List.isPrefixOf, hc]
    | cons a name =>
      have hn' : '\x7d' ∉ name := fun h => hn (List.mem_cons_of_mem _ h)
      have := ih name hk' hn'
      simp only [List.cons_append, List.isPrefixOf, Bool.and_eq_true, beq_iff_eq,
        List.cons.injEq]
      exact and_congr_right (fun _ => this)

theorem placeholder_prefix_iff (key name x : List Char) (hk : '\x7d' ∉ key)
    (hn : '\x7d' ∉ name) :
    (placeholderChars key).isPrefixOf (placeholderChars name ++ x) = true ↔ key = name := by
  have := key_prefix_iff key name x hk hn
  simpa [placeholderChars, List.isPrefixOf] using this

theorem placeholder_not_prefix_inside (key name x : List Char) (hn : '\x7b' ∉ name) :
    (placeholderChars key).isPrefixOf ('\x7b' :: ((name ++ ['\x7d', '\x7d']) ++ x)) = false := by
  cases name with
  | nil => simp [placeholderChars, List.isPrefixOf]
  | cons a name =>
    have ha : a ≠ '\x7b' := fun h => hn (h ▸ List.mem_cons_self _ _)
    simp [placeholderChars, List.isPrefixOf, Ne.symm ha]

theorem replaceAllChars_other (key new name x : List Char) (hk : '\x7d' ∉ key)
    (hn1 : '\x7b' ∉ name) (hn2 : '\x7d' ∉ name) (hne : key ≠ name) :
    replaceAllChars (placeholderChars key) new (placeholderChars name ++ x) 0
      = placeholderChars name ++ replaceAllChars (placeholderChars key) new x 0 := by
  have h0 : (placeholderChars key).isPrefixOf (placeholderChars name ++ x) = false := by
    rw [Bool.eq_false_iff]
    intro h
    exact hne ((placeholder_prefix_iff key name x hk hn2).mp h)
  have hshape : placeholderChars name ++ x
      = '\x7b' :: '\x7b' :: ((name ++ ['\x7d', '\x7d']) ++ x) := by
    simp [placeholderChars]
  have htail : '\x7b' ∉ name ++ ['\x7d', '\x7d'] := by
    simp [hn1]
  rw [hshape] at h0 ⊢
  rw [replaceAllChars_pass _ _ _ _ h0,
    replaceAllChars_pass _ _ _ _ (placeholder_not_prefix_inside key name x hn1),
    replaceAllChars_text key new _ x htail]
  simp [placeholderChars]

theorem render_hole_data (name : String) :
    (Piece.hole name).render.data = placeholderChars name.data := by
  simp [Piece.render, placeholderChars, String.data_append]

theorem renderPieces_cons_data (p : Piece) (ps : List Piece) :
    (renderPieces (p :: ps)).data = p.render.data ++ (renderPieces ps).data := by
  simp [renderPieces, String.data_append]

theorem placeholder_string_data (key : String) :
    ("\x7b\x7b" ++ key ++ "\x7d\x7d").data = placeholderChars key.data := by
  simp [placeholderChars, String.data_append]

theorem replaceAllChars_pieces (key value : String) (hk : BraceFree key) (ps : List Piece)
    (hps : ∀ p ∈ ps, p.WellFormed) :
    replaceAllChars (placeholderChars key.data) value.data (renderPieces ps).data 0
      = (renderPieces (ps.map (Piece.fill [(key, value)]))).data := by
  induction ps with
  | nil => rfl
  | cons p ps ih =>
    have ih' := ih (fun q hq => hps q (List.mem_cons_of_mem _ hq))
    have hp := hps p (List.mem_cons_self _ _)
    rw [List.map_cons, renderPieces_cons_data, renderPieces_cons_data, ← ih']
    cases p with
    | text s =>
      exact replaceAllChars_text _ _ _ _ hp.1
    | hole name =>
      rw [render_hole_data]
      by_cases hkn : key = name
      · subst hkn
        simp only [Piece.fill, List.find?_cons, decide_True]
        exact replaceAllChars_match _ _ _
      · have hne : key.data ≠ name.data := fun h => hkn (String.ext h)
        simp only [Piece.fill, List.find?_cons, hkn, decide_False, List.find?_nil]
        rw [render_hole_data]
        exact replaceAllChars_other _ _ _ _ hk.2 hp.1 hp.2 hne

theorem ReplaceAll_pieces (key value : String) (hk : BraceFree key) (ps : List Piece)
    (hps : ∀ p ∈ ps, p.WellFormed) :
    ReplaceAll (renderPieces ps) ("\x7b\x7b" ++ key ++ "\x7d\x7d") value
      = renderPieces (ps.map (Piece.fill [(key, value)])) := by
  apply String.ext
  unfold ReplaceAll
  rw [placeholder_string_data]
  exact replaceAllChars_pieces key value hk ps hps

theorem fill_wellFormed (key value : String) (hv : BraceFree value) (p : Piece)
    (hp : p.WellFormed) : (Piece.fill [(key, value)] p).WellFormed := by
  cases p with
  | text s => exact hp
  | hole name =>
    by_cases hkn : key = name
    · simp only [Piece.fill, List.find?_cons, hkn, decide_True]
      exact hv
    · simp only [Piece.fill, List.find?_cons, hkn, decide_False, List.find?_nil]
      exact hp

theorem fill_fill (kv : String × String) (vars : List (String × String)) (p : Piece) :
    Piece.fill vars (Piece.fill [kv] p) = Piece.fill (kv :: vars) p := by
  cases p with
  | text s => rfl
  | hole name =>
    by_cases hkn : kv.1 = name
    · simp [Piece.fill, List.find?_cons, hkn]
    · simp [Piece.fill, List.find?_cons, hkn]

theorem fill_nil (p : Piece) : Piece.fill [] p = p := by
  cases p <;> rfl

theorem SubstituteTemplateVariables_pieces (vars : List (String × String))
    (hvars : ∀ kv ∈ vars, BraceFree kv.1 ∧ BraceFree kv.2) :
    ∀ ps : List Piece, (∀ p ∈ ps, p.WellFormed) →
      SubstituteTemplateVariables (renderPieces ps) vars
        = renderPieces (ps.map (Piece.fill vars)) := by
  induction vars with
  | nil =>
    intro ps _
    have : ps.map (Piece.fill []) = ps := by
      rw [List.map_congr_left (fun p _ => fill_nil p), List.map_id']
    rw [this]
    rfl
  | cons kv vars ih =>
    intro ps hps
    obtain ⟨hk, hv⟩ := hvars kv (List.mem_cons_self _ _)
    have hrest : ∀ kv' ∈ vars, BraceFree kv'.1 ∧ BraceFree kv'.2 :=
      fun kv' h => hvars kv' (List.mem_cons_of_mem _ h)
    have hps' : ∀ p ∈ ps.map (Piece.fill [kv]), p.WellFormed := by
      intro p hp
      obtain ⟨q, hq, rfl⟩ := List.mem_map.mp hp
      exact fill_wellFormed kv.1 kv.2 hv q (hps q hq)
    have hstep : SubstituteTemplateVariables (renderPieces ps) (kv :: vars)
        = SubstituteTemplateVariables
            (ReplaceAll (renderPieces ps) ("\x7b\x7b" ++ kv.1 ++ "\x7d\x7d") kv.2) vars := rfl
    rw [hstep, ReplaceAll_pieces kv.1 kv.2 hk ps hps, ih hrest _ hps', List.map_map]
    congr 1
    apply List.map_congr_left
    intro p _
    exact fill_fill kv vars p

theorem replacePlaceholdersChars_skip (vars : List (String × String)) (pre rest : List Char) :
    replacePlaceholdersChars vars (pre ++ rest) pre.length
      = replacePlaceholdersChars vars rest 0 := by
  induction pre with
  | nil => rfl
  | cons a pre ih =>
    simp only [List.cons_append, List.length_cons, replacePlaceholdersChars]
    exact ih

theorem replacePlaceholdersChars_pass (vars : List (String × String)) (c : Char)
    (rest : List Char)
    (h : ∀ kv ∈ vars, (placeholderChars kv.1.data).isPrefixOf (c :: rest) = false) :
    replacePlaceholdersChars vars (c :: rest) 0
      = c :: replacePlaceholdersChars vars rest 0 := by
  have hnone : vars.find? (fun kv => (placeholderChars kv.1.data).isPrefixOf (c :: rest))
      = none := by
    rw [List.find?_eq_none]
    intro kv hkv
    rw [h kv hkv]
    exact Bool.false_ne_true
  rw [replacePlaceholdersChars, hnone]

theorem replacePlaceholdersChars_text (vars : List (String × String)) (s x : List Char)
    (hs : '\x7b' ∉ s) :
    replacePlaceholdersChars vars (s ++ x) 0 = s ++ replacePlaceholdersChars vars x 0 := by
  induction s with
  | nil => rfl
  | cons c s ih =>
    have hc : c ≠ '\x7b' := fun h => hs (h ▸ List.mem_cons_self _ _)
    have hs' : '\x7b' ∉ s := fun h => hs (List.mem_cons_of_mem _ h)
    rw [List.cons_append, replacePlaceholdersChars_pass vars c _
      (fun kv _ => placeholder_not_prefix_of_ne kv.1.data c _ hc), ih hs']
    rfl

theorem find?_placeholder (vars : List (String × String)) (name : String) (x : List Char)
    (hvars : ∀ kv ∈ vars, BraceFree kv.1 ∧ BraceFree kv.2) (hn : BraceFree name) :
    vars.find? (fun kv =>
        (placeholderChars kv.1.data).isPrefixOf (placeholderChars name.data ++ x))
      = vars.find? (fun kv => decide (kv.1 = name)) := by
  induction vars with
  | nil => rfl
  | cons kv vars ih =>
    have hk := (hvars kv (List.mem_cons_self _ _)).1
    have ih' := ih (fun kv' h => hvars kv' (List.mem_cons_of_mem _ h))
    have hiff := placeholder_prefix_iff kv.1.data name.data x hk.2 hn.2
    by_cases hkn : kv.1 = name
    · have h1 : (placeholderChars kv.1.data).isPrefixOf (placeholderChars name.data ++ x)
          = true := hiff.mpr (congrArg String.data hkn)
      rw [List.find?_cons, List.find?_cons, h1,
        show decide (kv.1 = name) = true from decide_eq_true hkn]
    · have h1 : (placeholderChars kv.1.data).isPrefixOf (placeholderChars name.data ++ x)
          = false := by
        rw [Bool.eq_false_iff]
        intro h
        exact hkn (String.ext (hiff.mp h))
      rw [List.find?_cons, List.find?_cons, h1,
        show decide (kv.1 = name) = false from decide_eq_false hkn]
      exact ih'

theorem replacePlaceholdersChars_hole (vars : List (String × String)) (name : String)
    (x : List Char) (hvars : ∀ kv ∈ vars, BraceFree kv.1 ∧ BraceFree kv.2)
    (hn : BraceFree name) :
    replacePlaceholdersChars vars (placeholderChars name.data ++ x) 0
      = (Piece.fill vars (.hole name)).render.data ++ replacePlaceholdersChars vars x 0 := by
  have hfind := find?_placeholder vars name x hvars hn
  have hshape : placeholderChars name.data ++ x
      = '\x7b' :: (('\x7b' :: (name.data ++ ['\x7d', '\x7d'])) ++ x) := by
    simp [placeholderChars]
  rw [hshape] at hfind ⊢
  rw [replacePlaceholdersChars, hfind]
  cases hf : vars.find? (fun kv => decide (kv.1 = name)) with
  | some kv =>
    have hkn : kv.1 = name := by simpa using List.find?_some hf
    have hlen : kv.1.data.length + 3 = ('\x7b' :: (name.data ++ ['\x7d', '\x7d'])).length := by
      simp [hkn]
    simp only [Piece.fill, hf, Piece.render]
    rw [hlen, replacePlaceholdersChars_skip]
  | none =>
    have htail : '\x7b' ∉ name.data ++ ['\x7d', '\x7d'] := by
      simp [hn.1]
    simp only [Piece.fill, hf]
    rw [render_hole_data, List.cons_append,
      replacePlaceholdersChars_pass vars _ _
        (fun kv _ => placeholder_not_prefix_inside kv.1.data name.data x hn.1),
      replacePlaceholdersChars_text vars _ x htail]
    simp [placeholderChars]

theorem replacePlaceholders_pieces (vars : List (String × String))
    (hvars : ∀ kv ∈ vars, BraceFree kv.1 ∧ BraceFree kv.2) (ps : List Piece)
    (hps : ∀ p ∈ ps, p.WellFormed) :
    replacePlaceholders (renderPieces ps) vars = renderPieces (ps.map (Piece.fill vars)) := by
  apply String.ext
  unfold replacePlaceholders
  show replacePlaceholdersChars vars (renderPieces ps).data 0 = _
  induction ps with
  | nil => rfl
  | cons p ps ih =>
    have ih' := ih (fun q hq => hps q (List.mem_cons_of_mem _ hq))
    have hp := hps p (List.mem_cons_self _ _)
    rw [List.map_cons, renderPieces_cons_data, renderPieces_cons_data, ← ih']
    cases p with
    | text s => exact replacePlaceholdersChars_text vars _ _ hp.1
    | hole name =>
      rw [render_hole_data]
      exact replacePlaceholdersChars_hole vars name _ hvars hp

/-! ## Substitution of template variables -/

/-- C15, as the code has it: for a template in which braces only delimit
placeholders of names without braces, and a map whose keys and values have
no brace, `SubstituteTemplateVariables`, whatever the order in which it
visits the entries, returns the template with every placeholder of a key of
the map replaced by the value of that key and every other piece, a
placeholder of an unknown name included, as it was. -/
theorem SubstituteTemplateVariables_well_formed (ps : List Piece)
    (vars : List (String × String)) (hps : ∀ p ∈ ps, p.WellFormed)
    (hvars : ∀ kv ∈ vars, BraceFree kv.1 ∧ BraceFree kv.2) :
    SubstituteTemplateVariables (renderPieces ps) vars
      = replacePlaceholders (renderPieces ps) vars ∧
    SubstituteTemplateVariables (renderPieces ps) vars
      = renderPieces (ps.map (Piece.fill vars)) := by
  rw [replacePlaceholders_pieces vars hvars ps hps]
  exact ⟨SubstituteTemplateVariables_pieces vars hvars ps hps,
    SubstituteTemplateVariables_pieces vars hvars ps hps⟩

/-- The statement of C15 at a template with a known and an unknown
placeholder and the variables of the contact Alice, whose phone is empty. -/
theorem SubstituteTemplateVariables_well_formed_witness :
    (∀ p ∈ samplePieces, p.WellFormed) ∧
    (∀ kv ∈ sampleVariables, BraceFree kv.1 ∧ BraceFree kv.2) ∧
    renderPieces samplePieces
      = "Hi \x7b\x7bfirst_name\x7d\x7d, call \x7b\x7bphone\x7d\x7d or \x7b\x7bagent\x7d\x7d!" ∧
    SubstituteTemplateVariables (renderPieces samplePieces) sampleVariables
      = "Hi Alice, call  or \x7b\x7bagent\x7d\x7d!" ∧
    SubstituteTemplateVariables (renderPieces samplePieces) sampleVariables
      = replacePlaceholders (renderPieces samplePieces) sampleVariables :=
  ⟨by decide, by decide, by decide, by decide,
   (SubstituteTemplateVariables_well_formed samplePieces sampleVariables
      (by decide) (by decide)).1⟩

/-- C15 as stated fails. When the first name of a contact is the text
"{{email}}" and the map is visited first at `first_name`, the template
"{{first_name}}" becomes the email address, where replacing the placeholders
of the template gives the first name. And when the phone is empty and the
map is visited first at `phone`, the template "{{{phone}}{email}}", in which
no placeholder of `email` occurs, becomes the email address. -/
theorem SubstituteTemplateVariables_not_simultaneous :
    SubstituteTemplateVariables "\x7b\x7bfirst_name\x7d\x7d"
        [("first_name", "\x7b\x7bemail\x7d\x7d"), ("email", "a@x.com")] = "a@x.com" ∧
    replacePlaceholders "\x7b\x7bfirst_name\x7d\x7d"
        [("first_name", "\x7b\x7bemail\x7d\x7d"), ("email", "a@x.com")]
      = "\x7b\x7bemail\x7d\x7d" ∧
    SubstituteTemplateVariables "\x7b\x7b\x7bphone\x7d\x7d\x7bemail\x7d\x7d"
        [("phone", ""), ("email", "a@x.com")] = "a@x.com" ∧
    replacePlaceholders "\x7b\x7b\x7bphone\x7d\x7d\x7bemail\x7d\x7d"
        [("phone", ""), ("email", "a@x.com")] = "\x7b\x7bemail\x7d\x7d" ∧
    SubstituteTemplateVariables "\x7b\x7bfirst_name\x7d\x7d"
        [("first_name", "\x7b\x7bemail\x7d\x7d"), ("email", "a@x.com")]
      ≠ replacePlaceholders "\x7b\x7bfirst_name\x7d\x7d"
        [("first_name", "\x7b\x7bemail\x7d\x7d"), ("email", "a@x.com")] := by
  decide

/-! ## Creating a campaign -/

theorem NoSingleTarget_iff (req : CreateCampaignRequest) :
    NoSingleTarget req ↔
      ((req.AudienceIDs.length = 0 ∧ req.ContactID = none) ∨
        (req.AudienceIDs.length > 0 ∧ req.ContactID ≠ none)) := by
  unfold NoSingleTarget
  cases req.AudienceIDs <;> cases req.ContactID <;> simp

/-- The two ways `CreateCampaign` ends: with an answer other than 201 and the
world as it was, or with the answer 201 and one more row, made from a
request that the check of the targets accepts. -/
theorem CreateCampaign_cases (env : CreateEnv) (orgID userID : String)
    (body : Option CreateCampaignRequest) (w : World) :
    (∃ r, CreateCampaign env orgID userID body w = (r, w) ∧ r.status ≠ 201) ∨
    (∃ req row, body = some req ∧ ¬NoSingleTarget req ∧
      CreateCampaign env orgID userID body w
        = (⟨201, "Campaign created successfully"⟩, { w with campaign := w.campaign ++ [row] }) ∧
      row.ContactID = req.ContactID ∧ row.AudienceIDs = req.AudienceIDs ∧
      row.OrganizationID = orgID) := by
  cases body with
  | none => exact Or.inl ⟨_, rfl, by decide⟩
  | some req =>
    unfold CreateCampaign
    simp only []
    repeat' split
    all_goals first
      | exact Or.inl ⟨_, rfl, by decide⟩
      | exact Or.inl ⟨_, rfl, by simp⟩
      | skip
    have h3 : ¬(req.AudienceIDs.length = 0 ∧ req.ContactID = none ∨
        req.AudienceIDs.length > 0 ∧ req.ContactID ≠ none) := by assumption
    rw [← NoSingleTarget_iff] at h3
    exact Or.inr ⟨req, _, rfl, h3, rfl, rfl, rfl, rfl⟩

/-- C21: `CreateCampaign` answers 400 and stores nothing for every request
that names neither a contact nor an audience, and for every request that
names both; whenever it does not answer 201 it stores nothing, and when it
answers 201 it has added one row, with the targets of the request, which has
exactly one of the two targets. -/
theorem CreateCampaign_one_target (env : CreateEnv) (orgID userID : String)
    (body : Option CreateCampaignRequest) (w : World) :
    (∀ req, body = some req → NoSingleTarget req →
      (CreateCampaign env orgID userID body w).1.status = 400 ∧
      (CreateCampaign env orgID userID body w).2 = w) ∧
    ((CreateCampaign env orgID userID body w).1.status ≠ 201 →
      (CreateCampaign env orgID userID body w).2 = w) ∧
    ((CreateCampaign env orgID userID body w).1.status = 201 →
      ∃ req row, body = some req ∧
        (CreateCampaign env orgID userID body w).2 = { w with campaign := w.campaign ++ [row] } ∧
        row.ContactID = req.ContactID ∧ row.AudienceIDs = req.AudienceIDs ∧
        row.OrganizationID = orgID ∧ OneTarget row) := by
  refine ⟨?_, ?_, ?_⟩
  · intro req hreq hno
    subst hreq
    have hno' := (NoSingleTarget_iff req).mp hno
    unfold CreateCampaign
    simp only []
    by_cases h1 : req.Name = "" ∨ req.TemplateID = "" ∨ req.ScheduleType = ""
    · rw [if_pos h1]
      exact ⟨rfl, rfl⟩
    · rw [if_neg h1]
      by_cases h2 : req.ScheduleType ≠ "once" ∧ req.ScheduleType ≠ "recurring"
      · rw [if_pos h2]
        exact ⟨rfl, rfl⟩
      · rw [if_neg h2, if_pos hno']
        exact ⟨rfl, rfl⟩
  · intro hne
    rcases CreateCampaign_cases env orgID userID body w with ⟨r, hr, _⟩ | ⟨req, row, _, _, hr, _⟩
    · rw [hr]
    · rw [hr] at hne
      exact absurd rfl hne
  · intro heq
    rcases CreateCampaign_cases env orgID userID body w with
      ⟨r, hr, hs⟩ | ⟨req, row, hb, hno, hr, hc, ha, ho⟩
    · rw [hr] at heq
      exact absurd heq hs
    · refine ⟨req, row, hb, by rw [hr], hc, ha, ho, ?_⟩
      unfold OneTarget
      rw [hc, ha]
      unfold NoSingleTarget at hno
      revert hno
      cases req.AudienceIDs <;> cases req.ContactID <;> simp

/-- The statement of C21 at a request without any target, at a request with
a contact and an audience, and at a request with a contact only, which is
stored. -/
theorem CreateCampaign_one_target_witness :
    NoSingleTarget { sampleRequest with ContactID := none } ∧
    (CreateCampaign sampleCreateEnv "o1" "u1" (some { sampleRequest with ContactID := none })
      sampleWorld).1.status = 400 ∧
    NoSingleTarget { sampleRequest with AudienceIDs := ["a1"] } ∧
    (CreateCampaign sampleCreateEnv "o1" "u1" (some { sampleRequest with AudienceIDs := ["a1"] })
      sampleWorld).1.status = 400 ∧
    (CreateCampaign sampleCreateEnv "o1" "u1" (some sampleRequest) sampleWorld).1.status = 201 ∧
    (∃ req row, some sampleRequest = some req ∧
      (CreateCampaign sampleCreateEnv "o1" "u1" (some sampleRequest) sampleWorld).2
        = { sampleWorld with campaign := sampleWorld.campaign ++ [row] } ∧
      row.ContactID = req.ContactID ∧ row.AudienceIDs = req.AudienceIDs ∧
      row.OrganizationID = "o1" ∧ OneTarget row) :=
  ⟨by decide,
   ((CreateCampaign_one_target sampleCreateEnv "o1" "u1"
      (some { sampleRequest with ContactID := none }) sampleWorld).1 _ rfl (by decide)).1,
   by decide,
   ((CreateCampaign_one_target sampleCreateEnv "o1" "u1"
      (some { sampleRequest with AudienceIDs := ["a1"] }) sampleWorld).1 _ rfl (by decide)).1,
   by decide,
   (CreateCampaign_one_target sampleCreateEnv "o1" "u1" (some sampleRequest) sampleWorld).2.2
     (by decide)⟩

/-! ## Expiry of invite tokens -/

/-- C22: `IsTokenExpired` is true for a nil expiry; for an expiry before the
current time it is true, and for an expiry after the current time it is
false. -/
theorem IsTokenExpired_spec (now : Time) :
    IsTokenExpired now none = true ∧
    (∀ expiresAt : Time, expiresAt.ns < now.ns → IsTokenExpired now (some expiresAt) = true) ∧
    (∀ expiresAt : Time, now.ns < expiresAt.ns → IsTokenExpired now (some expiresAt) = false) := by
  refine ⟨rfl, ?_, ?_⟩
  · intro e he
    simp only [IsTokenExpired, Time.After, decide_eq_true_eq]
    exact he
  · intro e he
    simp only [IsTokenExpired, Time.After, decide_eq_false_iff_not]
    omega

/-- The statement of C22 at an expiry one hour before and one hour after
`sampleT0`, as the tests of the function take them. -/
theorem IsTokenExpired_spec_witness :
    IsTokenExpired sampleT0 none = true ∧
    IsTokenExpired sampleT0 (some ⟨sampleT0.ns - Hour, 0⟩) = true ∧
    IsTokenExpired sampleT0 (some ⟨sampleT0.ns + Hour, 0⟩) = false :=
  ⟨(IsTokenExpired_spec sampleT0).1,
   (IsTokenExpired_spec sampleT0).2.1 ⟨sampleT0.ns - Hour, 0⟩ (by decide),
   (IsTokenExpired_spec sampleT0).2.2 ⟨sampleT0.ns + Hour, 0⟩ (by decide)⟩

/-- C23, as the code has it: a token whose expiry is the very instant the
function reads from the clock is not expired; with a non-nil expiry the
function is true exactly when the current time is after the expiry. -/
theorem IsTokenExpired_at_expiry (now expiresAt : Time) :
    (expiresAt.ns = now.ns → IsTokenExpired now (some expiresAt) = false) ∧
    (IsTokenExpired now (some expiresAt) = true ↔ expiresAt.ns < now.ns) := by
  constructor
  · intro he
    simp only [IsTokenExpired, Time.After, decide_eq_false_iff_not]
    omega
  · simp only [IsTokenExpired, Time.After, decide_eq_true_eq]

/-- The statement of C23, as the code has it, at `sampleT0`, and at the
expiry of the test of the function, a reading of the clock taken one
nanosecond before the reading inside the function. -/
theorem IsTokenExpired_at_expiry_witness :
    IsTokenExpired sampleT0 (some sampleT0) = false ∧
    IsTokenExpired ⟨sampleT0.ns + 1, 0⟩ (some sampleT0) = true :=
  ⟨(IsTokenExpired_at_expiry sampleT0 sampleT0).1 rfl,
   (IsTokenExpired_at_expiry ⟨sampleT0.ns + 1, 0⟩ sampleT0).2.mpr (by decide)⟩

/-- C23 as stated fails: at the instant of its expiry the token is not
expired. -/
theorem IsTokenExpired_exactly_now : IsTokenExpired sampleT0 (some sampleT0) ≠ true := by
  decide

/-! ## Recurrence eligibility: what is left -/

/-- C24: a campaign that has run, and whose recurrence is weekly without a
day of the week, or monthly without a day of the month, or any text other
than daily, weekly and monthly, is not eligible at any time: the function
returns false. -/
theorem shouldRunRecurringCampaign_missing_day (campaign : Campaign) (recurrence : String)
    (T now : Time) (hlast : campaign.LastRunAt = some T)
    (hrec : campaign.Recurrence = some recurrence)
    (h : (recurrence = "weekly" ∧ campaign.RecurrenceDayOfWeek = none) ∨
      (recurrence = "monthly" ∧ campaign.RecurrenceDayOfMonth = none) ∨
      (recurrence ≠ "daily" ∧ recurrence ≠ "weekly" ∧ recurrence ≠ "monthly")) :
    shouldRunRecurringCampaign campaign now = some false := by
  unfold shouldRunRecurringCampaign
  rw [hlast, hrec]
  rcases h with ⟨h1, h2⟩ | ⟨h1, h2⟩ | ⟨h1, h2, h3⟩
  · subst h1
    simp only [h2]
    rfl
  · subst h1
    simp only [h2]
    rfl
  · simp only [if_neg h1, if_neg h2, if_neg h3]

/-- The statement of C24 at a weekly campaign without day of the week, a
monthly campaign without day of the month and a campaign whose recurrence is
the text "yearly", one week after their last run. -/
theorem shouldRunRecurringCampaign_missing_day_witness :
    shouldRunRecurringCampaign (sampleRecurring "weekly" none (some 1))
      ⟨sampleT0.ns + 7 * 24 * Hour, 0⟩ = some false ∧
    shouldRunRecurringCampaign (sampleRecurring "monthly" (some 1) none)
      ⟨sampleT0.ns + 7 * 24 * Hour, 0⟩ = some false ∧
    shouldRunRecurringCampaign (sampleRecurring "yearly" (some 1) (some 1))
      ⟨sampleT0.ns + 7 * 24 * Hour, 0⟩ = some false :=
  ⟨shouldRunRecurringCampaign_missing_day _ "weekly" sampleT0 _ rfl rfl (Or.inl ⟨rfl, rfl⟩),
   shouldRunRecurringCampaign_missing_day _ "monthly" sampleT0 _ rfl rfl
     (Or.inr (Or.inl ⟨rfl, rfl⟩)),
   shouldRunRecurringCampaign_missing_day _ "yearly" sampleT0 _ rfl rfl
     (Or.inr (Or.inr (by decide)))⟩

/-- C28 fails on the code: for the recurring campaign `sampleNoRecurrence`,
which has a `last_run_at` and a null `recurrence`, the function has no
result, at any time; `FindRecurringCampaigns` returns the campaign, and the
tick that meets it panics. -/
theorem shouldRunRecurringCampaign_nil_recurrence :
    (∀ now : Time, shouldRunRecurringCampaign sampleNoRecurrence now = none) ∧
    sampleNoRecurrence ∈
      CampaignRepository.FindRecurringCampaigns (sampleWorldWith sampleNoRecurrence) ∧
    (ProcessCampaignScheduler (sampleTickEnv ⟨sampleT0.ns + 60000000000, 0⟩)
      (sampleWorldWith sampleNoRecurrence)).panicked = true :=
  ⟨fun _ => rfl, by decide, by decide⟩

/-! ## The runs a tick starts for one campaign -/

theorem foldl_dispatched_sublist (f : TickState → Campaign → TickState) (q : Campaign → Bool)
    (hstep : ∀ st c, (f st c).dispatched = st.dispatched ∨
      (q c = true ∧ ∃ j, (f st c).dispatched = st.dispatched ++ [⟨j, c.ID⟩])) :
    ∀ (l : List Campaign) (st : TickState), ∃ extra : List Dispatch,
      (l.foldl f st).dispatched = st.dispatched ++ extra ∧
      (extra.map (·.campaignID)).Sublist ((l.filter q).map (·.ID)) := by
  intro l
  induction l with
  | nil => intro st; exact ⟨[], by simp, by simp⟩
  | cons a l ih =>
    intro st
    obtain ⟨extra, h1, h2⟩ := ih (f st a)
    rw [List.foldl_cons]
    rcases hstep st a with h | ⟨hq, j, h⟩
    · refine ⟨extra, by rw [h1, h], ?_⟩
      rw [List.filter_cons]
      split
      · exact List.Sublist.cons _ h2
      · exact h2
    · refine ⟨⟨j, a.ID⟩ :: extra, by rw [h1, h, List.append_assoc]; rfl, ?_⟩
      rw [List.filter_cons, if_pos hq]
      exact List.Sublist.cons₂ _ h2

theorem dispatchCampaign_dispatched (env : TickEnv) (second : Bool) (st : TickState)
    (c : Campaign) :
    (dispatchCampaign env second st c).dispatched = st.dispatched ∨
    ∃ j, (dispatchCampaign env second st c).dispatched = st.dispatched ++ [⟨j, c.ID⟩] := by
  unfold dispatchCampaign
  split
  · exact Or.inl rfl
  · exact Or.inr ⟨_, rfl⟩

theorem scheduledStep_dispatched (env : TickEnv) (st : TickState) (c : Campaign) :
    (scheduledStep env st c).dispatched = st.dispatched ∨
    ((fun _ : Campaign => true) c = true ∧
      ∃ j, (scheduledStep env st c).dispatched = st.dispatched ++ [⟨j, c.ID⟩]) := by
  unfold scheduledStep
  split
  · exact Or.inl rfl
  · rcases dispatchCampaign_dispatched env false st c with h | h
    · exact Or.inl h
    · exact Or.inr ⟨rfl, h⟩

theorem recurringStep_dispatched (env : TickEnv) (st : TickState) (c : Campaign) :
    (recurringStep env st c).dispatched = st.dispatched ∨
    ((fun c : Campaign => decide (shouldRunRecurringCampaign c env.currentTime = some true)) c
        = true ∧
      ∃ j, (recurringStep env st c).dispatched = st.dispatched ++ [⟨j, c.ID⟩]) := by
  unfold recurringStep
  split
  · exact Or.inl rfl
  · split
    · exact Or.inl rfl
    · split
      · exact Or.inl rfl
      · split
        · exact Or.inl rfl
        · next hrun =>
          rcases dispatchCampaign_dispatched env true st c with h | h
          · exact Or.inl h
          · exact Or.inr ⟨by simp [hrun], h⟩
        · exact Or.inl rfl

/-- The runs a tick starts are those of its first loop followed by those of
its second loop; the first are for rows `FindScheduledCampaigns` returns,
the second for rows `FindRecurringCampaigns` returns and
`shouldRunRecurringCampaign` accepts, each row at most once and in the order
of the query. -/
theorem ProcessCampaignScheduler_dispatched (env : TickEnv) (w : World) :
    ∃ first second : List Dispatch,
      (ProcessCampaignScheduler env w).dispatched = first ++ second ∧
      (first.map (·.campaignID)).Sublist
        ((CampaignRepository.FindScheduledCampaigns w env.currentTime).map (·.ID)) ∧
      (second.map (·.campaignID)).Sublist
        (((CampaignRepository.FindRecurringCampaigns w).filter (fun c =>
          decide (shouldRunRecurringCampaign c env.currentTime = some true))).map (·.ID)) := by
  unfold ProcessCampaignScheduler
  split
  · exact ⟨[], [], rfl, by simp, by simp⟩
  · obtain ⟨first, h1, h2⟩ := foldl_dispatched_sublist (scheduledStep env) (fun _ => true)
      (scheduledStep_dispatched env)
      (CampaignRepository.FindScheduledCampaigns w env.currentTime) ⟨w, [], false⟩
    simp only [List.nil_append, List.filter_true] at h1 h2
    split
    · exact ⟨first, [], by rw [h1, List.append_nil], h2, by simp⟩
    · obtain ⟨second, h3, h4⟩ := foldl_dispatched_sublist (recurringStep env) _
        (recurringStep_dispatched env)
        (CampaignRepository.FindRecurringCampaigns
          ((CampaignRepository.FindScheduledCampaigns w env.currentTime).foldl
            (scheduledStep env) ⟨w, [], false⟩).world)
        ((CampaignRepository.FindScheduledCampaigns w env.currentTime).foldl
            (scheduledStep env) ⟨w, [], false⟩)
      have hw : ((CampaignRepository.FindScheduledCampaigns w env.currentTime).foldl
          (scheduledStep env) ⟨w, [], false⟩).world.campaign = w.campaign := by
        have := ProcessCampaignScheduler_effect
          { env with findScheduledErr := false, findRecurringErr := true } w
        unfold ProcessCampaignScheduler at this
        simpa using this.1
      have hq : CampaignRepository.FindRecurringCampaigns
          ((CampaignRepository.FindScheduledCampaigns w env.currentTime).foldl
            (scheduledStep env) ⟨w, [], false⟩).world
          = CampaignRepository.FindRecurringCampaigns w := by
        unfold CampaignRepository.FindRecurringCampaigns
        rw [hw]
      rw [hq] at h4
      exact ⟨first, second, by rw [h3, h1], h2, h4⟩

theorem mem_FindScheduledCampaigns (w : World) (now : Time) (c : Campaign)
    (h : c ∈ CampaignRepository.FindScheduledCampaigns w now) :
    c ∈ w.campaign ∧ DueScheduled now c := by
  unfold CampaignRepository.FindScheduledCampaigns at h
  obtain ⟨hmem, hp⟩ := List.mem_filter.mp h
  simp only [Bool.and_eq_true, decide_eq_true_eq, Bool.not_eq_true', decide_eq_false_iff_not]
    at hp
  exact ⟨hmem, hp.1.1.1, hp.1.1.2, hp.1.2, hp.2⟩

theorem mem_FindRecurringCampaigns (w : World) (c : Campaign)
    (h : c ∈ CampaignRepository.FindRecurringCampaigns w) :
    c ∈ w.campaign ∧ c.ScheduleType = "recurring" ∧
    (c.Status = "scheduled" ∨ c.Status = "running") ∧ c.OrganizationID ≠ "" := by
  unfold CampaignRepository.FindRecurringCampaigns at h
  obtain ⟨hmem, hp⟩ := List.mem_filter.mp h
  simp only [Bool.and_eq_true, Bool.or_eq_true, decide_eq_true_eq, Bool.not_eq_true',
    decide_eq_false_iff_not] at hp
  exact ⟨hmem, hp.1.1, hp.1.2, hp.2⟩

theorem count_le_one_of_sublist_filter (l : List Campaign) (p : Campaign → Bool)
    (x : List String) (id : String) (hkey : (l.map (·.ID)).Nodup)
    (hx : x.Sublist ((l.filter p).map (·.ID))) : x.count id ≤ 1 := by
  have h1 : ((l.filter p).map (·.ID)).Sublist (l.map (·.ID)) :=
    List.Sublist.map _ (List.filter_sublist l)
  exact List.nodup_iff_count_le_one.mp (hkey.sublist (hx.trans h1)) id

theorem tick_jobsFor (env : TickEnv) (w : World) (id : String) :
    jobsFor (ProcessCampaignScheduler env w).world id
      = jobsFor w id + runsFor (ProcessCampaignScheduler env w) id := by
  obtain ⟨_, _, _, _, ⟨newJobs, hj, hmap⟩, _⟩ := ProcessCampaignScheduler_effect env w
  unfold jobsFor runsFor
  rw [hj, List.filter_append, List.length_append]
  congr 1
  have h2 : newJobs.map (·.ReferenceID)
      = ((ProcessCampaignScheduler env w).dispatched.map (·.campaignID)).map some := by
    have := congrArg (List.map Prod.snd) hmap
    simpa [List.map_map, Function.comp_def] using this
  have h3 : (newJobs.filter (fun j => decide (j.ReferenceID = some id))).length
      = ((newJobs.map (·.ReferenceID)).filter (fun r => decide (r = some id))).length := by
    rw [List.filter_map, List.length_map]
    rfl
  rw [h3, h2, List.filter_map, List.length_map, List.count, List.countP_eq_length_filter]
  congr 1
  apply List.filter_congr
  intro x _
  simp only [Function.comp_apply, Option.some.injEq]
  by_cases hx : x = id <;> simp [hx]

/-- When the ids of the campaign table are distinct, each loop of a tick
starts at most one run for a campaign id, and the tick starts at most one
run in all for an id whose row is not a recurring campaign with the status
`scheduled` that has never run and whose `scheduled_at` is before the time
of the tick; the tick creates as many job rows for the id as it starts
runs. -/
theorem tick_runs_per_campaign (env : TickEnv) (w : World) (id : String)
    (hkey : (w.campaign.map (·.ID)).Nodup) :
    runsFor (ProcessCampaignScheduler env w) id ≤ 2 ∧
    ((∀ c ∈ w.campaign, c.ID = id → ¬NeverRunRecurring env.currentTime c) →
      runsFor (ProcessCampaignScheduler env w) id ≤ 1) ∧
    jobsFor (ProcessCampaignScheduler env w).world id
      = jobsFor w id + runsFor (ProcessCampaignScheduler env w) id := by
  obtain ⟨first, second, hd, h1, h2⟩ := ProcessCampaignScheduler_dispatched env w
  have c1 : (first.map (·.campaignID)).count id ≤ 1 := by
    unfold CampaignRepository.FindScheduledCampaigns at h1
    exact count_le_one_of_sublist_filter w.campaign _ _ id hkey h1
  have c2 : (second.map (·.campaignID)).count id ≤ 1 := by
    unfold CampaignRepository.FindRecurringCampaigns at h2
    rw [List.filter_filter] at h2
    exact count_le_one_of_sublist_filter w.campaign _ _ id hkey h2
  have hsum : runsFor (ProcessCampaignScheduler env w) id
      = (first.map (·.campaignID)).count id + (second.map (·.campaignID)).count id := by
    unfold runsFor
    rw [hd, List.map_append, List.count_append]
  refine ⟨by omega, ?_, tick_jobsFor env w id⟩
  intro hnot
  by_contra hgt
  have p1 : 0 < (first.map (·.campaignID)).count id := by omega
  have p2 : 0 < (second.map (·.campaignID)).count id := by omega
  have m1 := h1.subset (List.count_pos_iff.mp p1)
  have m2 := h2.subset (List.count_pos_iff.mp p2)
  obtain ⟨a, ha, haid⟩ := List.mem_map.mp m1
  obtain ⟨b, hb, hbid⟩ := List.mem_map.mp m2
  obtain ⟨hamem, has, hat, hal, hao⟩ := mem_FindScheduledCampaigns w _ a ha
  obtain ⟨hb1, hb2⟩ := List.mem_filter.mp hb
  obtain ⟨hbmem, hbt, _, _⟩ := mem_FindRecurringCampaigns w b hb1
  have hab : a = b :=
    List.inj_on_of_nodup_map hkey hamem hbmem (haid.trans hbid.symm)
  subst hab
  apply hnot a hamem haid
  refine ⟨hbt, has, hal, ?_, hao⟩
  have hrun : shouldRunRecurringCampaign a env.currentTime = some true := by simpa using hb2
  unfold shouldRunRecurringCampaign at hrun
  rw [hal] at hrun
  simpa [Time.After] using hrun

/-- The bound on the runs of a tick at the sample world and the one-shot
campaign `c1`, for which the tick starts one run. -/
theorem tick_runs_per_campaign_witness :
    (sampleWorld.campaign.map (·.ID)).Nodup ∧
    (∀ c ∈ sampleWorld.campaign, c.ID = "c1" →
      ¬NeverRunRecurring (⟨sampleT0.ns + 60000000000, 0⟩ : Time) c) ∧
    runsFor (ProcessCampaignScheduler (sampleTickEnv ⟨sampleT0.ns + 60000000000, 0⟩)
      sampleWorld) "c1" ≤ 1 ∧
    runsFor (ProcessCampaignScheduler (sampleTickEnv ⟨sampleT0.ns + 60000000000, 0⟩)
      sampleWorld) "c1" = 1 :=
  ⟨by decide, by decide,
   (tick_runs_per_campaign (sampleTickEnv ⟨sampleT0.ns + 60000000000, 0⟩) sampleWorld "c1"
      (by decide)).2.1 (by decide),
   by decide⟩

/-- C25 fails on the code: the campaign `c3` of the sample world, a daily
campaign with the status `scheduled` that has never run, is returned by both
queries of a tick one minute after its `scheduled_at`; the first loop starts
a run for it and the second loop starts another, so the tick starts two runs
for it and creates two job rows for it, and when the two runs have ended
each of its recipients has two log rows. -/
theorem tick_two_runs_for_never_run_recurring :
    sampleAudienceCampaign ∈
      CampaignRepository.FindScheduledCampaigns sampleWorld ⟨sampleT0.ns + 60000000000, 0⟩ ∧
    sampleAudienceCampaign ∈ CampaignRepository.FindRecurringCampaigns sampleWorld ∧
    runsFor (ProcessCampaignScheduler (sampleTickEnv ⟨sampleT0.ns + 60000000000, 0⟩)
      sampleWorld) "c3" = 2 ∧
    jobsFor sampleWorld "c3" = 1 ∧
    jobsFor (ProcessCampaignScheduler (sampleTickEnv ⟨sampleT0.ns + 60000000000, 0⟩)
      sampleWorld).world "c3" = 3 ∧
    ((startBackgroundScheduler [sampleRound ⟨sampleT0.ns + 60000000000, 0⟩]
      sampleWorld).1.campaign_log.map (fun l => (l.CampaignID, l.ContactID)))
      = [("c1", "k1"), ("c3", "k1"), ("c3", "k2"), ("c3", "k4"), ("c3", "k1"), ("c3", "k2"),
          ("c3", "k4")] := by
  decide

/-! ## A campaign whose run is in progress -/

/-- C26, as the code has it: when every row of a campaign id has the status
`running`, a tick starts a run for the id only for a row that is recurring,
has an organization and is accepted by `shouldRunRecurringCampaign`; when no
row of the id is recurring, the tick starts no run for it and creates no job
row for it. -/
theorem running_dispatched_only_recurring (env : TickEnv) (w : World) (id : String)
    (h : AllRunning w id) :
    (∀ d ∈ (ProcessCampaignScheduler env w).dispatched, d.campaignID = id →
      ∃ c ∈ w.campaign, c.ID = id ∧ DueRecurring env.currentTime c) ∧
    ((∀ c ∈ w.campaign, c.ID = id → c.ScheduleType ≠ "recurring") →
      runsFor (ProcessCampaignScheduler env w) id = 0 ∧
      jobsFor (ProcessCampaignScheduler env w).world id = jobsFor w id) := by
  have key : ∀ d ∈ (ProcessCampaignScheduler env w).dispatched, d.campaignID = id →
      ∃ c ∈ w.campaign, c.ID = id ∧ DueRecurring env.currentTime c := by
    intro d hd hdid
    obtain ⟨c, hc, hcid, hdue⟩ := (ProcessCampaignScheduler_effect env w).2.2.2.2.2 d hd
    have hrun := h c hc (hcid.trans hdid)
    rcases hdue with h1 | h1
    · have hs : c.Status = "scheduled" := h1.1
      rw [hrun] at hs
      exact absurd hs (by decide)
    · exact ⟨c, hc, hcid.trans hdid, h1⟩
  refine ⟨key, ?_⟩
  intro hnot
  have h0 : runsFor (ProcessCampaignScheduler env w) id = 0 := by
    unfold runsFor
    rw [List.count_eq_zero]
    intro hmem
    obtain ⟨d, hd, hdid⟩ := List.mem_map.mp hmem
    obtain ⟨c, hc, hcid, hdue⟩ := key d hd hdid
    exact hnot c hc hcid hdue.1
  refine ⟨h0, ?_⟩
  rw [tick_jobsFor, h0, Nat.add_zero]

/-- The statement of C26, as the code has it, at a one-shot campaign that is
due, has never run and has the status `running`. -/
theorem running_dispatched_only_recurring_witness :
    AllRunning (sampleWorldWith sampleRunningCampaign) "c10" ∧
    (∀ c ∈ (sampleWorldWith sampleRunningCampaign).campaign, c.ID = "c10" →
      c.ScheduleType ≠ "recurring") ∧
    runsFor (ProcessCampaignScheduler (sampleTickEnv ⟨sampleT0.ns + 60000000000, 0⟩)
      (sampleWorldWith sampleRunningCampaign)) "c10" = 0 :=
  ⟨by decide, by decide,
   ((running_dispatched_only_recurring (sampleTickEnv ⟨sampleT0.ns + 60000000000, 0⟩)
      (sampleWorldWith sampleRunningCampaign) "c10" (by decide)).2 (by decide)).1⟩

/-- C26 as stated fails: for the daily campaign `c12`, whose stored status is
`running` and whose last run is two days old, a tick starts a run and
creates a job row. -/
theorem running_recurring_dispatched :
    AllRunning (sampleWorldWith sampleRunningDaily) "c12" ∧
    runsFor (ProcessCampaignScheduler (sampleTickEnv ⟨sampleT0.ns + 60000000000, 0⟩)
      (sampleWorldWith sampleRunningDaily)) "c12" = 1 ∧
    jobsFor (sampleWorldWith sampleRunningDaily) "c12" = 0 ∧
    jobsFor (ProcessCampaignScheduler (sampleTickEnv ⟨sampleT0.ns + 60000000000, 0⟩)
      (sampleWorldWith sampleRunningDaily)).world "c12" = 1 := by
  decide

/-! ## The order in which the variables are visited -/

theorem find?_key_perm (vars vars' : List (String × String)) (name : String)
    (hkeys : (vars.map Prod.fst).Nodup) (hperm : vars.Perm vars') :
    vars'.find? (fun kv => decide (kv.1 = name))
      = vars.find? (fun kv => decide (kv.1 = name)) := by
  cases h : vars.find? (fun kv => decide (kv.1 = name)) with
  | none =>
    rw [List.find?_eq_none] at h ⊢
    intro kv hkv
    exact h kv (hperm.mem_iff.mpr hkv)
  | some kv =>
    have hmem : kv ∈ vars := List.mem_of_find?_eq_some h
    have hkey : kv.1 = name := by simpa using List.find?_some h
    cases h' : vars'.find? (fun kv => decide (kv.1 = name)) with
    | none =>
      rw [List.find?_eq_none] at h'
      exact absurd (by simpa using hkey) (h' kv (hperm.mem_iff.mp hmem))
    | some kv' =>
      have hmem' : kv' ∈ vars := hperm.mem_iff.mpr (List.mem_of_find?_eq_some h')
      have hkey' : kv'.1 = name := by simpa using List.find?_some h'
      rw [List.inj_on_of_nodup_map hkeys hmem' hmem (hkey'.trans hkey.symm)]

theorem fill_perm (vars vars' : List (String × String)) (p : Piece)
    (hkeys : (vars.map Prod.fst).Nodup) (hperm : vars.Perm vars') :
    Piece.fill vars' p = Piece.fill vars p := by
  cases p with
  | text s => rfl
  | hole name =>
    simp only [Piece.fill]
    rw [find?_key_perm vars vars' name hkeys hperm]

/-- C27, as the code has it: for a template in which braces only delimit
placeholders of names without braces, and a map whose keys and values have
no brace, the result of `SubstituteTemplateVariables` is the same in every
order in which the entries of the map are visited. -/
theorem SubstituteTemplateVariables_order (ps : List Piece)
    (vars vars' : List (String × String)) (hps : ∀ p ∈ ps, p.WellFormed)
    (hvars : ∀ kv ∈ vars, BraceFree kv.1 ∧ BraceFree kv.2)
    (hkeys : (vars.map Prod.fst).Nodup) (hperm : vars.Perm vars') :
    SubstituteTemplateVariables (renderPieces ps) vars'
      = SubstituteTemplateVariables (renderPieces ps) vars := by
  have hvars' : ∀ kv ∈ vars', BraceFree kv.1 ∧ BraceFree kv.2 :=
    fun kv hkv => hvars kv (hperm.mem_iff.mpr hkv)
  rw [SubstituteTemplateVariables_pieces vars' hvars' ps hps,
    SubstituteTemplateVariables_pieces vars hvars ps hps]
  congr 1
  apply List.map_congr_left
  intro p _
  exact fill_perm vars vars' p hkeys hperm

/-- The statement of C27, as the code has it, at the sample template and the
variables of the contact Alice, visited from the first to the last and from
the last to the first. -/
theorem SubstituteTemplateVariables_order_witness :
    (∀ p ∈ samplePieces, p.WellFormed) ∧
    (∀ kv ∈ sampleVariables, BraceFree kv.1 ∧ BraceFree kv.2) ∧
    (sampleVariables.map Prod.fst).Nodup ∧
    SubstituteTemplateVariables (renderPieces samplePieces) sampleVariables.reverse
      = SubstituteTemplateVariables (renderPieces samplePieces) sampleVariables :=
  ⟨by decide, by decide, by decide,
   SubstituteTemplateVariables_order samplePieces sampleVariables sampleVariables.reverse
     (by decide) (by decide) (by decide) (List.reverse_perm sampleVariables).symm⟩

/-- C27 as stated fails: when the first name of a contact is the text
"{{email}}", the template "{{first_name}}" becomes the email address if the
map is visited first at `first_name`, and the text "{{email}}" if it is
visited first at `email`. -/
theorem SubstituteTemplateVariables_order_dependent :
    SubstituteTemplateVariables "\x7b\x7bfirst_name\x7d\x7d"
        [("first_name", "\x7b\x7bemail\x7d\x7d"), ("email", "a@x.com")] = "a@x.com" ∧
    SubstituteTemplateVariables "\x7b\x7bfirst_name\x7d\x7d"
        [("email", "a@x.com"), ("first_name", "\x7b\x7bemail\x7d\x7d")]
      = "\x7b\x7bemail\x7d\x7d" ∧
    SubstituteTemplateVariables "\x7b\x7bfirst_name\x7d\x7d"
        [("first_name", "\x7b\x7bemail\x7d\x7d"), ("email", "a@x.com")]
      ≠ SubstituteTemplateVariables "\x7b\x7bfirst_name\x7d\x7d"
        [("email", "a@x.com"), ("first_name", "\x7b\x7bemail\x7d\x7d")] := by
  decide

/-! ## The status of the job of a run -/

theorem ProcessCampaignRun_exit_or_loop (env : RunEnv) (jobID campaignID : String) (w : World) :
    (∃ msg f, msg ≠ "" ∧
      EarlyExit env jobID msg f w (ProcessCampaignRun env jobID campaignID w) ∧
      ¬ReachesLoop w campaignID) ∨
    ReachesLoop w campaignID := by
  have h := ProcessCampaignRun_outcome env jobID campaignID w
  unfold RunOutcome at h
  cases hfind : CampaignRepository.FindByIDOnly w campaignID with
  | none =>
    rw [hfind] at h
    refine Or.inl ⟨_, _, by decide, h, ?_⟩
    rintro ⟨c, t, hr⟩
    rw [hr.1] at hfind
    cases hfind
  | some c =>
    rw [hfind] at h
    simp only [] at h
    have hsame : ∀ c' t', ReachesSendLoop w campaignID c' t' → c' = c := by
      intro c' t' hr
      have := hr.1
      rw [hfind] at this
      exact (Option.some.inj this).symm
    split at h
    · next h1 =>
      refine Or.inl ⟨_, _, by decide, h, ?_⟩
      rintro ⟨c', t', hr⟩
      have := hsame c' t' hr
      subst this
      exact hr.2.1 h1
    · split at h
      · next h2 =>
        refine Or.inl ⟨_, _, by decide, h, ?_⟩
        rintro ⟨c', t', hr⟩
        have := hsame c' t' hr
        subst this
        exact hr.2.2.1 h2
      · split at h
        · next h3 =>
          refine Or.inl ⟨_, _, by decide, h, ?_⟩
          rintro ⟨c', t', hr⟩
          have := hsame c' t' hr
          subst this
          exact hr.2.2.2.1 h3
        · cases ht : EmailTemplateRepository.FindByID w c.TemplateID c.OrganizationID with
          | none =>
            rw [ht] at h
            refine Or.inl ⟨_, _, by decide, h, ?_⟩
            rintro ⟨c', t', hr⟩
            have := hsame c' t' hr
            subst this
            have := hr.2.2.2.2.1
            rw [ht] at this
            cases this
          | some t =>
            rw [ht] at h
            simp only [] at h
            split at h
            · next h6 =>
              refine Or.inl ⟨_, _, by decide, h, ?_⟩
              rintro ⟨c', t', hr⟩
              have := hsame c' t' hr
              subst this
              exact hr.2.2.2.2.2 h6
            · exact Or.inr ⟨c, t, h⟩

theorem job_UpdateStatus_status (dbNow : Time) (jobID status msg : String) (w : World) :
    JobHasStatus (BackgroundJobRepository.UpdateStatus dbNow jobID status msg w) jobID status := by
  intro j hj hid
  unfold BackgroundJobRepository.UpdateStatus at hj
  obtain ⟨r, _, hr⟩ := List.mem_map.mp hj
  by_cases h : r.ID = jobID
  · rw [if_pos h] at hr
    rw [← hr]
  · rw [if_neg h] at hr
    rw [hr] at h
    exact absurd hid h

theorem job_UpdateStatus_ids (dbNow : Time) (jobID status msg : String) (w : World) :
    (BackgroundJobRepository.UpdateStatus dbNow jobID status msg w).background_job_log.map
      (·.ID) = w.background_job_log.map (·.ID) := by
  unfold BackgroundJobRepository.UpdateStatus
  simp only [List.map_map]
  apply List.map_congr_left
  intro r _
  by_cases h : r.ID = jobID <;> simp [h]

theorem job_Update_status (dbNow : Time) (job : BackgroundJobLog) (jobID status : String)
    (w : World) (hjob : job.Status = status) (hw : JobHasStatus w jobID status) :
    JobHasStatus (BackgroundJobRepository.Update dbNow job w) jobID status := by
  intro j hj hid
  unfold BackgroundJobRepository.Update at hj
  split at hj
  · obtain ⟨r, hr, hrj⟩ := List.mem_map.mp hj
    by_cases h : r.ID = job.ID
    · rw [if_pos h] at hrj
      rw [← hrj]
      exact hjob
    · rw [if_neg h] at hrj
      rw [← hrj] at hid ⊢
      exact hw r hr hid
  · rcases List.mem_append.mp hj with hr | hr
    · exact hw j hr hid
    · rw [List.mem_singleton] at hr
      rw [hr]
      exact hjob

theorem job_Update_ids (dbNow : Time) (job : BackgroundJobLog) (w : World)
    (h : job.ID ∈ w.background_job_log.map (·.ID)) :
    (BackgroundJobRepository.Update dbNow job w).background_job_log.map (·.ID)
      = w.background_job_log.map (·.ID) := by
  unfold BackgroundJobRepository.Update
  have hany : w.background_job_log.any (fun j => decide (j.ID = job.ID)) = true := by
    rw [List.any_eq_true]
    obtain ⟨r, hr, hrid⟩ := List.mem_map.mp h
    exact ⟨r, hr, by simpa using hrid⟩
  simp only [hany, if_true, List.map_map]
  apply List.map_congr_left
  intro r _
  by_cases h : r.ID = job.ID <;> simp [h]

/-- The job table of a run that reaches the send loop: the run ends with
`FinishJob` on a world in which the job was still `running`, and adds and
removes no job row. -/
theorem ProcessCampaignRun_loop_job (env : RunEnv) (jobID campaignID : String) (w : World)
    (campaign : Campaign) (template : EmailTemplate)
    (h : ReachesSendLoop w campaignID campaign template) :
    ∃ mid : World, JobHasStatus mid jobID "running" ∧
      mid.background_job_log.map (·.ID) = w.background_job_log.map (·.ID) ∧
      (ProcessCampaignRun env jobID campaignID w).background_job_log
        = (FinishJob env jobID mid).background_job_log := by
  rw [ProcessCampaignRun_reaches env jobID campaignID w campaign template h]
  simp only []
  have hstart : JobHasStatus (StartJob env jobID w) jobID "running" :=
    job_UpdateStatus_status _ _ _ _ _
  have hstartIds : (StartJob env jobID w).background_job_log.map (·.ID)
      = w.background_job_log.map (·.ID) := job_UpdateStatus_ids _ _ _ _ _
  generalize hw2 : CampaignRepository.UpdateStatus env.dbNow campaignID "running"
    (StartJob env jobID w) = w2
  have hw2j : w2.background_job_log = (StartJob env jobID w).background_job_log := by
    rw [← hw2]
    rfl
  have h2 : JobHasStatus w2 jobID "running" := by
    unfold JobHasStatus
    rw [hw2j]
    exact hstart
  have h2ids : w2.background_job_log.map (·.ID) = w.background_job_log.map (·.ID) := by
    rw [hw2j, hstartIds]
  have hloop : ∀ w3 : World,
      (sendLoop env campaignID template (loadedContacts w campaign) w3).world.background_job_log
        = w3.background_job_log := by
    intro w3
    obtain ⟨new, hl⟩ := foldl_sendStep_effect env campaignID template
      (loadedContacts w campaign) ⟨w3, 0, 0⟩
    exact hl.2.2.2.2.2.2.2.2.1
  have hfinal : ∀ (c : Campaign) (n : Nat) (mid : World),
      (NotifyCampaignSent env.dbNow c.OrganizationID c.CreatedBy campaignID n
        (CampaignRepository.Update env.dbNow c (FinishJob env jobID mid))).background_job_log
        = (FinishJob env jobID mid).background_job_log := by
    intro c n mid
    exact (campaign_Update_frame env.dbNow c (FinishJob env jobID mid)).1
  cases hj : BackgroundJobRepository.FindByID w2 jobID with
  | none =>
    simp only [Option.map_none', Option.elim]
    refine ⟨_, ?_, ?_, hfinal _ _ _⟩
    · unfold JobHasStatus
      rw [hloop]
      exact h2
    · rw [hloop, h2ids]
  | some j0 =>
    simp only [Option.map_some', Option.elim]
    have hid : j0.ID = jobID := job_FindByID_id w2 jobID j0 hj
    have hmem : j0 ∈ w2.background_job_log := by
      unfold BackgroundJobRepository.FindByID at hj
      exact List.mem_of_find?_eq_some hj
    have hrun : j0.Status = "running" := h2 j0 hmem hid
    have h3 : JobHasStatus (BackgroundJobRepository.Update env.dbNow
        { j0 with TotalRecords := some (loadedContacts w campaign).length,
                  UpdatedAt := env.dbNow } w2) jobID "running" := by
      refine job_Update_status _ _ _ _ _ ?_ h2
      exact hrun
    have h3ids : (BackgroundJobRepository.Update env.dbNow
        { j0 with TotalRecords := some (loadedContacts w campaign).length,
                  UpdatedAt := env.dbNow } w2).background_job_log.map (·.ID)
        = w.background_job_log.map (·.ID) := by
      rw [job_Update_ids, h2ids]
      exact List.mem_map.mpr ⟨j0, hmem, rfl⟩
    refine ⟨_, ?_, ?_, hfinal _ _ _⟩
    · refine job_Update_status _ _ _ _ _ ?_ ?_
      · exact hrun
      · unfold JobHasStatus
        rw [hloop]
        exact h3
    · rw [job_Update_ids, hloop, h3ids]
      rw [hloop, h3ids, ← h2ids]
      exact List.mem_map.mpr ⟨j0, hmem, rfl⟩

/-! ## The organization of the recipients -/

theorem mem_withEmail_loaded (w : World) (campaignID : String) (c : Campaign) (k : Contact)
    (hfind : CampaignRepository.FindByIDOnly w campaignID = some c)
    (hk : k ∈ withEmail (loadedContacts w c)) : OwnRecipient w campaignID k := by
  unfold OwnRecipient
  rw [hfind]
  unfold withEmail loadedContacts ContactRepository.FindByIDs at hk
  obtain ⟨hk1, _⟩ := List.mem_filter.mp hk
  obtain ⟨hk2, hp⟩ := List.mem_filter.mp hk1
  simp only [Bool.and_eq_true, decide_eq_true_eq] at hp
  exact ⟨hk2, hp.2, hp.1⟩

/-- C30: the log rows a run creates and the emails it sends are for contact
rows of the organization of the campaign whose ids the campaign resolves;
when the ids of the contact table are distinct, no log row is created for a
contact row of another organization, even if the campaign resolves its
id. -/
theorem ProcessCampaignRun_own_organization (env : RunEnv) (jobID campaignID : String)
    (w : World) :
    ∃ (new : List CampaignLog) (tos : List String),
      (ProcessCampaignRun env jobID campaignID w).campaign_log = w.campaign_log ++ new ∧
      (ProcessCampaignRun env jobID campaignID w).mail.map (·.To) = w.mail.map (·.To) ++ tos ∧
      (∀ l ∈ new, ∃ k, OwnRecipient w campaignID k ∧ l.ContactID = k.ID ∧
        l.RecipientEmail = k.Email) ∧
      (∀ a ∈ tos, ∃ k, OwnRecipient w campaignID k ∧ a = k.Email) ∧
      ((w.contact.map (·.ID)).Nodup →
        ∀ k ∈ w.contact, ¬OwnRecipient w campaignID k → ∀ l ∈ new, l.ContactID ≠ k.ID) := by
  have hlast : ∀ new : List CampaignLog,
      (∀ l ∈ new, ∃ k, OwnRecipient w campaignID k ∧ l.ContactID = k.ID ∧
        l.RecipientEmail = k.Email) →
      ((w.contact.map (·.ID)).Nodup →
        ∀ k ∈ w.contact, ¬OwnRecipient w campaignID k → ∀ l ∈ new, l.ContactID ≠ k.ID) := by
    intro new hnew hkey k hk hnot l hl hid
    obtain ⟨k', hown, hk'id, _⟩ := hnew l hl
    have hk'mem : k' ∈ w.contact := by
      unfold OwnRecipient at hown
      split at hown
      · exact hown.elim
      · exact hown.1
    have : k' = k := List.inj_on_of_nodup_map hkey hk'mem hk (hk'id.symm.trans hid)
    rw [this] at hown
    exact hnot hown
  rcases ProcessCampaignRun_exit_or_loop env jobID campaignID w with
    ⟨msg, f, _, hexit, _⟩ | ⟨c, t, hr⟩
  · refine ⟨[], [], by rw [hexit.2.2.1, List.append_nil],
      by rw [hexit.2.2.2.1, List.append_nil], ?_, ?_, ?_⟩
    · intro l hl; cases hl
    · intro a ha; cases ha
    · intro _ k _ _ l hl; cases hl
  · obtain ⟨new, hl, hk, _, hto, _⟩ :=
      ProcessCampaignRun_reaches_effect env jobID campaignID w c t hr
    have hnew : ∀ l ∈ new, ∃ k, OwnRecipient w campaignID k ∧ l.ContactID = k.ID ∧
        l.RecipientEmail = k.Email := by
      intro l hmem
      have hin : (l.CampaignID, l.ContactID, l.RecipientEmail)
          ∈ new.map (fun l => (l.CampaignID, l.ContactID, l.RecipientEmail)) :=
        List.mem_map_of_mem _ hmem
      rw [hk] at hin
      obtain ⟨k, hkmem, hkeq⟩ := List.mem_map.mp hin
      have e2 := congrArg (fun p => p.2.1) hkeq
      have e3 := congrArg (fun p => p.2.2) hkeq
      exact ⟨k, mem_withEmail_loaded w campaignID c k hr.1 hkmem, e2.symm, e3.symm⟩
    refine ⟨new, _, hl, hto, hnew, ?_, hlast new hnew⟩
    intro a ha
    obtain ⟨k, hkmem, hka⟩ := List.mem_map.mp ha
    exact ⟨k, mem_withEmail_loaded w campaignID c k hr.1 hkmem, hka.symm⟩

/-- The statement of C30 at the run of the campaign `c3` of organization
`o1` in a world where its audience `a1` lists the contact `k5` of
organization `o2`: the campaign resolves `k5`, and the run creates no log
row for `k5` and sends no email to the address of `k5`. -/
theorem ProcessCampaignRun_own_organization_witness :
    "k5" ∈ CampaignRepository.GetRecipientContacts sampleForeignWorld sampleAudienceCampaign ∧
    (∀ l ∈ (ProcessCampaignRun sampleRunEnv "j3" "c3" sampleForeignWorld).campaign_log,
      l.ContactID ≠ "k5") ∧
    (∀ m ∈ (ProcessCampaignRun sampleRunEnv "j3" "c3" sampleForeignWorld).mail,
      m.To ≠ "e@y.com") ∧
    (∃ (new : List CampaignLog) (tos : List String),
      (ProcessCampaignRun sampleRunEnv "j3" "c3" sampleForeignWorld).campaign_log
        = sampleForeignWorld.campaign_log ++ new ∧
      (ProcessCampaignRun sampleRunEnv "j3" "c3" sampleForeignWorld).mail.map (·.To)
        = sampleForeignWorld.mail.map (·.To) ++ tos ∧
      (∀ l ∈ new, ∃ k, OwnRecipient sampleForeignWorld "c3" k ∧ l.ContactID = k.ID ∧
        l.RecipientEmail = k.Email) ∧
      (∀ a ∈ tos, ∃ k, OwnRecipient sampleForeignWorld "c3" k ∧ a = k.Email) ∧
      ((sampleForeignWorld.contact.map (·.ID)).Nodup →
        ∀ k ∈ sampleForeignWorld.contact, ¬OwnRecipient sampleForeignWorld "c3" k →
          ∀ l ∈ new, l.ContactID ≠ k.ID)) :=
  ⟨by decide, by decide, by decide,
   ProcessCampaignRun_own_organization sampleRunEnv "j3" "c3" sampleForeignWorld⟩

/-! ## The calls a run makes to the job repository -/

/-- Without an error of the queries for the recipients, the run with its
calls recorded ends in the world of `ProcessCampaignRun`. -/
theorem ProcessCampaignRunTraced_world (env : RunEnv) (jobID campaignID : String) (w : World) :
    (ProcessCampaignRunTraced env ⟨false, false⟩ jobID campaignID w).world
      = ProcessCampaignRun env jobID campaignID w := by
  unfold ProcessCampaignRunTraced ProcessCampaignRun
  simp only [Traced.call, Traced.step, JobCall.run, StartJob, FailJob, FinishJob,
    Bool.false_eq_true, false_and, if_false]
  repeat' split
  all_goals rfl

theorem early_exit_calls (env : RunEnv) (jobID msg : String) (reached : Prop) (w : World)
    (t : Traced) (hmsg : msg ≠ "") (hnot : ¬reached)
    (hcalls : t.calls
      = [JobCall.UpdateStatus jobID "running" "", JobCall.UpdateStatus jobID "failed" msg])
    (hworld : t.world.background_job_log
      = (BackgroundJobRepository.UpdateStatus env.dbNow jobID "failed" msg
          (BackgroundJobRepository.UpdateStatus env.dbNow jobID "running" ""
            w)).background_job_log) :
    JobCallsOf env jobID reached w t := by
  refine ⟨[], JobCall.UpdateStatus jobID "failed" msg, hcalls, ?_,
    Or.inr ⟨hnot, rfl, msg, hmsg, rfl⟩, ?_, ?_⟩
  · intro c hc; cases hc
  · unfold JobHasStatus
    rw [hworld]
    exact job_UpdateStatus_status _ _ _ _ _
  · rw [hworld, hcalls]
    rfl

theorem job_Update_congr (dbNow : Time) (job : BackgroundJobLog) (v v' : World)
    (h : v.background_job_log = v'.background_job_log) :
    (BackgroundJobRepository.Update dbNow job v).background_job_log
      = (BackgroundJobRepository.Update dbNow job v').background_job_log := by
  unfold BackgroundJobRepository.Update
  rw [h]
  split <;> rfl

theorem job_UpdateStatus_congr (dbNow : Time) (id status msg : String) (v v' : World)
    (h : v.background_job_log = v'.background_job_log) :
    (BackgroundJobRepository.UpdateStatus dbNow id status msg v).background_job_log
      = (BackgroundJobRepository.UpdateStatus dbNow id status msg v').background_job_log := by
  unfold BackgroundJobRepository.UpdateStatus
  rw [h]

theorem not_LoopReached_of_find (errs : QueryErrs) (w : World) (campaignID : String)
    (c : Campaign) (hfind : CampaignRepository.FindByIDOnly w campaignID = some c)
    (h : ∀ t, ReachesSendLoop w campaignID c t →
      ¬(errs.recipientsErr = true ∧ c.ContactID = none ∧ c.AudienceIDs.length > 0) →
      errs.contactsErr = false → False) :
    ¬LoopReached errs w campaignID := by
  rintro ⟨c', t', hr, h1, h2⟩
  have := hr.1
  rw [hfind] at this
  cases this
  exact h t' hr h1 h2

theorem sendLoop_jobs (env : RunEnv) (campaignID : String) (template : EmailTemplate)
    (contacts : List Contact) (v : World) :
    (sendLoop env campaignID template contacts v).world.background_job_log
      = v.background_job_log := by
  obtain ⟨new, hl⟩ := foldl_sendStep_effect env campaignID template contacts ⟨v, 0, 0⟩
  exact hl.2.2.2.2.2.2.2.2.1

/-- The calls of a run from the point where it has loaded its contacts. -/
theorem loop_calls (env : RunEnv) (jobID campaignID : String) (reached : Prop)
    (hreached : reached) (w w2 : World) (template : EmailTemplate) (contacts : List Contact)
    (orgID createdBy : String) (campaign : Campaign)
    (hw2 : w2.background_job_log
      = (BackgroundJobRepository.UpdateStatus env.dbNow jobID "running" ""
          w).background_job_log) :
    JobCallsOf env jobID reached w
      (let job := (BackgroundJobRepository.FindByID w2 jobID).map (fun j =>
        { j with TotalRecords := some contacts.length, UpdatedAt := env.dbNow })
       let t : Traced := match job with
         | some j =>
           Traced.call env.dbNow (.Update j) ⟨w2, [JobCall.UpdateStatus jobID "running" ""]⟩
         | none => ⟨w2, [JobCall.UpdateStatus jobID "running" ""]⟩
       let st := sendLoop env campaignID template contacts t.world
       let t : Traced := ⟨st.world, t.calls⟩
       let t := match job with
         | some j => t.call env.dbNow (.Update { j with ProcessedRecords := some st.sentCount })
         | none => t
       let t := t.call env.dbNow (.UpdateStatus jobID "success" "")
       let t := t.step (CampaignRepository.Update env.dbNow campaign)
       t.step (NotifyCampaignSent env.dbNow orgID createdBy campaignID st.sentCount)) := by
  have hrun : JobHasStatus w2 jobID "running" := by
    unfold JobHasStatus
    rw [hw2]
    exact job_UpdateStatus_status _ _ _ _ _
  cases hj : BackgroundJobRepository.FindByID w2 jobID with
  | none =>
    simp only [Option.map_none', Traced.call, Traced.step, JobCall.run]
    refine ⟨[], JobCall.UpdateStatus jobID "success" "", rfl, ?_, Or.inl ⟨hreached, rfl⟩, ?_, ?_⟩
    · intro c hc; cases hc
    · unfold JobHasStatus
      rw [show (NotifyCampaignSent env.dbNow orgID createdBy campaignID _
          (CampaignRepository.Update env.dbNow campaign _)).background_job_log = _ from
        (campaign_Update_frame _ _ _).1]
      exact job_UpdateStatus_status _ _ _ _ _
    · rw [show (NotifyCampaignSent env.dbNow orgID createdBy campaignID _
          (CampaignRepository.Update env.dbNow campaign _)).background_job_log = _ from
        (campaign_Update_frame _ _ _).1]
      apply job_UpdateStatus_congr
      rw [sendLoop_jobs, hw2]
      rfl
  | some j0 =>
    have hid : j0.ID = jobID := job_FindByID_id w2 jobID j0 hj
    have hmem : j0 ∈ w2.background_job_log := by
      unfold BackgroundJobRepository.FindByID at hj
      exact List.mem_of_find?_eq_some hj
    have hst : j0.Status = "running" := hrun j0 hmem hid
    simp only [Option.map_some', Traced.call, Traced.step, JobCall.run]
    refine ⟨[JobCall.Update _, JobCall.Update _], JobCall.UpdateStatus jobID "success" "", rfl,
      ?_, Or.inl ⟨hreached, rfl⟩, ?_, ?_⟩
    · intro c hc
      simp only [List.mem_cons, List.mem_singleton, List.not_mem_nil, or_false] at hc
      rcases hc with hc | hc
      · exact ⟨_, hc, hid, hst⟩
      · exact ⟨_, hc, hid, hst⟩
    · unfold JobHasStatus
      rw [show (NotifyCampaignSent env.dbNow orgID createdBy campaignID _
          (CampaignRepository.Update env.dbNow campaign _)).background_job_log = _ from
        (campaign_Update_frame _ _ _).1]
      exact job_UpdateStatus_status _ _ _ _ _
    · rw [show (NotifyCampaignSent env.dbNow orgID createdBy campaignID _
          (CampaignRepository.Update env.dbNow campaign _)).background_job_log = _ from
        (campaign_Update_frame _ _ _).1]
      apply job_UpdateStatus_congr
      apply job_Update_congr
      rw [sendLoop_jobs]
      apply job_Update_congr
      rw [hw2]
      rfl

/-- The calls of a run, on every way through it. -/
theorem ProcessCampaignRunTraced_calls (env : RunEnv) (errs : QueryErrs)
    (jobID campaignID : String) (w : World) :
    JobCallsOf env jobID (LoopReached errs w campaignID) w
      (ProcessCampaignRunTraced env errs jobID campaignID w) := by
  unfold ProcessCampaignRunTraced
  simp only [Traced.call, Traced.step, JobCall.run, List.nil_append]
  have e1 : CampaignRepository.FindByIDOnly
      (BackgroundJobRepository.UpdateStatus env.dbNow jobID "running" "" w) campaignID
      = CampaignRepository.FindByIDOnly w campaignID := rfl
  simp only [e1]
  cases hfind : CampaignRepository.FindByIDOnly w campaignID with
  | none =>
    refine early_exit_calls env jobID _ _ w _ (by decide) ?_ rfl rfl
    rintro ⟨c', t', hr, _⟩
    have := hr.1
    rw [hfind] at this
    cases this
  | some c =>
    simp only []
    by_cases h1 : c.Status = "completed"
    · simp only [if_pos h1]
      exact early_exit_calls env jobID _ _ w _ (by decide)
        (not_LoopReached_of_find errs w campaignID c hfind (fun t hr _ _ => hr.2.1 h1)) rfl rfl
    · simp only [if_neg h1]
      by_cases h2 : c.OrganizationID = ""
      · simp only [if_pos h2]
        exact early_exit_calls env jobID _ _ w _ (by decide)
          (not_LoopReached_of_find errs w campaignID c hfind (fun t hr _ _ => hr.2.2.1 h2))
          rfl rfl
      · simp only [if_neg h2]
        by_cases h3 : c.ScheduleType = "once" ∧ c.LastRunAt ≠ none
        · simp only [if_pos h3, ne_eq, h1, not_false_eq_true, if_true]
          exact early_exit_calls env jobID _ _ w _ (by decide)
            (not_LoopReached_of_find errs w campaignID c hfind
              (fun t hr _ _ => hr.2.2.2.1 h3))
            rfl (campaign_Update_frame _ _ _).1
        · simp only [if_neg h3]
          have e2 : EmailTemplateRepository.FindByID
              (CampaignRepository.UpdateStatus env.dbNow campaignID "running"
                (BackgroundJobRepository.UpdateStatus env.dbNow jobID "running" "" w))
              c.TemplateID c.OrganizationID
                = EmailTemplateRepository.FindByID w c.TemplateID c.OrganizationID := rfl
          have e3 : CampaignRepository.GetRecipientContacts
              (CampaignRepository.UpdateStatus env.dbNow campaignID "running"
                (BackgroundJobRepository.UpdateStatus env.dbNow jobID "running" "" w))
              c = CampaignRepository.GetRecipientContacts w c := rfl
          simp only [e2, e3]
          cases ht : EmailTemplateRepository.FindByID w c.TemplateID c.OrganizationID with
          | none =>
            refine early_exit_calls env jobID _ _ w _ (by decide)
              (not_LoopReached_of_find errs w campaignID c hfind (fun t hr _ _ => ?_)) rfl rfl
            have := hr.2.2.2.2.1
            rw [ht] at this
            cases this
          | some tpl =>
            simp only []
            by_cases h4 : errs.recipientsErr = true ∧ c.ContactID = none ∧
                c.AudienceIDs.length > 0
            · simp only [if_pos h4]
              exact early_exit_calls env jobID _ _ w _ (by decide)
                (not_LoopReached_of_find errs w campaignID c hfind
                  (fun t hr hn _ => hn h4)) rfl rfl
            · simp only [if_neg h4]
              by_cases h5 : (CampaignRepository.GetRecipientContacts w c).length = 0
              · simp only [if_pos h5]
                exact early_exit_calls env jobID _ _ w _ (by decide)
                  (not_LoopReached_of_find errs w campaignID c hfind
                    (fun t hr _ _ => hr.2.2.2.2.2 h5)) rfl rfl
              · simp only [if_neg h5]
                by_cases h6 : errs.contactsErr = true
                · simp only [if_pos h6]
                  exact early_exit_calls env jobID _ _ w _ (by decide)
                    (not_LoopReached_of_find errs w campaignID c hfind
                      (fun t hr _ hc => by rw [h6] at hc; cases hc)) rfl rfl
                · simp only [if_neg h6]
                  have hreach : LoopReached errs w campaignID :=
                    ⟨c, tpl, ⟨hfind, h1, h2, h3, ht, h5⟩, h4, by simpa using h6⟩
                  exact loop_calls env jobID campaignID _ hreach w _ tpl _ _ _ _ rfl

/-- C29: every run of `ProcessCampaignRun`, on every way through it (campaign
not found, any guard, template missing, an error or an empty result of the
queries for the recipients, or the send loop), makes these calls that write
the status of a job, all of them on its own job: first `StartJob`, which
sets the job to `running`; then, only when the send loop is reached, saves
of the job struct, whose status is `running`; and last one call that sets a
terminal status, `FinishJob` (`success`) when the send loop was reached and
`FailJob` (`failed`, with a message) on every other way. So exactly one call
writes a terminal status, the rows of the job have that status in the end,
the job table is the one these calls make, and without an error of the
queries the world is that of `ProcessCampaignRun`. -/
theorem ProcessCampaignRunTraced_job_calls (env : RunEnv) (errs : QueryErrs)
    (jobID campaignID : String) (w : World) :
    ∃ (saves : List JobCall) (last : JobCall),
      (ProcessCampaignRunTraced env errs jobID campaignID w).calls
        = JobCall.UpdateStatus jobID "running" "" :: (saves ++ [last]) ∧
      (∀ c ∈ saves, ∃ job, c = JobCall.Update job ∧ job.ID = jobID ∧ job.Status = "running") ∧
      ((LoopReached errs w campaignID ∧ last = JobCall.UpdateStatus jobID "success" "") ∨
        (¬LoopReached errs w campaignID ∧ saves = [] ∧
          ∃ msg, msg ≠ "" ∧ last = JobCall.UpdateStatus jobID "failed" msg)) ∧
      (∀ c ∈ (ProcessCampaignRunTraced env errs jobID campaignID w).calls, c.id = jobID) ∧
      ((ProcessCampaignRunTraced env errs jobID campaignID w).calls.filter (fun c =>
        decide (c.status = "success" ∨ c.status = "failed"))).length = 1 ∧
      JobHasStatus (ProcessCampaignRunTraced env errs jobID campaignID w).world jobID
        last.status ∧
      (ProcessCampaignRunTraced env errs jobID campaignID w).world.background_job_log
        = ((ProcessCampaignRunTraced env errs jobID campaignID w).calls.foldl
            (fun v c => c.run env.dbNow v) w).background_job_log ∧
      (errs = ⟨false, false⟩ →
        (ProcessCampaignRunTraced env errs jobID campaignID w).world
          = ProcessCampaignRun env jobID campaignID w) := by
  obtain ⟨saves, last, hcalls, hsaves, hlast, hstatus, hreplay⟩ :=
    ProcessCampaignRunTraced_calls env errs jobID campaignID w
  have hlastid : last.id = jobID ∧ (last.status = "success" ∨ last.status = "failed") := by
    rcases hlast with ⟨_, h⟩ | ⟨_, _, msg, _, h⟩
    · rw [h]; exact ⟨rfl, Or.inl rfl⟩
    · rw [h]; exact ⟨rfl, Or.inr rfl⟩
  refine ⟨saves, last, hcalls, hsaves, hlast, ?_, ?_, hstatus, hreplay, ?_⟩
  · intro c hc
    rw [hcalls] at hc
    rcases List.mem_cons.mp hc with hc | hc
    · rw [hc]; rfl
    · rcases List.mem_append.mp hc with hc | hc
      · obtain ⟨job, hjob, hid, _⟩ := hsaves c hc
        rw [hjob]
        exact hid
      · rw [List.mem_singleton] at hc
        rw [hc]
        exact hlastid.1
  · have hnone : saves.filter (fun c =>
        decide (c.status = "success" ∨ c.status = "failed")) = [] := by
      rw [List.filter_eq_nil_iff]
      intro c hc
      obtain ⟨job, hjob, _, hst⟩ := hsaves c hc
      rw [hjob]
      simp [JobCall.status, hst]
    have hone : [last].filter (fun c =>
        decide (c.status = "success" ∨ c.status = "failed")) = [last] := by
      rw [List.filter_eq_self]
      intro c hc
      rw [List.mem_singleton] at hc
      rw [hc]
      exact decide_eq_true hlastid.2
    have hstart : decide ((JobCall.UpdateStatus jobID "running" "").status = "success" ∨
        (JobCall.UpdateStatus jobID "running" "").status = "failed") = false := by
      apply decide_eq_false
      show ¬("running" = "success" ∨ "running" = "failed")
      decide
    rw [hcalls, List.filter_cons, hstart, List.filter_append, hnone, hone]
    rfl
  · intro herrs
    rw [herrs]
    exact ProcessCampaignRunTraced_world env jobID campaignID w

/-- The statement of C29 at the run of the campaign `c3`, which reaches the
send loop, at the same run when a query for the recipients returns an error,
and at the run of the campaign `c4`, which resolves no recipient. -/
theorem ProcessCampaignRunTraced_job_calls_witness :
    (ProcessCampaignRunTraced sampleRunEnv ⟨false, false⟩ "j3" "c3" sampleWorld).calls.map
        (fun c => (c.id, c.status))
      = [("j3", "running"), ("j3", "running"), ("j3", "running"), ("j3", "success")] ∧
    (ProcessCampaignRunTraced sampleRunEnv ⟨true, false⟩ "j3" "c3" sampleWorld).calls
      = [JobCall.UpdateStatus "j3" "running" "",
          JobCall.UpdateStatus "j3" "failed" "Failed to get recipients"] ∧
    (ProcessCampaignRunTraced sampleRunEnv ⟨false, true⟩ "j3" "c3" sampleWorld).calls
      = [JobCall.UpdateStatus "j3" "running" "",
          JobCall.UpdateStatus "j3" "failed" "Failed to fetch contact details"] ∧
    (ProcessCampaignRunTraced sampleRunEnv ⟨false, false⟩ "j4" "c4" sampleWorld).calls
      = [JobCall.UpdateStatus "j4" "running" "",
          JobCall.UpdateStatus "j4" "failed" "No recipients found"] ∧
    ((ProcessCampaignRunTraced sampleRunEnv ⟨false, false⟩ "j3" "c3" sampleWorld).calls.filter
      (fun c => decide (c.status = "success" ∨ c.status = "failed"))).length = 1 ∧
    (BackgroundJobRepository.FindByID
      (ProcessCampaignRunTraced sampleRunEnv ⟨false, false⟩ "j3" "c3" sampleWorld).world
      "j3").map (·.Status) = some "success" :=
  ⟨by decide, by decide, by decide, by decide,
   (ProcessCampaignRunTraced_job_calls sampleRunEnv ⟨false, false⟩ "j3" "c3"
      sampleWorld).elim (fun _ h => h.elim (fun _ h => h.2.2.2.2.1)),
   by decide⟩

end RealEstate
